import Mathlib

/-!
# In-kernel entitlements (`app/libjb/ents.c`)

A shallow embedding of `entitle` in both of its compile-time variants
(`__arm64e__` and `!__arm64e__`), over a byte-addressed kernel memory.

* Kernel memory is a function from addresses to byte values.
* `uint64_t` / `uint32_t` arithmetic is `Nat` arithmetic followed by an
  explicit `% 2 ^ 64` / `% 2 ^ 32`.
* The host is little-endian (arm64): `kread_uint32` / `kread_uint64` and the
  loads of struct fields decode little-endian, `SWAP32` then yields the
  big-endian reading of the code-signing structures.
* Every call of `entitle` yields an `Outcome`: the returned `int`, the kernel
  memory left behind, and the trace of externally visible events (kernel
  reads, kernel writes, allocations, digest computations, the `csops` query
  and `printf` diagnostics) in program order.
-/

namespace Ents

/-! ## Constants of the source -/

/-- Field offset `proc::p_textvp`. -/
def offsetof_p_textvp : Nat := 0x230

/-- Field offset `vnode::v_un::vu_ubcinfo`. -/
def offsetof_vu_ubcinfo : Nat := 0x78

/-- Field offset `ubc_info::cs_blobs`. -/
def offsetof_cs_blobs : Nat := 0x50

/-- The `csops` operation "get entitlements blob". -/
def CS_OPS_ENTITLEMENTS_BLOB : Nat := 7

/-- Magic number of a CodeDirectory blob. -/
def CSMAGIC_CODEDIRECTORY : Nat := 0xfade0c02

/-- Special slot index of the entitlements digest. -/
def CSSLOT_ENTITLEMENTS : Nat := 5

/-- Value of `sizeof(CS_GenericBlob)`: two `uint32_t` and a flexible array member. -/
def sizeof_CS_GenericBlob : Nat := 8

/-- Value of `sizeof(CS_CodeDirectory)`: nine `uint32_t`, four `uint8_t`, one `uint32_t`. -/
def sizeof_CS_CodeDirectory : Nat := 44

/-- Byte offset of `CS_CodeDirectory::magic`. -/
def offsetof_magic : Nat := 0

/-- Byte offset of `CS_CodeDirectory::hashOffset`. -/
def offsetof_hashOffset : Nat := 16

/-- Byte offset of `CS_CodeDirectory::hashSize`. -/
def offsetof_hashSize : Nat := 36

/-- Byte offset of `CS_GenericBlob::length`. -/
def offsetof_length : Nat := 4

/-- Value of `sizeof(struct cs_blob)` under the LP64 ABI of the arm64 targets
(pointers, `off_t`, `vm_size_t`, `vm_offset_t`, `vm_address_t` are 8 bytes,
`cpu_type_t` and `unsigned int` are 4 bytes, 4 bytes of padding follow the
20-byte `csb_cdhash`). -/
def sizeof_cs_blob : Nat := 160

/-- Byte offset of `cs_blob::csb_mem_size`. -/
def offsetof_csb_mem_size : Nat := 40

/-- Byte offset of `cs_blob::csb_mem_kaddr`. -/
def offsetof_csb_mem_kaddr : Nat := 56

/-- Byte offset of `cs_blob::csb_cd`. -/
def offsetof_csb_cd : Nat := 128

/-- Byte offset of `cs_blob::csb_teamid`. -/
def offsetof_csb_teamid : Nat := 136

/-- Byte offset of `cs_blob::csb_entitlements_blob`. -/
def offsetof_csb_entitlements_blob : Nat := 144

/-- Largest value of the C type `int`. -/
def INT_MAX : Nat := 2 ^ 31 - 1

/-! ## Machine integers and byte strings -/

/-- Reduction to `uint64_t`. -/
def u64 (n : Nat) : Nat := n % 2 ^ 64

/-- Reduction to `uint32_t`. -/
def u32 (n : Nat) : Nat := n % 2 ^ 32

/-- Subtraction of `uint64_t` values, wrapping modulo `2 ^ 64`. -/
def sub64 (a b : Nat) : Nat := (a % 2 ^ 64 + (2 ^ 64 - b % 2 ^ 64)) % 2 ^ 64

/-- Conversion of a C `int` to `uint32_t`. -/
def intToU32 (i : Int) : Nat := (i % (2 ^ 32 : Int)).toNat

/-- Little-endian value of a byte string. -/
def le : List Nat → Nat
  | [] => 0
  | b :: bs => b % 256 + 256 * le bs

/-- Little-endian encoding of `v` on `w` bytes. -/
def leBytes : Nat → Nat → List Nat
  | 0, _ => []
  | w + 1, v => v % 256 :: leBytes w (v / 256)

/-- The C macro `SWAP32`, that is `__builtin_bswap32`, on a `uint32_t`. -/
def SWAP32 (p : Nat) : Nat :=
  (p % 256) * 2 ^ 24 + (p / 2 ^ 8 % 256) * 2 ^ 16 + (p / 2 ^ 16 % 256) * 2 ^ 8 + (p / 2 ^ 24 % 256)

/-- Load of a `w`-byte little-endian field at byte offset `off` of a local object. -/
def field (obj : List Nat) (off w : Nat) : Nat := le ((obj.drop off).take w)

/-- Store of a `w`-byte little-endian field at byte offset `off` of a local object. -/
def setField (obj : List Nat) (off w v : Nat) : List Nat :=
  obj.take off ++ leBytes w v ++ obj.drop (off + w)

/-- Overwrite of the bytes of a local object from byte offset `off` on (as `memcpy` into it). -/
def splice (obj : List Nat) (off : Nat) (src : List Nat) : List Nat :=
  obj.take off ++ src ++ obj.drop (off + src.length)

/-- Bytes of an ASCII string literal. -/
def bytesOf (s : String) : List Nat := s.toList.map Char.toNat

/-- The C string stored in a `char` buffer: the bytes before the first NUL. -/
def cstr (p : List Nat) : List Nat := p.takeWhile (fun c => c != 0)

/-! ## Kernel memory and the access facade -/

/-- Kernel memory: the byte held at each address. -/
abbrev KMem := Nat → Nat

/-- The `size` bytes of kernel memory from address `addr` on. -/
def kbytes (m : KMem) (addr size : Nat) : List Nat :=
  (List.range size).map (fun i => m (addr + i))

/-- Kernel memory after the bytes `p` have been stored from address `addr` on. -/
def kstore (m : KMem) (addr : Nat) (p : List Nat) : KMem :=
  fun a => if addr ≤ a ∧ a < addr + p.length then p.getD (a - addr) 0 else m a

/-- Events of a run that are visible outside the process, in program order. -/
inductive Event where
  | kread (addr size : Nat)
  | kwrite (addr : Nat) (bytes : List Nat)
  | kalloc (size addr : Nat)
  | sha256 (data : List Nat)
  | csops (ops len : Nat)
  | printf (fmt : String)
  deriving DecidableEq

/-- The collaborators of `entitle` that the translation unit only declares. -/
structure Env where
  /-- `CC_SHA256` of CommonCrypto, as a function from the message to the digest. -/
  sha : List Nat → List Nat
  /-- `CC_SHA256` stores `CC_SHA256_DIGEST_LENGTH = 32` bytes. -/
  sha_length : ∀ d, (sha d).length = 32
  /-- Number of bytes by which the `k`-th call of `kread` falls short of the
  requested size (0 for the exact full-length transfer). -/
  short : Nat → Nat
  /-- Indeterminate initial content of the uninitialised destination of the `k`-th `kread`. -/
  uninit : Nat → Nat → Nat
  /-- Number of bytes by which the `k`-th call of `kwrite` falls short of the
  requested size (0 for the exact full-length transfer). -/
  wshort : Nat → Nat
  /-- Whether `malloc` / `calloc` returns a non-null pointer. -/
  mallocOk : Bool
  /-- Address returned by `kalloc(size)`. -/
  kallocAddr : Nat → Nat
  /-- Status returned by `csops(getpid(), CS_OPS_ENTITLEMENTS_BLOB, ...)`. -/
  csopsRv : Int

/-- Modelled from the spec: `kread(where, p, size)`, declared only. It transfers
a prefix of the requested bytes into the destination `p` and returns the number
of bytes transferred; it "succeeds only on exact full-length transfer". The
result is the destination afterwards and the count. -/
def kread (m : KMem) (addr : Nat) (p : List Nat) (size short : Nat) : List Nat × Nat :=
  (kbytes m addr (size - short) ++ p.drop (size - short), size - short)

/-- Modelled from the spec: `kread_uint32(where)`, declared only: the `uint32_t` at `where`. -/
def kread_uint32 (m : KMem) (addr : Nat) : Nat := le (kbytes m addr 4)

/-- Modelled from the spec: `kread_uint64(where)`, declared only: the `uint64_t` at `where`. -/
def kread_uint64 (m : KMem) (addr : Nat) : Nat := le (kbytes m addr 8)

/-- Modelled from the spec: `kwrite(where, p, size)`, declared only. It transfers
a prefix of the first `size` bytes of `p` to kernel memory and returns the
number of bytes transferred; it "succeeds only on exact full-length transfer".
The result is kernel memory afterwards and the count, which `entitle` discards. -/
def kwrite (m : KMem) (addr : Nat) (p : List Nat) (size short : Nat) : KMem × Nat :=
  (kstore m addr (p.take (size - short)), size - short)

/-- An uninitialised local object of `size` bytes, the destination of the `k`-th `kread`. -/
def uninitObj (env : Env) (k size : Nat) : List Nat :=
  (List.range size).map (env.uninit k)

/-- The C library's `memcmp(a, b, n)` as a truth value: whether the first `n` bytes differ. -/
def memcmp (a b : List Nat) (n : Nat) : Bool := a.take n != b.take n

/-- What a call of `entitle` leaves behind. -/
structure Outcome where
  /-- The returned `int`. -/
  rv : Int
  /-- Kernel memory after the call. -/
  mem : KMem
  /-- Events of the call, in program order. -/
  trace : List Event

/-- The kernel writes of a trace, in order. -/
def writes : List Event → List (Nat × List Nat)
  | [] => []
  | Event.kwrite a p :: t => (a, p) :: writes t
  | _ :: t => writes t

/-- The digest computations of a trace, in order. -/
def digests : List Event → List (List Nat)
  | [] => []
  | Event.sha256 d :: t => d :: digests t
  | _ :: t => digests t

/-- The kernel allocations of a trace, in order. -/
def allocs : List Event → List (Nat × Nat)
  | [] => []
  | Event.kalloc s a :: t => (s, a) :: allocs t
  | _ :: t => allocs t

/-- The kernel reads of a trace, in order. -/
def reads : List Event → List (Nat × Nat)
  | [] => []
  | Event.kread a n :: t => (a, n) :: reads t
  | _ :: t => reads t

/-- The diagnostics printed by a trace, in order. -/
def prints : List Event → List String
  | [] => []
  | Event.printf s :: t => s :: prints t
  | _ :: t => prints t

/-! ## The entitlements rewriter -/

/-- The format string of the rewriter up to `%s`. -/
def plistHead : String :=
  "<?xml version=\"1.0\" encoding=\"UTF-8\"?>\n<!DOCTYPE plist PUBLIC \"-//Apple//DTD PLIST 1.0//EN\" \"http://www.apple.com/DTDs/PropertyList-1.0.dtd\">\n<plist version=\"1.0\">\n<dict>\n"

/-- The format string of the rewriter after `%s`. -/
def plistTail : String := "\n</dict>\n</plist>\n"

/-- The text `snprintf` renders from the format string and the fragment `ent`. -/
def rendered (ent : List Nat) : List Nat :=
  bytesOf plistHead ++ cstr ent ++ bytesOf plistTail

/-- The C library's `snprintf(str, size, ...)` for rendered text `s`: at most
`size - 1` characters and a terminating NUL are stored into `str` (nothing when
`size = 0`); the return value is the length of `s`, or `-1` when that length
is not representable as an `int`. -/
def snprintf (str : List Nat) (size : Nat) (s : List Nat) : List Nat × Int :=
  (if size = 0 then str else splice str 0 (s.take (size - 1) ++ [0]),
   if s.length ≤ INT_MAX then (s.length : Int) else -1)

/-- Effect of `snprintf(blob->data, size, ...)` on a local entitlements blob:
the payload after the 8-byte header is the destination. -/
def rewrite (blob : List Nat) (size : Nat) (ent : List Nat) : List Nat :=
  blob.take sizeof_CS_GenericBlob ++
    (snprintf (blob.drop sizeof_CS_GenericBlob) size (rendered ent)).1

/-- The `uint32_t newlen` assigned from the `int` that `snprintf` returns; that
value depends on the rendered text only, not on the destination or its size. -/
def newlen (ent : List Nat) : Nat :=
  intToU32 (snprintf [] 0 (rendered ent)).2

/-! ## The blob locator (both variants) -/

/-- Address read by the first `kread_uint64`. -/
def textvpAddr (proc : Nat) : Nat := u64 (proc + offsetof_p_textvp)

/-- Address read by the second `kread_uint64`. -/
def ubcinfoAddr (m : KMem) (proc : Nat) : Nat :=
  u64 (kread_uint64 m (textvpAddr proc) + offsetof_vu_ubcinfo)

/-- Address read by the third `kread_uint64`. -/
def csblobsAddr (m : KMem) (proc : Nat) : Nat :=
  u64 (kread_uint64 m (ubcinfoAddr m proc) + offsetof_cs_blobs)

/-- The variable `off` after the three chained reads: the kernel address of the
`struct cs_blob` of the process. -/
def csblob (m : KMem) (proc : Nat) : Nat := kread_uint64 m (csblobsAddr m proc)

/-- Events of the three chained reads. -/
def locateTrace (m : KMem) (proc : Nat) : List Event :=
  [Event.kread (textvpAddr proc) 8, Event.kread (ubcinfoAddr m proc) 8,
   Event.kread (csblobsAddr m proc) 8]

/-! ## `entitle`, `!__arm64e__` variant

The local variables are functions of the kernel memory and of `off`, the
address of the `struct cs_blob` found by the locator. -/

namespace NonArm64e

/-- The variable `cdir_off`. -/
def cdir_off (m : KMem) (off : Nat) : Nat :=
  kread_uint64 m (u64 (off + offsetof_csb_cd))

/-- The variable `blob_off`. -/
def blob_off (m : KMem) (off : Nat) : Nat :=
  kread_uint64 m (u64 (off + offsetof_csb_entitlements_blob))

/-- The local `cdir` after `kread(cdir_off, &cdir, sizeof(cdir))`. -/
def cdir (env : Env) (m : KMem) (off : Nat) : List Nat :=
  (kread m (cdir_off m off) (uninitObj env 0 sizeof_CS_CodeDirectory)
    sizeof_CS_CodeDirectory (env.short 0)).1

/-- The variable `length`. -/
def length (m : KMem) (off : Nat) : Nat :=
  SWAP32 (kread_uint32 m (u64 (blob_off m off + offsetof_length)))

/-- The buffer `blob` after `kread(blob_off, blob, length)`. -/
def blob (env : Env) (m : KMem) (off : Nat) : List Nat :=
  (kread m (blob_off m off) (uninitObj env 1 (length m off)) (length m off) (env.short 1)).1

/-- The variable `off` once it holds the address of the entitlements hash slot. -/
def hashSlot (env : Env) (m : KMem) (off : Nat) : Nat :=
  sub64 (u64 (cdir_off m off + SWAP32 (field (cdir env m off) offsetof_hashOffset 4)))
    (CSSLOT_ENTITLEMENTS * field (cdir env m off) offsetof_hashSize 1)

/-- The local `buf` after `kread(off, buf, sizeof(buf))`. -/
def buf (env : Env) (m : KMem) (off : Nat) : List Nat :=
  (kread m (hashSlot env m off) (uninitObj env 2 32) 32 (env.short 2)).1

/-- The buffer `blob` after `snprintf` has rendered into `blob->data`. -/
def blob1 (env : Env) (m : KMem) (off : Nat) (ent : List Nat) : List Nat :=
  rewrite (blob env m off) (length m off - 8) ent

/-- Events up to and including the read of the code-directory header. -/
def traceHeader (m : KMem) (proc : Nat) : List Event :=
  locateTrace m proc ++
    [Event.kread (u64 (csblob m proc + offsetof_csb_cd)) 8,
     Event.kread (u64 (csblob m proc + offsetof_csb_entitlements_blob)) 8,
     Event.kread (cdir_off m (csblob m proc)) sizeof_CS_CodeDirectory]

/-- Events up to and including the read of the length field. -/
def traceLength (m : KMem) (proc : Nat) : List Event :=
  traceHeader m proc ++
    [Event.kread (u64 (blob_off m (csblob m proc) + offsetof_length)) 4]

/-- Events up to and including the first digest computation. -/
def traceDigest (env : Env) (m : KMem) (proc : Nat) (verbose : Bool) : List Event :=
  traceLength m proc ++
    [Event.kread (blob_off m (csblob m proc)) (length m (csblob m proc))] ++
    (if verbose then [Event.printf "blob[%d]: \x7b%.*s\x7d\n"] else []) ++
    [Event.kread (hashSlot env m (csblob m proc)) 32, Event.sha256 (blob env m (csblob m proc))]

/-- The function `entitle(proc, ent, verbose)` of the `!__arm64e__` branch. -/
def entitle (env : Env) (m : KMem) (proc : Nat) (ent : List Nat) (verbose : Bool) : Outcome :=
  let off := csblob m proc
  if SWAP32 (field (cdir env m off) offsetof_magic 4) ≠ CSMAGIC_CODEDIRECTORY then
    ⟨-1, m, traceHeader m proc ++ [Event.printf "bad magic\n"]⟩
  else if length m off < 8 then
    ⟨-1, m, traceLength m proc ++ [Event.printf "bad length\n"]⟩
  else if env.mallocOk = false then
    ⟨-1, m, traceLength m proc ++ [Event.printf "no memory\n"]⟩
  else if memcmp (buf env m off) (env.sha (blob env m off)) 32 then
    ⟨-1, m, traceDigest env m proc verbose ++ [Event.printf "bad SHA2\n"]⟩
  else if newlen ent ≥ length m off - 8 then
    ⟨-1, m, traceDigest env m proc verbose ++ [Event.printf "too long\n"]⟩
  else
    let digest := env.sha (blob1 env m off ent)
    let m1 := (kwrite m (hashSlot env m off) digest 32 (env.wshort 0)).1
    let m2 := (kwrite m1 (blob_off m off) (blob1 env m off ent) (length m off) (env.wshort 1)).1
    ⟨env.csopsRv, m2,
      traceDigest env m proc verbose ++
        [Event.sha256 (blob1 env m off ent),
         Event.kwrite (hashSlot env m off) (digest.take 32),
         Event.kwrite (blob_off m off) ((blob1 env m off ent).take (length m off)),
         Event.csops CS_OPS_ENTITLEMENTS_BLOB (length m off)] ++
        (if env.csopsRv ≠ 0 then [Event.printf "bad blob\n"]
         else if verbose then [Event.printf "blob: \x7b%.*s\x7d\n"] else [])⟩

end NonArm64e

/-! ## `entitle`, `__arm64e__` variant

Pointers into the local copy `csb_mem_uaddr` are byte offsets into it. -/

namespace Arm64e

/-- The local `csb` after `kread(off, &csb, sizeof(csb))`. -/
def csb (env : Env) (m : KMem) (off : Nat) : List Nat :=
  (kread m off (uninitObj env 0 sizeof_cs_blob) sizeof_cs_blob (env.short 0)).1

/-- The field `csb.csb_mem_size`. -/
def csb_mem_size (env : Env) (m : KMem) (off : Nat) : Nat :=
  field (csb env m off) offsetof_csb_mem_size 8

/-- The field `csb.csb_mem_kaddr` as read from the kernel. -/
def csb_mem_kaddr (env : Env) (m : KMem) (off : Nat) : Nat :=
  field (csb env m off) offsetof_csb_mem_kaddr 8

/-- The zero-filled buffer `csb_mem_uaddr` after
`kread(csb.csb_mem_kaddr, csb_mem_uaddr, csb.csb_mem_size)`. -/
def csb_mem_uaddr (env : Env) (m : KMem) (off : Nat) : List Nat :=
  (kread m (csb_mem_kaddr env m off) (List.replicate (csb_mem_size env m off) 0)
    (csb_mem_size env m off) (env.short 1)).1

/-- Byte offset in `csb_mem_uaddr` of the local pointer `csb_cd`. -/
def cdOff (env : Env) (m : KMem) (off : Nat) : Nat :=
  sub64 (field (csb env m off) offsetof_csb_cd 8) (csb_mem_kaddr env m off)

/-- Byte offset in `csb_mem_uaddr` of the local pointer `csb_entitlements_blob`. -/
def entOff (env : Env) (m : KMem) (off : Nat) : Nat :=
  sub64 (field (csb env m off) offsetof_csb_entitlements_blob 8) (csb_mem_kaddr env m off)

/-- The variable `length`. -/
def length (env : Env) (m : KMem) (off : Nat) : Nat :=
  SWAP32 (field (csb_mem_uaddr env m off) (entOff env m off + offsetof_length) 4)

/-- Byte offset in `csb_mem_uaddr` of the pointer `buf`, the entitlements hash slot. -/
def bufOff (env : Env) (m : KMem) (off : Nat) : Nat :=
  sub64 (u64 (cdOff env m off +
      SWAP32 (field (csb_mem_uaddr env m off) (cdOff env m off + offsetof_hashOffset) 4)))
    (CSSLOT_ENTITLEMENTS * field (csb_mem_uaddr env m off) (cdOff env m off + offsetof_hashSize) 1)

/-- The `n` bytes of a local object from byte offset `i` on. -/
def slice (obj : List Nat) (i n : Nat) : List Nat := (obj.drop i).take n

/-- The local entitlements blob: `length` bytes at `csb_entitlements_blob`. -/
def blob (env : Env) (m : KMem) (off : Nat) : List Nat :=
  slice (csb_mem_uaddr env m off) (entOff env m off) (length env m off)

/-- The local buffer after `snprintf` has rendered into the entitlements payload. -/
def uaddr1 (env : Env) (m : KMem) (off : Nat) (ent : List Nat) : List Nat :=
  splice (csb_mem_uaddr env m off) (entOff env m off)
    (rewrite (blob env m off) (length env m off - sizeof_CS_GenericBlob) ent)

/-- The local entitlements blob after `snprintf`. -/
def blob1 (env : Env) (m : KMem) (off : Nat) (ent : List Nat) : List Nat :=
  slice (uaddr1 env m off ent) (entOff env m off) (length env m off)

/-- The local buffer after `CC_SHA256(csb_entitlements_blob, length, buf)`. -/
def uaddr2 (env : Env) (m : KMem) (off : Nat) (ent : List Nat) : List Nat :=
  splice (uaddr1 env m off ent) (bufOff env m off) (env.sha (blob1 env m off ent))

/-- The variable `csb_mem_kaddr`: the address returned by `kalloc(csb.csb_mem_size)`. -/
def newBase (env : Env) (m : KMem) (off : Nat) : Nat :=
  u64 (env.kallocAddr (csb_mem_size env m off))

/-- The pointer `p` of the old region rebased: `csb_mem_kaddr + p - csb.csb_mem_kaddr`. -/
def rebase (env : Env) (m : KMem) (off : Nat) (p : Nat) : Nat :=
  sub64 (u64 (newBase env m off + p)) (csb_mem_kaddr env m off)

/-- The local `csb` as written back: three pointers rebased, `csb_mem_kaddr` replaced. -/
def csb1 (env : Env) (m : KMem) (off : Nat) : List Nat :=
  let c0 := csb env m off
  let c1 := setField c0 offsetof_csb_cd 8 (rebase env m off (field c0 offsetof_csb_cd 8))
  let c2 := setField c1 offsetof_csb_entitlements_blob 8
    (rebase env m off (field c1 offsetof_csb_entitlements_blob 8))
  let c3 := setField c2 offsetof_csb_teamid 8 (rebase env m off (field c2 offsetof_csb_teamid 8))
  setField c3 offsetof_csb_mem_kaddr 8 (newBase env m off)

/-- Events up to and including the copy of the backing region. -/
def traceCopy (env : Env) (m : KMem) (proc : Nat) : List Event :=
  locateTrace m proc ++
    [Event.kread (csblob m proc) sizeof_cs_blob,
     Event.kread (csb_mem_kaddr env m (csblob m proc)) (csb_mem_size env m (csblob m proc))]

/-- Events up to and including the first digest computation. -/
def traceDigest (env : Env) (m : KMem) (proc : Nat) (verbose : Bool) : List Event :=
  traceCopy env m proc ++
    (if verbose then [Event.printf "blob[%d]: \x7b%.*s\x7d\n"] else []) ++
    [Event.sha256 (blob env m (csblob m proc))]

/-- The function `entitle(proc, ent, verbose)` of the `__arm64e__` branch. The
result is `none` when the C code has undefined behaviour: `calloc` returned a
null pointer, or an access through `csb_cd`, `csb_entitlements_blob` or `buf`
falls outside the `csb_mem_size` bytes of `csb_mem_uaddr`. -/
def entitle (env : Env) (m : KMem) (proc : Nat) (ent : List Nat) (verbose : Bool) :
    Option Outcome :=
  let off := csblob m proc
  if env.mallocOk = false then none
  else if csb_mem_size env m off < cdOff env m off + sizeof_CS_CodeDirectory then none
  else if SWAP32 (field (csb_mem_uaddr env m off) (cdOff env m off + offsetof_magic) 4)
      ≠ CSMAGIC_CODEDIRECTORY then
    some ⟨-1, m, traceCopy env m proc ++ [Event.printf "bad magic\n"]⟩
  else if csb_mem_size env m off < entOff env m off + sizeof_CS_GenericBlob then none
  else if length env m off < 8 then
    some ⟨-1, m, traceCopy env m proc ++ [Event.printf "bad length\n"]⟩
  else if csb_mem_size env m off < entOff env m off + length env m off then none
  else if csb_mem_size env m off < bufOff env m off + 32 then none
  else if memcmp (slice (csb_mem_uaddr env m off) (bufOff env m off) 32)
      (env.sha (blob env m off)) 32 then
    some ⟨-1, m, traceDigest env m proc verbose ++ [Event.printf "bad SHA2\n"]⟩
  else if newlen ent ≥ length env m off - sizeof_CS_GenericBlob then
    some ⟨-1, m, traceDigest env m proc verbose ++ [Event.printf "too long\n"]⟩
  else
    let m1 := (kwrite m (newBase env m off) (uaddr2 env m off ent) (csb_mem_size env m off)
      (env.wshort 0)).1
    let m2 := (kwrite m1 off (csb1 env m off) sizeof_cs_blob (env.wshort 1)).1
    some ⟨env.csopsRv, m2,
      traceDigest env m proc verbose ++
        [Event.sha256 (blob1 env m off ent),
         Event.kalloc (csb_mem_size env m off) (newBase env m off),
         Event.kwrite (newBase env m off) ((uaddr2 env m off ent).take (csb_mem_size env m off)),
         Event.kwrite off ((csb1 env m off).take sizeof_cs_blob),
         Event.csops CS_OPS_ENTITLEMENTS_BLOB (length env m off)] ++
        (if env.csopsRv ≠ 0 then [Event.printf "bad blob\n"]
         else if verbose then [Event.printf "blob: \x7b%.*s\x7d\n"] else [])⟩

end Arm64e

/-- Every `kread` of the run transfers its full length. -/
def Env.exact (env : Env) : Prop := ∀ k, env.short k = 0

/-- Every `kwrite` of the run transfers its full length. -/
def Env.complete (env : Env) : Prop := ∀ k, env.wshort k = 0

/-- The collaborators `env` with the status returned by the `csops` query replaced by `rv`. -/
def Env.withStatus (env : Env) (rv : Int) : Env :=
  ⟨env.sha, env.sha_length, env.short, env.uninit, env.wshort, env.mallocOk, env.kallocAddr, rv⟩

/-- The last diagnostic printed by a run. -/
def diag (o : Outcome) : Option String := (prints o.trace).getLast?

/-- The address ranges `[a, a + n)` and `[b, b + k)` have no byte in common. -/
def Separate (a n b k : Nat) : Prop := a + n ≤ b ∨ b + k ≤ a

instance (a n b k : Nat) : Decidable (Separate a n b k) := by
  unfold Separate; infer_instance

namespace NonArm64e

/-- The validations that precede the rewriter all pass: magic, length,
allocation and stored digest. -/
def Validated (env : Env) (m : KMem) (off : Nat) : Prop :=
  SWAP32 (field (cdir env m off) offsetof_magic 4) = CSMAGIC_CODEDIRECTORY ∧
  8 ≤ length m off ∧ env.mallocOk = true ∧
  memcmp (buf env m off) (env.sha (blob env m off)) 32 = false

instance (env : Env) (m : KMem) (off : Nat) : Decidable (Validated env m off) := by
  unfold Validated; infer_instance

/-- The run passes every local validation: those before the rewriter and the capacity check. -/
def Passes (env : Env) (m : KMem) (off : Nat) (ent : List Nat) : Prop :=
  Validated env m off ∧ newlen ent < length m off - 8

instance (env : Env) (m : KMem) (off : Nat) (ent : List Nat) :
    Decidable (Passes env m off ent) := by
  unfold Passes; infer_instance

/-- The range `[a, a + n)` shares no byte with the two ranges the run writes,
the hash slot and the entitlements blob. -/
def Clear (env : Env) (m : KMem) (proc : Nat) (a n : Nat) : Prop :=
  Separate a n (hashSlot env m (csblob m proc)) 32 ∧
  Separate a n (blob_off m (csblob m proc)) (length m (csblob m proc))

instance (env : Env) (m : KMem) (proc : Nat) (a n : Nat) : Decidable (Clear env m proc a n) := by
  unfold Clear; infer_instance

/-- The kernel locations the run reads to find the code directory and the
blob (the three locator cells, the two pointer fields of the `struct cs_blob`,
the code-directory header) share no byte with the two ranges it writes, and the
header of the blob lies in the 64-bit address space. -/
def Stable (env : Env) (m : KMem) (proc : Nat) : Prop :=
  Clear env m proc (textvpAddr proc) 8 ∧ Clear env m proc (ubcinfoAddr m proc) 8 ∧
  Clear env m proc (csblobsAddr m proc) 8 ∧
  Clear env m proc (u64 (csblob m proc + offsetof_csb_cd)) 8 ∧
  Clear env m proc (u64 (csblob m proc + offsetof_csb_entitlements_blob)) 8 ∧
  Clear env m proc (cdir_off m (csblob m proc)) sizeof_CS_CodeDirectory ∧
  blob_off m (csblob m proc) + 8 ≤ 2 ^ 64

instance (env : Env) (m : KMem) (proc : Nat) : Decidable (Stable env m proc) := by
  unfold Stable; infer_instance

end NonArm64e

namespace Arm64e

/-- Every access of the run through `csb_cd`, `csb_entitlements_blob` and `buf`
stays inside the local copy of the backing region, and `calloc` succeeded: the
run has defined behaviour. -/
def InRegion (env : Env) (m : KMem) (off : Nat) : Prop :=
  env.mallocOk = true ∧
  cdOff env m off + sizeof_CS_CodeDirectory ≤ csb_mem_size env m off ∧
  entOff env m off + sizeof_CS_GenericBlob ≤ csb_mem_size env m off ∧
  entOff env m off + length env m off ≤ csb_mem_size env m off ∧
  bufOff env m off + 32 ≤ csb_mem_size env m off

instance (env : Env) (m : KMem) (off : Nat) : Decidable (InRegion env m off) := by
  unfold InRegion; infer_instance

/-- The validations that precede the rewriter all pass: magic, length and stored digest. -/
def Validated (env : Env) (m : KMem) (off : Nat) : Prop :=
  SWAP32 (field (csb_mem_uaddr env m off) (cdOff env m off + offsetof_magic) 4)
    = CSMAGIC_CODEDIRECTORY ∧
  8 ≤ length env m off ∧
  memcmp (slice (csb_mem_uaddr env m off) (bufOff env m off) 32) (env.sha (blob env m off)) 32
    = false

instance (env : Env) (m : KMem) (off : Nat) : Decidable (Validated env m off) := by
  unfold Validated; infer_instance

/-- The run passes every local validation: those before the rewriter and the capacity check. -/
def Passes (env : Env) (m : KMem) (off : Nat) (ent : List Nat) : Prop :=
  Validated env m off ∧ newlen ent < length env m off - 8

instance (env : Env) (m : KMem) (off : Nat) (ent : List Nat) :
    Decidable (Passes env m off ent) := by
  unfold Passes; infer_instance

/-- Modelled from the spec: `kalloc`, declared only, "returns a fresh
kernel-space region". The region `[newBase, newBase + csb_mem_size)` lies in
the 64-bit address space and shares no byte with the `struct cs_blob` at
`off`, which itself lies in the 64-bit address space. -/
def Fresh (env : Env) (m : KMem) (off : Nat) : Prop :=
  newBase env m off + csb_mem_size env m off ≤ 2 ^ 64 ∧ off + sizeof_cs_blob ≤ 2 ^ 64 ∧
  Separate off sizeof_cs_blob (newBase env m off) (csb_mem_size env m off)

instance (env : Env) (m : KMem) (off : Nat) : Decidable (Fresh env m off) := by
  unfold Fresh; infer_instance

/-- The code-directory header, the hash slot and the entitlements blob occupy
pairwise disjoint byte ranges of the backing region. -/
def Apart (env : Env) (m : KMem) (off : Nat) : Prop :=
  Separate (bufOff env m off) 32 (entOff env m off) (length env m off) ∧
  Separate (cdOff env m off) sizeof_CS_CodeDirectory (entOff env m off) (length env m off) ∧
  Separate (cdOff env m off) sizeof_CS_CodeDirectory (bufOff env m off) 32

instance (env : Env) (m : KMem) (off : Nat) : Decidable (Apart env m off) := by
  unfold Apart; infer_instance

/-- The previous backing region `[csb.csb_mem_kaddr, csb.csb_mem_kaddr + csb.csb_mem_size)`
shares no byte with the two ranges the run writes: the `struct cs_blob` at `off`
and the region returned by `kalloc`. -/
def Detached (env : Env) (m : KMem) (off : Nat) : Prop :=
  Separate (csb_mem_kaddr env m off) (csb_mem_size env m off) off sizeof_cs_blob ∧
  Separate (csb_mem_kaddr env m off) (csb_mem_size env m off)
    (newBase env m off) (csb_mem_size env m off)

instance (env : Env) (m : KMem) (off : Nat) : Decidable (Detached env m off) := by
  unfold Detached; infer_instance

end Arm64e

/-! ## The backing region, in kernel addresses

The hypothesis under which the two variants are compared, worded as the data
model words it: the structures the record designates lie inside
`[base, base + size)`. -/

/-- The field `csb_mem_kaddr` of the `struct cs_blob` at `off`, in kernel memory. -/
def regionBase (m : KMem) (off : Nat) : Nat :=
  kread_uint64 m (u64 (off + offsetof_csb_mem_kaddr))

/-- The field `csb_mem_size` of the `struct cs_blob` at `off`, in kernel memory. -/
def regionSize (m : KMem) (off : Nat) : Nat :=
  kread_uint64 m (u64 (off + offsetof_csb_mem_size))

/-- The kernel byte range `[a, a + n)` lies inside the backing region of the record at `off`. -/
def Within (m : KMem) (off a n : Nat) : Prop :=
  regionBase m off ≤ a ∧ a + n ≤ regionBase m off + regionSize m off

instance (m : KMem) (off a n : Nat) : Decidable (Within m off a n) := by
  unfold Within; infer_instance

/-- The code-directory header, the entitlements blob (its 8-byte header and its
`length` bytes) and the 32-byte hash slot of the record at `off` all lie inside
the backing region of the record; the record and the region lie in the 64-bit
address space. -/
def Inside (env : Env) (m : KMem) (off : Nat) : Prop :=
  off + sizeof_cs_blob ≤ 2 ^ 64 ∧ regionBase m off + regionSize m off ≤ 2 ^ 64 ∧
  Within m off (NonArm64e.cdir_off m off) sizeof_CS_CodeDirectory ∧
  Within m off (NonArm64e.blob_off m off) sizeof_CS_GenericBlob ∧
  Within m off (NonArm64e.blob_off m off) (NonArm64e.length m off) ∧
  Within m off (NonArm64e.hashSlot env m off) 32

instance (env : Env) (m : KMem) (off : Nat) : Decidable (Inside env m off) := by
  unfold Inside; infer_instance

/-! ## SHA-256

The digest function of the sample targets: FIPS 180-4 on byte strings, 32-bit
words as `Nat` modulo `2 ^ 32`. -/

namespace Sha

/-- Rotation of a 32-bit word to the right. -/
def rotr (x n : Nat) : Nat := (x >>> n ||| x <<< (32 - n)) % 2 ^ 32

/-- The round constants of SHA-256 (FIPS 180-4, section 4.2.2), in decimal: the first
32 bits of the fractional parts of the cube roots of the first 64 primes. -/
def K : List Nat :=
  [1116352408, 1899447441, 3049323471, 3921009573, 961987163, 1508970993,
   2453635748, 2870763221, 3624381080, 310598401, 607225278, 1426881987,
   1925078388, 2162078206, 2614888103, 3248222580, 3835390401, 4022224774,
   264347078, 604807628, 770255983, 1249150122, 1555081692, 1996064986,
   2554220882, 2821834349, 2952996808, 3210313671, 3336571891, 3584528711,
   113926993, 338241895, 666307205, 773529912, 1294757372, 1396182291,
   1695183700, 1986661051, 2177026350, 2456956037, 2730485921, 2820302411,
   3259730800, 3345764771, 3516065817, 3600352804, 4094571909, 275423344,
   430227734, 506948616, 659060556, 883997877, 958139571, 1322822218,
   1537002063, 1747873779, 1955562222, 2024104815, 2227730452, 2361852424,
   2428436474, 2756734187, 3204031479, 3329325298]

/-- The eight working variables / hash words. -/
structure St where
  a : Nat
  b : Nat
  c : Nat
  d : Nat
  e : Nat
  f : Nat
  g : Nat
  h : Nat

/-- The initial hash value (FIPS 180-4, section 5.3.3). -/
def H0 : St :=
  ⟨0x6a09e667, 0xbb67ae85, 0x3c6ef372, 0xa54ff53a, 0x510e527f, 0x9b05688c, 0x1f83d9ab, 0x5be0cd19⟩

/-- The padded message: a `1` bit, zeros, and the bit length on 8 bytes, big-endian. -/
def pad (msg : List Nat) : List Nat :=
  msg ++ [0x80] ++ List.replicate ((119 - msg.length % 64) % 64) 0 ++
    (List.range 8).map (fun i => (8 * msg.length) / 2 ^ (8 * (7 - i)) % 256)

/-- Big-endian 32-bit words of a byte string. -/
def words : Nat → List Nat → List Nat
  | 0, _ => []
  | n + 1, b0 :: b1 :: b2 :: b3 :: t =>
    ((b0 % 256) * 2 ^ 24 + (b1 % 256) * 2 ^ 16 + (b2 % 256) * 2 ^ 8 + b3 % 256) :: words n t
  | _ + 1, _ => []

/-- The message schedule, newest word first, extended by `n` words. -/
def extend : Nat → List Nat → List Nat
  | 0, r => r
  | n + 1, r =>
    let w2 := r.getD 1 0
    let w7 := r.getD 6 0
    let w15 := r.getD 14 0
    let w16 := r.getD 15 0
    let s0 := rotr w15 7 ^^^ rotr w15 18 ^^^ (w15 >>> 3)
    let s1 := rotr w2 17 ^^^ rotr w2 19 ^^^ (w2 >>> 10)
    extend n (((s1 + w7 + s0 + w16) % 2 ^ 32) :: r)

/-- One round of the compression function. -/
def round (s : St) (kw : Nat × Nat) : St :=
  let S1 := rotr s.e 6 ^^^ rotr s.e 11 ^^^ rotr s.e 25
  let ch := (s.e &&& s.f) ^^^ ((2 ^ 32 - 1 - s.e) &&& s.g)
  let t1 := (s.h + S1 + ch + kw.1 + kw.2) % 2 ^ 32
  let S0 := rotr s.a 2 ^^^ rotr s.a 13 ^^^ rotr s.a 22
  let maj := (s.a &&& s.b) ^^^ (s.a &&& s.c) ^^^ (s.b &&& s.c)
  let t2 := (S0 + maj) % 2 ^ 32
  ⟨(t1 + t2) % 2 ^ 32, s.a, s.b, s.c, (s.d + t1) % 2 ^ 32, s.e, s.f, s.g⟩

/-- The compression of one 64-byte block into the hash value. -/
def compress (s : St) (block : List Nat) : St :=
  let w := (extend 48 (words 16 block).reverse).reverse
  let t := (K.zip w).foldl round s
  ⟨(s.a + t.a) % 2 ^ 32, (s.b + t.b) % 2 ^ 32, (s.c + t.c) % 2 ^ 32, (s.d + t.d) % 2 ^ 32,
   (s.e + t.e) % 2 ^ 32, (s.f + t.f) % 2 ^ 32, (s.g + t.g) % 2 ^ 32, (s.h + t.h) % 2 ^ 32⟩

/-- The hash value after `n` blocks of the padded message. -/
def blocks : Nat → St → List Nat → St
  | 0, s, _ => s
  | n + 1, s, p => blocks n (compress s (p.take 64)) (p.drop 64)

/-- The four bytes of a 32-bit word, big-endian. -/
def be4 (w : Nat) : List Nat := [w / 2 ^ 24 % 256, w / 2 ^ 16 % 256, w / 2 ^ 8 % 256, w % 256]

/-- SHA-256 (FIPS 180-4) of a byte string. -/
def sha256 (msg : List Nat) : List Nat :=
  let s := blocks ((msg.length + 72) / 64) H0 (pad msg)
  be4 s.a ++ be4 s.b ++ be4 s.c ++ be4 s.d ++ be4 s.e ++ be4 s.f ++ be4 s.g ++ be4 s.h

end Sha

/-! ## Sample targets -/

namespace Sample

/-- Kernel memory holding the listed byte strings at the listed addresses, zero elsewhere. -/
def memOf : List (Nat × List Nat) → KMem
  | [] => fun _ => 0
  | (b, p) :: t => fun a => if b ≤ a ∧ a < b + p.length then p.getD (a - b) 0 else memOf t a

/-- Collaborators of the sample runs: `CC_SHA256` is SHA-256, allocations
succeed, `kalloc` returns `0x9000`, every `kwrite` transfers in full; the `k`-th
`kread` falls short by `short k` bytes and `csops` returns `rv`. -/
def envWith (short : Nat → Nat) (rv : Int) : Env where
  sha := Sha.sha256
  sha_length := fun _ => rfl
  short := short
  uninit := fun _ _ => 0xAA
  wshort := fun _ => 0
  mallocOk := true
  kallocAddr := fun _ => 0x9000
  csopsRv := rv

/-- Collaborators of the sample runs: exact reads, query status 0. -/
def env : Env := envWith (fun _ => 0) 0

/-- The process handle of the sample targets. -/
def proc : Nat := 0x1000

/-- The locator cells and the `struct cs_blob` at `0x4000` of the sample targets:
backing region of `0x180` bytes at `0x5000`, code directory at `0x5000`,
team identifier at `0x5170`, entitlements blob at `0x5060`. -/
def record : List (Nat × List Nat) :=
  [(0x1230, leBytes 8 0x2000), (0x2078, leBytes 8 0x3000), (0x3050, leBytes 8 0x4000),
   (0x4000 + 40, leBytes 8 0x180), (0x4000 + 56, leBytes 8 0x5000),
   (0x4000 + 128, leBytes 8 0x5000), (0x4000 + 136, leBytes 8 0x5170),
   (0x4000 + 144, leBytes 8 0x5060)]

/-- A code-directory header with the given big-endian `hashOffset` bytes and `hashSize = 32`. -/
def cdhdr (hashOffset : List Nat) : List Nat :=
  [0xfa, 0xde, 0x0c, 0x02] ++ List.replicate 12 0 ++ hashOffset ++ List.replicate 16 0 ++
    [32] ++ List.replicate 7 0

/-- An entitlements blob of total length 256: header and 248 payload bytes `'A'`. -/
def blob0 : List Nat := [0xfa, 0xde, 0x71, 0x71, 0, 0, 1, 0] ++ List.replicate 248 65

/-- SHA-256 of `blob0`. -/
def digest0 : List Nat :=
    [209, 139, 58, 96, 168, 141, 44, 10, 155, 100, 156, 7, 101, 174, 103, 135, 39, 238, 116, 20,
  183, 121, 251, 127, 214, 218, 199, 238, 78, 3, 37, 248]

/-- A well-formed target: the hash slot (`hashOffset = 0xe0`) is at `0x5040`,
before the entitlements blob, and holds the SHA-256 of the blob. -/
def world : KMem :=
  memOf (record ++ [(0x5000, cdhdr [0, 0, 0, 0xe0]), (0x5040, digest0), (0x5060, blob0),
    (0x5170, [84, 69, 65, 77, 0])])

/-- The well-formed target with a stale digest in the hash slot. -/
def stale : KMem :=
  memOf (record ++ [(0x5000, cdhdr [0, 0, 0, 0xe0]), (0x5040, List.replicate 32 0),
    (0x5060, blob0)])

/-- A target whose code directory does not start with the CodeDirectory magic. -/
def badMagic : KMem :=
  memOf (record ++ [(0x5000, [0xfa, 0xde, 0x0c, 0x01]), (0x5040, digest0), (0x5060, blob0)])

/-- A target whose entitlements blob announces a total length of 4. -/
def badLength : KMem :=
  memOf (record ++ [(0x5000, cdhdr [0, 0, 0, 0xe0]), (0x5040, digest0),
    (0x5060, [0xfa, 0xde, 0x71, 0x71, 0, 0, 0, 4])])

/-- An entitlements blob of total length 256 whose last two bytes are the first
two bytes of its own SHA-256. -/
def blobO : List Nat :=
  [0xfa, 0xde, 0x71, 0x71, 0, 0, 1, 0] ++ List.replicate 240 65 ++ [0, 0, 0, 0, 0, 0, 151, 1]

/-- SHA-256 of `blobO`. -/
def digestO : List Nat :=
    [151, 1, 255, 56, 125, 214, 51, 47, 3, 37, 15, 77, 28, 202, 233, 58, 7, 71, 100, 130, 93,
  249, 234, 114, 219, 137, 77, 107, 173, 165, 53, 204]

/-- A target whose hash slot (`hashOffset = 0x1fe`) is at `0x515e`: its first two
bytes are the last two bytes of the entitlements blob. The stored digest is the
SHA-256 of the blob. -/
def overlap : KMem :=
  memOf (record ++ [(0x5000, cdhdr [0, 0, 1, 0xfe]), (0x5060, blobO), (0x5160, digestO.drop 2)])

/-- The fragment `<key>get-task-allow</key><true/>`. -/
def frag : List Nat := bytesOf "<key>get-task-allow</key><true/>"

/-- A fragment of 250 bytes. -/
def frag250 : List Nat := List.replicate 250 65

/-- A fragment of 58 bytes: rendered, it fills a 248-byte payload up to the terminating NUL. -/
def frag58 : List Nat := frag ++ List.replicate 26 32

/-- A code-directory header with the given big-endian `hashOffset` bytes and the given `hashSize`. -/
def cdhdrOf (hashOffset : List Nat) (hashSize : Nat) : List Nat :=
  [0xfa, 0xde, 0x0c, 0x02] ++ List.replicate 12 0 ++ hashOffset ++ List.replicate 16 0 ++
    [hashSize] ++ List.replicate 7 0

/-- A target whose header announces 20-byte hashes: with `hashOffset = 0xa4` the
entitlements slot is at `0x5000 + 0xa4 - 5 * 20 = 0x5040`. It holds the first 20
bytes of the SHA-256 of the blob; the 12 bytes after it belong to the next slot. -/
def narrow : KMem :=
  memOf (record ++ [(0x5000, cdhdrOf [0, 0, 0, 0xa4] 20),
    (0x5040, digest0.take 20 ++ List.replicate 12 7), (0x5060, blob0)])

/-- The locator cells and a `struct cs_blob` at `0x5160` that lies inside the
backing region it describes: `0x200` bytes at `0x5000`, code directory at
`0x5000`, team identifier at `0x5030`, entitlements blob at `0x5060`. -/
def recordIn : List (Nat × List Nat) :=
  [(0x1230, leBytes 8 0x2000), (0x2078, leBytes 8 0x3000), (0x3050, leBytes 8 0x5160),
   (0x5160 + 40, leBytes 8 0x200), (0x5160 + 56, leBytes 8 0x5000),
   (0x5160 + 128, leBytes 8 0x5000), (0x5160 + 136, leBytes 8 0x5030),
   (0x5160 + 144, leBytes 8 0x5060)]

/-- The well-formed target, with its record stored inside its own backing region. -/
def nested : KMem :=
  memOf (recordIn ++ [(0x5000, cdhdr [0, 0, 0, 0xe0]), (0x5030, [84, 69, 65, 77, 0]),
    (0x5040, digest0), (0x5060, blob0)])

/-- The locator cells and the `struct cs_blob` at `0x4000` of a target with an
entitlements blob of `0x80000100` bytes at `0x6000`. -/
def recordHuge : List (Nat × List Nat) :=
  [(0x1230, leBytes 8 0x2000), (0x2078, leBytes 8 0x3000), (0x3050, leBytes 8 0x4000),
   (0x4000 + 40, leBytes 8 0x80002000), (0x4000 + 56, leBytes 8 0x5000),
   (0x4000 + 128, leBytes 8 0x5000), (0x4000 + 136, leBytes 8 0x5030),
   (0x4000 + 144, leBytes 8 0x6000)]

/-- The target with the large blob, before its hash slot is filled: the payload is zero. -/
def hugeBase : KMem :=
  memOf (recordHuge ++ [(0x5000, cdhdr [0, 0, 0, 0xe0]),
    (0x6000, [0xfa, 0xde, 0x71, 0x71, 0x80, 0, 1, 0])])

/-- The target with the large blob: the hash slot at `0x5040` holds the SHA-256 of the blob. -/
def huge : KMem :=
  kstore hugeBase 0x5040 (Sha.sha256 (kbytes hugeBase 0x6000 0x80000100))

/-- A NUL-free fragment of `2 ^ 31 - 189` bytes: rendered, it has `2 ^ 31` bytes,
one more than an `int` can count. -/
def frag2G : List Nat := List.replicate (2 ^ 31 - 189) 65

/-- Collaborators of a run whose `k`-th `kread`, of `size` bytes, transfers
nothing and leaves in its destination the bytes `old` that were there before;
every other `kread` and every `kwrite` transfers in full, `csops` returns 0. -/
def envStale (k size : Nat) (old : List Nat) : Env where
  sha := Sha.sha256
  sha_length := fun _ => rfl
  short := fun i => if i = k then size else 0
  uninit := fun i j => if i = k then old.getD j 0 else 0xAA
  wshort := fun _ => 0
  mallocOk := true
  kallocAddr := fun _ => 0x9000
  csopsRv := 0

/-- An entitlements blob of total length 256 with another magic and a payload of `'B'`. -/
def blobX : List Nat := [0xfa, 0xde, 0x71, 0x72, 0, 0, 1, 0] ++ List.replicate 248 66

/-- SHA-256 of `blobX`. -/
def digestX : List Nat :=
    [96, 55, 163, 7, 109, 119, 155, 133, 49, 214, 168, 136, 212, 152, 158, 179, 209, 212, 129,
  55, 106, 14, 92, 242, 112, 222, 33, 201, 222, 216, 20, 65]

/-- The well-formed target with, in its hash slot, the SHA-256 of `blobX` and not of its blob. -/
def worldX : KMem :=
  memOf (record ++ [(0x5000, cdhdr [0, 0, 0, 0xe0]), (0x5040, digestX), (0x5060, blob0)])

end Sample

/-! ## Byte strings and kernel memory -/

theorem ext_getD {l1 l2 : List Nat} (hl : l1.length = l2.length)
    (h : ∀ j, j < l1.length → l1.getD j 0 = l2.getD j 0) : l1 = l2 := by
  apply List.ext_getElem hl
  intro j h1 h2
  have := h j h1
  simpa [List.getD_eq_getElem?_getD, List.getElem?_eq_getElem h1, List.getElem?_eq_getElem h2]
    using this

theorem kbytes_length (m : KMem) (a n : Nat) : (kbytes m a n).length = n := by
  simp [kbytes]

theorem getD_kbytes (m : KMem) (a n j : Nat) (h : j < n) : (kbytes m a n).getD j 0 = m (a + j) := by
  simp [kbytes, List.getD_eq_getElem?_getD, List.getElem?_map, List.getElem?_range h]

theorem kbytes_congr (m1 m2 : KMem) (a n : Nat) (h : ∀ j, j < n → m1 (a + j) = m2 (a + j)) :
    kbytes m1 a n = kbytes m2 a n := by
  apply ext_getD (by simp [kbytes_length])
  intro j hj
  rw [kbytes_length] at hj
  rw [getD_kbytes _ _ _ _ hj, getD_kbytes _ _ _ _ hj, h j hj]

theorem kread_zero (m : KMem) (a : Nat) (p : List Nat) (size : Nat) (h : p.length = size) :
    (kread m a p size 0).1 = kbytes m a size := by
  simp [kread, ← h]

theorem kread_length (m : KMem) (a : Nat) (p : List Nat) (size short : Nat)
    (h : p.length = size) : (kread m a p size short).1.length = size := by
  simp [kread, kbytes_length, h]

theorem kstore_inside (m : KMem) (a : Nat) (p : List Nat) (x : Nat)
    (h : a ≤ x ∧ x < a + p.length) : kstore m a p x = p.getD (x - a) 0 := by
  simp [kstore, h]

theorem kstore_outside (m : KMem) (a : Nat) (p : List Nat) (x : Nat)
    (h : x < a ∨ a + p.length ≤ x) : kstore m a p x = m x := by
  have : ¬ (a ≤ x ∧ x < a + p.length) := by omega
  simp [kstore, this]

theorem getD_slice (obj : List Nat) (i n j : Nat) (h : j < n) :
    (Arm64e.slice obj i n).getD j 0 = obj.getD (i + j) 0 := by
  simp [Arm64e.slice, List.getD_eq_getElem?_getD, List.getElem?_take, h, List.getElem?_drop]

theorem slice_length (obj : List Nat) (i n : Nat) (h : i + n ≤ obj.length) :
    (Arm64e.slice obj i n).length = n := by
  simp [Arm64e.slice]; omega

theorem kbytes_kstore_inside (m : KMem) (a : Nat) (p : List Nat) (i n : Nat)
    (h : i + n ≤ p.length) : kbytes (kstore m a p) (a + i) n = Arm64e.slice p i n := by
  apply ext_getD (by rw [kbytes_length, slice_length _ _ _ h])
  intro j hj
  rw [kbytes_length] at hj
  rw [getD_kbytes _ _ _ _ hj, getD_slice _ _ _ _ hj, kstore_inside _ _ _ _ (by omega)]
  congr 1; omega

theorem kbytes_kstore_self (m : KMem) (a : Nat) (p : List Nat) :
    kbytes (kstore m a p) a p.length = p := by
  have := kbytes_kstore_inside m a p 0 p.length (by omega)
  simpa [Arm64e.slice] using this

theorem kbytes_kstore_separate (m : KMem) (a : Nat) (p : List Nat) (b n : Nat)
    (h : Separate b n a p.length) : kbytes (kstore m a p) b n = kbytes m b n := by
  apply kbytes_congr
  intro j hj
  apply kstore_outside
  unfold Separate at h
  omega

theorem slice_kbytes (m : KMem) (a n i k : Nat) (h : i + k ≤ n) :
    Arm64e.slice (kbytes m a n) i k = kbytes m (a + i) k := by
  apply ext_getD (by rw [kbytes_length, slice_length _ _ _ (by rw [kbytes_length]; exact h)])
  intro j hj
  rw [slice_length _ _ _ (by rw [kbytes_length]; exact h)] at hj
  rw [getD_slice _ _ _ _ hj, getD_kbytes _ _ _ _ hj, getD_kbytes _ _ _ _ (by omega), Nat.add_assoc]

theorem take_kbytes (m : KMem) (a n k : Nat) (h : k ≤ n) :
    (kbytes m a n).take k = kbytes m a k := by
  have := slice_kbytes m a n 0 k (by omega)
  simpa [Arm64e.slice] using this

theorem drop_kbytes (m : KMem) (a n k : Nat) (h : k ≤ n) :
    (kbytes m a n).drop k = kbytes m (a + k) (n - k) := by
  have := slice_kbytes m a n k (n - k) (by omega)
  simp only [Arm64e.slice] at this
  rw [← this, List.take_of_length_le]
  simp [kbytes_length]

theorem splice_length (obj : List Nat) (i : Nat) (src : List Nat)
    (h : i + src.length ≤ obj.length) : (splice obj i src).length = obj.length := by
  simp [splice]; omega

theorem getD_splice (obj : List Nat) (i : Nat) (src : List Nat) (j : Nat)
    (h : i + src.length ≤ obj.length) :
    (splice obj i src).getD j 0 =
      if i ≤ j ∧ j < i + src.length then src.getD (j - i) 0 else obj.getD j 0 := by
  simp only [splice, List.getD_eq_getElem?_getD, List.append_assoc]
  by_cases h1 : j < i
  · have : ¬ (i ≤ j ∧ j < i + src.length) := by omega
    rw [if_neg this, List.getElem?_append_left (by simp; omega), List.getElem?_take]
    simp [h1]
  · by_cases h2 : j < i + src.length
    · rw [if_pos ⟨by omega, h2⟩, List.getElem?_append_right (by simp; omega),
        List.getElem?_append_left (by simp; omega)]
      simp [Nat.min_eq_left (show i ≤ obj.length by omega)]
    · have : ¬ (i ≤ j ∧ j < i + src.length) := by omega
      rw [if_neg this, List.getElem?_append_right (by simp; omega),
        List.getElem?_append_right (by simp; omega), List.getElem?_drop]
      simp only [List.length_take, Nat.min_eq_left (show i ≤ obj.length by omega)]
      congr 2; omega

/-! ## Machine integers -/

theorem le_lt (bs : List Nat) : le bs < 256 ^ bs.length := by
  induction bs with
  | nil => simp [le]
  | cons b bs ih =>
    simp only [le, List.length_cons, pow_succ]
    have := Nat.mod_lt b (show 256 > 0 by norm_num)
    omega

theorem SWAP32_lt (p : Nat) : SWAP32 p < 2 ^ 32 := by
  unfold SWAP32
  have h1 := Nat.mod_lt p (show 256 > 0 by norm_num)
  have h2 := Nat.mod_lt (p / 2 ^ 8) (show 256 > 0 by norm_num)
  have h3 := Nat.mod_lt (p / 2 ^ 16) (show 256 > 0 by norm_num)
  have h4 := Nat.mod_lt (p / 2 ^ 24) (show 256 > 0 by norm_num)
  omega

theorem memcmp_false_iff (a b : List Nat) (ha : a.length = 32) (hb : b.length = 32) :
    memcmp a b 32 = false ↔ a = b := by
  unfold memcmp
  rw [List.take_of_length_le (by omega), List.take_of_length_le (by omega)]
  simp

theorem memcmp_true_iff (a b : List Nat) (ha : a.length = 32) (hb : b.length = 32) :
    memcmp a b 32 = true ↔ a ≠ b := by
  unfold memcmp
  rw [List.take_of_length_le (by omega), List.take_of_length_le (by omega)]
  simp

/-! ## The rewriter -/

theorem newlen_small (ent : List Nat) (h : (rendered ent).length ≤ INT_MAX) :
    newlen ent = (rendered ent).length := by
  have h2 : (rendered ent).length < 2 ^ 32 := by
    have : INT_MAX < 2 ^ 32 := by decide
    omega
  simp only [newlen, snprintf, h, if_true, intToU32]
  have : ((rendered ent).length : Int) % (2 ^ 32 : Int) = ((rendered ent).length : Int) := by
    apply Int.emod_eq_of_lt
    · exact Int.natCast_nonneg _
    · exact_mod_cast h2
  rw [this]; simp

theorem newlen_big (ent : List Nat) (h : INT_MAX < (rendered ent).length) :
    newlen ent = 2 ^ 32 - 1 := by
  have h' : ¬ (rendered ent).length ≤ INT_MAX := by omega
  simp only [newlen, snprintf, h', if_false, intToU32]
  decide

theorem newlen_ge (ent : List Nat) (c : Nat) (hc : c < 2 ^ 32) (h : c ≤ (rendered ent).length) :
    c ≤ newlen ent := by
  by_cases hs : (rendered ent).length ≤ INT_MAX
  · rw [newlen_small ent hs]; exact h
  · rw [newlen_big ent (by omega)]; omega

theorem newlen_lt (ent : List Nat) (c : Nat) (hc : c < 2 ^ 32) (h : newlen ent < c) :
    newlen ent = (rendered ent).length ∧ (rendered ent).length ≤ INT_MAX := by
  by_cases hs : (rendered ent).length ≤ INT_MAX
  · exact ⟨newlen_small ent hs, hs⟩
  · rw [newlen_big ent (by omega)] at h; omega

theorem rewrite_fit (blob : List Nat) (ent : List Nat) (h8 : 8 ≤ blob.length)
    (h : (rendered ent).length < blob.length - 8) :
    rewrite blob (blob.length - 8) ent =
      blob.take 8 ++ (rendered ent ++ [0] ++ blob.drop (8 + ((rendered ent).length + 1))) := by
  have hs : ¬ blob.length - 8 = 0 := by omega
  have ht : (rendered ent).take (blob.length - 8 - 1) = rendered ent :=
    List.take_of_length_le (by omega)
  simp only [rewrite, snprintf, sizeof_CS_GenericBlob, hs, if_false, ht, splice]
  simp

theorem rewrite_length (blob : List Nat) (ent : List Nat) (h8 : 8 ≤ blob.length) :
    (rewrite blob (blob.length - 8) ent).length = blob.length := by
  simp only [rewrite, snprintf, sizeof_CS_GenericBlob]
  split_ifs with hs
  · simp
  · rw [List.length_append, splice_length]
    · simp
      all_goals omega
    · simp
      all_goals omega

theorem rewrite_idem (blob : List Nat) (ent : List Nat) (h8 : 8 ≤ blob.length)
    (h : (rendered ent).length < blob.length - 8) :
    rewrite (rewrite blob (blob.length - 8) ent) (blob.length - 8) ent =
      rewrite blob (blob.length - 8) ent := by
  have hl := rewrite_length blob ent h8
  have h1 := rewrite_fit (rewrite blob (blob.length - 8) ent) ent (by omega) (by omega)
  rw [hl] at h1
  rw [h1]
  have h2 := rewrite_fit blob ent h8 h
  rw [h2]
  have e1 : (blob.take 8).length = 8 := by simp; omega
  congr 1
  · rw [List.take_append_of_le_length (by omega), List.take_take]; simp
  · congr 1
    rw [show 8 + ((rendered ent).length + 1) = (blob.take 8).length + ((rendered ent).length + 1)
      by omega, List.drop_append, List.drop_append_of_le_length (by simp)]
    simp

/-! ## Traces -/

theorem writes_append (a b : List Event) : writes (a ++ b) = writes a ++ writes b := by
  induction a with
  | nil => rfl
  | cons e t ih => cases e <;> simp [writes, ih]

theorem digests_append (a b : List Event) : digests (a ++ b) = digests a ++ digests b := by
  induction a with
  | nil => rfl
  | cons e t ih => cases e <;> simp [digests, ih]

theorem allocs_append (a b : List Event) : allocs (a ++ b) = allocs a ++ allocs b := by
  induction a with
  | nil => rfl
  | cons e t ih => cases e <;> simp [allocs, ih]

theorem prints_append (a b : List Event) : prints (a ++ b) = prints a ++ prints b := by
  induction a with
  | nil => rfl
  | cons e t ih => cases e <;> simp [prints, ih]

/-! ## The `!__arm64e__` variant, branch by branch -/

namespace NonArm64e

theorem length_lt (m : KMem) (off : Nat) : length m off < 2 ^ 32 := SWAP32_lt _

theorem cdir_exact (env : Env) (m : KMem) (off : Nat) (hx : env.exact) :
    cdir env m off = kbytes m (cdir_off m off) sizeof_CS_CodeDirectory := by
  unfold cdir
  rw [hx 0]
  exact kread_zero _ _ _ _ (by simp [uninitObj])

theorem blob_exact (env : Env) (m : KMem) (off : Nat) (hx : env.exact) :
    blob env m off = kbytes m (blob_off m off) (length m off) := by
  unfold blob
  rw [hx 1]
  exact kread_zero _ _ _ _ (by simp [uninitObj])

theorem buf_exact (env : Env) (m : KMem) (off : Nat) (hx : env.exact) :
    buf env m off = kbytes m (hashSlot env m off) 32 := by
  unfold buf
  rw [hx 2]
  exact kread_zero _ _ _ _ (by simp [uninitObj])

theorem blob_length (env : Env) (m : KMem) (off : Nat) :
    (blob env m off).length = length m off :=
  kread_length _ _ _ _ _ (by simp [uninitObj])

theorem buf_length (env : Env) (m : KMem) (off : Nat) : (buf env m off).length = 32 :=
  kread_length _ _ _ _ _ (by simp [uninitObj])

theorem blob1_length (env : Env) (m : KMem) (off : Nat) (ent : List Nat)
    (h8 : 8 ≤ length m off) : (blob1 env m off ent).length = length m off := by
  have := rewrite_length (blob env m off) ent (by rw [blob_length]; exact h8)
  rw [blob_length] at this
  exact this

theorem writes_traceHeader (m : KMem) (proc : Nat) : writes (traceHeader m proc) = [] := rfl

theorem writes_traceLength (m : KMem) (proc : Nat) : writes (traceLength m proc) = [] := rfl

theorem writes_traceDigest (env : Env) (m : KMem) (proc : Nat) (verbose : Bool) :
    writes (traceDigest env m proc verbose) = [] := by
  cases verbose <;> rfl

theorem allocs_traceDigest (env : Env) (m : KMem) (proc : Nat) (verbose : Bool) :
    allocs (traceDigest env m proc verbose) = [] := by
  cases verbose <;> rfl

theorem digests_traceDigest (env : Env) (m : KMem) (proc : Nat) (verbose : Bool) :
    digests (traceDigest env m proc verbose) = [blob env m (csblob m proc)] := by
  cases verbose <;> rfl

theorem entitle_badMagic (env : Env) (m : KMem) (proc : Nat) (ent : List Nat) (verbose : Bool)
    (h : SWAP32 (field (cdir env m (csblob m proc)) offsetof_magic 4) ≠ CSMAGIC_CODEDIRECTORY) :
    entitle env m proc ent verbose =
      ⟨-1, m, traceHeader m proc ++ [Event.printf "bad magic\n"]⟩ := by
  unfold entitle
  simp only [h, ne_eq, not_false_eq_true, if_true]

theorem entitle_badLength (env : Env) (m : KMem) (proc : Nat) (ent : List Nat) (verbose : Bool)
    (h1 : SWAP32 (field (cdir env m (csblob m proc)) offsetof_magic 4) = CSMAGIC_CODEDIRECTORY)
    (h2 : length m (csblob m proc) < 8) :
    entitle env m proc ent verbose =
      ⟨-1, m, traceLength m proc ++ [Event.printf "bad length\n"]⟩ := by
  unfold entitle
  simp only [h1, h2, ne_eq, not_true_eq_false, if_false, if_true]

theorem entitle_noMemory (env : Env) (m : KMem) (proc : Nat) (ent : List Nat) (verbose : Bool)
    (h1 : SWAP32 (field (cdir env m (csblob m proc)) offsetof_magic 4) = CSMAGIC_CODEDIRECTORY)
    (h2 : 8 ≤ length m (csblob m proc)) (h3 : env.mallocOk = false) :
    entitle env m proc ent verbose =
      ⟨-1, m, traceLength m proc ++ [Event.printf "no memory\n"]⟩ := by
  have h2' : ¬ length m (csblob m proc) < 8 := by omega
  unfold entitle
  simp only [h1, h2', h3, ne_eq, not_true_eq_false, if_false, if_true]

theorem entitle_badSHA2 (env : Env) (m : KMem) (proc : Nat) (ent : List Nat) (verbose : Bool)
    (h1 : SWAP32 (field (cdir env m (csblob m proc)) offsetof_magic 4) = CSMAGIC_CODEDIRECTORY)
    (h2 : 8 ≤ length m (csblob m proc)) (h3 : env.mallocOk = true)
    (h4 : memcmp (buf env m (csblob m proc)) (env.sha (blob env m (csblob m proc))) 32 = true) :
    entitle env m proc ent verbose =
      ⟨-1, m, traceDigest env m proc verbose ++ [Event.printf "bad SHA2\n"]⟩ := by
  have h2' : ¬ length m (csblob m proc) < 8 := by omega
  unfold entitle
  simp only [h1, h2', h3, h4, ne_eq, not_true_eq_false, if_false, if_true]
  simp

theorem entitle_tooLong (env : Env) (m : KMem) (proc : Nat) (ent : List Nat) (verbose : Bool)
    (hv : Validated env m (csblob m proc))
    (h5 : length m (csblob m proc) - 8 ≤ newlen ent) :
    entitle env m proc ent verbose =
      ⟨-1, m, traceDigest env m proc verbose ++ [Event.printf "too long\n"]⟩ := by
  obtain ⟨h1, h2, h3, h4⟩ := hv
  have h2' : ¬ length m (csblob m proc) < 8 := by omega
  unfold entitle
  simp only [h1, h2', h3, h4, h5, ge_iff_le, ne_eq, not_true_eq_false, if_false, if_true]
  simp

theorem entitle_pass (env : Env) (m : KMem) (proc : Nat) (ent : List Nat) (verbose : Bool)
    (hv : Validated env m (csblob m proc))
    (h5 : newlen ent < length m (csblob m proc) - 8) :
    entitle env m proc ent verbose =
      ⟨env.csopsRv,
        (kwrite (kwrite m (hashSlot env m (csblob m proc))
          (env.sha (blob1 env m (csblob m proc) ent)) 32 (env.wshort 0)).1
          (blob_off m (csblob m proc)) (blob1 env m (csblob m proc) ent)
          (length m (csblob m proc)) (env.wshort 1)).1,
        traceDigest env m proc verbose ++
          [Event.sha256 (blob1 env m (csblob m proc) ent),
           Event.kwrite (hashSlot env m (csblob m proc))
             ((env.sha (blob1 env m (csblob m proc) ent)).take 32),
           Event.kwrite (blob_off m (csblob m proc))
             ((blob1 env m (csblob m proc) ent).take (length m (csblob m proc))),
           Event.csops CS_OPS_ENTITLEMENTS_BLOB (length m (csblob m proc))] ++
          (if env.csopsRv ≠ 0 then [Event.printf "bad blob\n"]
           else if verbose then [Event.printf "blob: \x7b%.*s\x7d\n"] else [])⟩ := by
  obtain ⟨h1, h2, h3, h4⟩ := hv
  have h2' : ¬ length m (csblob m proc) < 8 := by omega
  have h5' : ¬ length m (csblob m proc) - 8 ≤ newlen ent := by omega
  unfold entitle
  simp only [h1, h2', h3, h4, h5', ge_iff_le, ne_eq, not_true_eq_false, if_false, if_true]
  simp

/-- Every run that does not pass all validations returns `-1`, leaves kernel
memory as it was and issues neither a write nor an allocation. -/
theorem entitle_fail (env : Env) (m : KMem) (proc : Nat) (ent : List Nat) (verbose : Bool)
    (h : ¬ (Validated env m (csblob m proc) ∧ newlen ent < length m (csblob m proc) - 8)) :
    (entitle env m proc ent verbose).rv = -1 ∧ (entitle env m proc ent verbose).mem = m ∧
    writes (entitle env m proc ent verbose).trace = [] ∧
    allocs (entitle env m proc ent verbose).trace = [] := by
  by_cases h1 : SWAP32 (field (cdir env m (csblob m proc)) offsetof_magic 4)
      = CSMAGIC_CODEDIRECTORY
  swap
  · rw [entitle_badMagic env m proc ent verbose h1]
    exact ⟨rfl, rfl, rfl, rfl⟩
  by_cases h2 : 8 ≤ length m (csblob m proc)
  swap
  · rw [entitle_badLength env m proc ent verbose h1 (by omega)]
    exact ⟨rfl, rfl, rfl, rfl⟩
  by_cases h3 : env.mallocOk = true
  swap
  · rw [entitle_noMemory env m proc ent verbose h1 h2 (by simpa using h3)]
    exact ⟨rfl, rfl, rfl, rfl⟩
  by_cases h4 : memcmp (buf env m (csblob m proc)) (env.sha (blob env m (csblob m proc))) 32
      = false
  swap
  · rw [entitle_badSHA2 env m proc ent verbose h1 h2 h3 (by simpa using h4)]
    refine ⟨rfl, rfl, ?_, ?_⟩
    · show writes (traceDigest env m proc verbose ++ _) = []
      rw [writes_append, writes_traceDigest]; rfl
    · show allocs (traceDigest env m proc verbose ++ _) = []
      rw [allocs_append, allocs_traceDigest]; rfl
  have hv : Validated env m (csblob m proc) := ⟨h1, h2, h3, h4⟩
  rw [entitle_tooLong env m proc ent verbose hv (by
    by_contra hc; exact h ⟨hv, by omega⟩)]
  refine ⟨rfl, rfl, ?_, ?_⟩
  · show writes (traceDigest env m proc verbose ++ _) = []
    rw [writes_append, writes_traceDigest]; rfl
  · show allocs (traceDigest env m proc verbose ++ _) = []
    rw [allocs_append, allocs_traceDigest]; rfl

end NonArm64e

/-! ## The `__arm64e__` variant, branch by branch -/

namespace Arm64e

theorem length_lt_arm (env : Env) (m : KMem) (off : Nat) : length env m off < 2 ^ 32 := SWAP32_lt _

theorem csb_exact (env : Env) (m : KMem) (off : Nat) (hx : env.exact) :
    csb env m off = kbytes m off sizeof_cs_blob := by
  unfold csb
  rw [hx 0]
  exact kread_zero _ _ _ _ (by simp [uninitObj])

theorem csb_mem_uaddr_exact (env : Env) (m : KMem) (off : Nat) (hx : env.exact) :
    csb_mem_uaddr env m off = kbytes m (csb_mem_kaddr env m off) (csb_mem_size env m off) := by
  unfold csb_mem_uaddr
  rw [hx 1]
  exact kread_zero _ _ _ _ (by simp)

theorem csb_length (env : Env) (m : KMem) (off : Nat) : (csb env m off).length = sizeof_cs_blob :=
  kread_length _ _ _ _ _ (by simp [uninitObj])

theorem csb_mem_uaddr_length (env : Env) (m : KMem) (off : Nat) :
    (csb_mem_uaddr env m off).length = csb_mem_size env m off :=
  kread_length _ _ _ _ _ (by simp)

theorem writes_traceCopy (env : Env) (m : KMem) (proc : Nat) :
    writes (traceCopy env m proc) = [] := rfl

theorem allocs_traceCopy (env : Env) (m : KMem) (proc : Nat) :
    allocs (traceCopy env m proc) = [] := rfl

theorem digests_traceCopy (env : Env) (m : KMem) (proc : Nat) :
    digests (traceCopy env m proc) = [] := rfl

theorem writes_traceDigest_arm (env : Env) (m : KMem) (proc : Nat) (verbose : Bool) :
    writes (traceDigest env m proc verbose) = [] := by
  cases verbose <;> rfl

theorem allocs_traceDigest_arm (env : Env) (m : KMem) (proc : Nat) (verbose : Bool) :
    allocs (traceDigest env m proc verbose) = [] := by
  cases verbose <;> rfl

theorem entitle_badMagic_arm (env : Env) (m : KMem) (proc : Nat) (ent : List Nat) (verbose : Bool)
    (h0 : env.mallocOk = true)
    (hb : cdOff env m (csblob m proc) + sizeof_CS_CodeDirectory ≤ csb_mem_size env m (csblob m proc))
    (h : SWAP32 (field (csb_mem_uaddr env m (csblob m proc))
      (cdOff env m (csblob m proc) + offsetof_magic) 4) ≠ CSMAGIC_CODEDIRECTORY) :
    entitle env m proc ent verbose =
      some ⟨-1, m, traceCopy env m proc ++ [Event.printf "bad magic\n"]⟩ := by
  have hb' : ¬ csb_mem_size env m (csblob m proc)
      < cdOff env m (csblob m proc) + sizeof_CS_CodeDirectory := by omega
  unfold entitle
  simp only [h0, hb', h, ne_eq, not_false_eq_true, if_true, if_false]
  simp

theorem entitle_badLength_arm (env : Env) (m : KMem) (proc : Nat) (ent : List Nat) (verbose : Bool)
    (h0 : env.mallocOk = true)
    (hb : cdOff env m (csblob m proc) + sizeof_CS_CodeDirectory ≤ csb_mem_size env m (csblob m proc))
    (h1 : SWAP32 (field (csb_mem_uaddr env m (csblob m proc))
      (cdOff env m (csblob m proc) + offsetof_magic) 4) = CSMAGIC_CODEDIRECTORY)
    (he : entOff env m (csblob m proc) + sizeof_CS_GenericBlob ≤ csb_mem_size env m (csblob m proc))
    (h2 : length env m (csblob m proc) < 8) :
    entitle env m proc ent verbose =
      some ⟨-1, m, traceCopy env m proc ++ [Event.printf "bad length\n"]⟩ := by
  have hb' : ¬ csb_mem_size env m (csblob m proc)
      < cdOff env m (csblob m proc) + sizeof_CS_CodeDirectory := by omega
  have he' : ¬ csb_mem_size env m (csblob m proc)
      < entOff env m (csblob m proc) + sizeof_CS_GenericBlob := by omega
  unfold entitle
  simp only [h0, hb', h1, he', h2, ne_eq, not_true_eq_false, if_true, if_false]
  simp

theorem entitle_badSHA2_arm (env : Env) (m : KMem) (proc : Nat) (ent : List Nat) (verbose : Bool)
    (hr : InRegion env m (csblob m proc))
    (h1 : SWAP32 (field (csb_mem_uaddr env m (csblob m proc))
      (cdOff env m (csblob m proc) + offsetof_magic) 4) = CSMAGIC_CODEDIRECTORY)
    (h2 : 8 ≤ length env m (csblob m proc))
    (h4 : memcmp (slice (csb_mem_uaddr env m (csblob m proc)) (bufOff env m (csblob m proc)) 32)
      (env.sha (blob env m (csblob m proc))) 32 = true) :
    entitle env m proc ent verbose =
      some ⟨-1, m, traceDigest env m proc verbose ++ [Event.printf "bad SHA2\n"]⟩ := by
  obtain ⟨h0, r1, r2, r3, r4⟩ := hr
  have r1' : ¬ csb_mem_size env m (csblob m proc)
      < cdOff env m (csblob m proc) + sizeof_CS_CodeDirectory := by omega
  have r2' : ¬ csb_mem_size env m (csblob m proc)
      < entOff env m (csblob m proc) + sizeof_CS_GenericBlob := by omega
  have r3' : ¬ csb_mem_size env m (csblob m proc)
      < entOff env m (csblob m proc) + length env m (csblob m proc) := by omega
  have r4' : ¬ csb_mem_size env m (csblob m proc) < bufOff env m (csblob m proc) + 32 := by omega
  have h2' : ¬ length env m (csblob m proc) < 8 := by omega
  unfold entitle
  simp only [h0, r1', r2', r3', r4', h1, h2', h4, ne_eq, not_true_eq_false, if_true, if_false]
  simp

theorem entitle_tooLong_arm (env : Env) (m : KMem) (proc : Nat) (ent : List Nat) (verbose : Bool)
    (hr : InRegion env m (csblob m proc)) (hv : Validated env m (csblob m proc))
    (h5 : length env m (csblob m proc) - 8 ≤ newlen ent) :
    entitle env m proc ent verbose =
      some ⟨-1, m, traceDigest env m proc verbose ++ [Event.printf "too long\n"]⟩ := by
  obtain ⟨h0, r1, r2, r3, r4⟩ := hr
  obtain ⟨h1, h2, h4⟩ := hv
  have r1' : ¬ csb_mem_size env m (csblob m proc)
      < cdOff env m (csblob m proc) + sizeof_CS_CodeDirectory := by omega
  have r2' : ¬ csb_mem_size env m (csblob m proc)
      < entOff env m (csblob m proc) + sizeof_CS_GenericBlob := by omega
  have r3' : ¬ csb_mem_size env m (csblob m proc)
      < entOff env m (csblob m proc) + length env m (csblob m proc) := by omega
  have r4' : ¬ csb_mem_size env m (csblob m proc) < bufOff env m (csblob m proc) + 32 := by omega
  have h2' : ¬ length env m (csblob m proc) < 8 := by omega
  have h5' : length env m (csblob m proc) - sizeof_CS_GenericBlob ≤ newlen ent := h5
  unfold entitle
  simp only [h0, r1', r2', r3', r4', h1, h2', h4, h5', ge_iff_le, ne_eq, not_true_eq_false,
    if_true, if_false]
  simp

theorem entitle_pass_arm (env : Env) (m : KMem) (proc : Nat) (ent : List Nat) (verbose : Bool)
    (hr : InRegion env m (csblob m proc)) (hv : Validated env m (csblob m proc))
    (h5 : newlen ent < length env m (csblob m proc) - 8) :
    entitle env m proc ent verbose =
      some ⟨env.csopsRv,
        (kwrite (kwrite m (newBase env m (csblob m proc)) (uaddr2 env m (csblob m proc) ent)
          (csb_mem_size env m (csblob m proc)) (env.wshort 0)).1 (csblob m proc)
          (csb1 env m (csblob m proc)) sizeof_cs_blob (env.wshort 1)).1,
        traceDigest env m proc verbose ++
          [Event.sha256 (blob1 env m (csblob m proc) ent),
           Event.kalloc (csb_mem_size env m (csblob m proc)) (newBase env m (csblob m proc)),
           Event.kwrite (newBase env m (csblob m proc))
             ((uaddr2 env m (csblob m proc) ent).take (csb_mem_size env m (csblob m proc))),
           Event.kwrite (csblob m proc) ((csb1 env m (csblob m proc)).take sizeof_cs_blob),
           Event.csops CS_OPS_ENTITLEMENTS_BLOB (length env m (csblob m proc))] ++
          (if env.csopsRv ≠ 0 then [Event.printf "bad blob\n"]
           else if verbose then [Event.printf "blob: \x7b%.*s\x7d\n"] else [])⟩ := by
  obtain ⟨h0, r1, r2, r3, r4⟩ := hr
  obtain ⟨h1, h2, h4⟩ := hv
  have r1' : ¬ csb_mem_size env m (csblob m proc)
      < cdOff env m (csblob m proc) + sizeof_CS_CodeDirectory := by omega
  have r2' : ¬ csb_mem_size env m (csblob m proc)
      < entOff env m (csblob m proc) + sizeof_CS_GenericBlob := by omega
  have r3' : ¬ csb_mem_size env m (csblob m proc)
      < entOff env m (csblob m proc) + length env m (csblob m proc) := by omega
  have r4' : ¬ csb_mem_size env m (csblob m proc) < bufOff env m (csblob m proc) + 32 := by omega
  have h2' : ¬ length env m (csblob m proc) < 8 := by omega
  have h5' : ¬ length env m (csblob m proc) - sizeof_CS_GenericBlob ≤ newlen ent := by
    show ¬ length env m (csblob m proc) - 8 ≤ newlen ent
    omega
  unfold entitle
  simp only [h0, r1', r2', r3', r4', h1, h2', h4, h5', ge_iff_le, ne_eq, not_true_eq_false,
    if_true, if_false]
  simp

/-- Every defined run that does not pass all validations returns `-1`, leaves
kernel memory as it was and issues neither a write nor an allocation. -/
theorem entitle_fail_arm (env : Env) (m : KMem) (proc : Nat) (ent : List Nat) (verbose : Bool)
    (hr : InRegion env m (csblob m proc))
    (h : ¬ (Validated env m (csblob m proc) ∧ newlen ent < length env m (csblob m proc) - 8)) :
    ∃ o, entitle env m proc ent verbose = some o ∧ o.rv = -1 ∧ o.mem = m ∧
      writes o.trace = [] ∧ allocs o.trace = [] := by
  by_cases h1 : SWAP32 (field (csb_mem_uaddr env m (csblob m proc))
      (cdOff env m (csblob m proc) + offsetof_magic) 4) = CSMAGIC_CODEDIRECTORY
  swap
  · exact ⟨_, entitle_badMagic_arm env m proc ent verbose hr.1 hr.2.1 h1, rfl, rfl, rfl, rfl⟩
  by_cases h2 : 8 ≤ length env m (csblob m proc)
  swap
  · exact ⟨_, entitle_badLength_arm env m proc ent verbose hr.1 hr.2.1 h1 hr.2.2.1 (by omega),
      rfl, rfl, rfl, rfl⟩
  by_cases h4 : memcmp (slice (csb_mem_uaddr env m (csblob m proc))
      (bufOff env m (csblob m proc)) 32) (env.sha (blob env m (csblob m proc))) 32 = false
  swap
  · refine ⟨_, entitle_badSHA2_arm env m proc ent verbose hr h1 h2 (by simpa using h4),
      rfl, rfl, ?_, ?_⟩
    · show writes (traceDigest env m proc verbose ++ _) = []
      rw [writes_append, writes_traceDigest_arm]; rfl
    · show allocs (traceDigest env m proc verbose ++ _) = []
      rw [allocs_append, allocs_traceDigest_arm]; rfl
  have hv : Validated env m (csblob m proc) := ⟨h1, h2, h4⟩
  refine ⟨_, entitle_tooLong_arm env m proc ent verbose hr hv (by
    by_contra hc; exact h ⟨hv, by omega⟩), rfl, rfl, ?_, ?_⟩
  · show writes (traceDigest env m proc verbose ++ _) = []
    rw [writes_append, writes_traceDigest_arm]; rfl
  · show allocs (traceDigest env m proc verbose ++ _) = []
    rw [allocs_append, allocs_traceDigest_arm]; rfl

end Arm64e

/-! ## Facts about the sample targets -/

set_option maxRecDepth 1000000 in
/-- The known answer of FIPS 180-4 for the message `abc`. -/
theorem Sha.sha256_abc :
    Sha.sha256 (bytesOf "abc") =
      [0xba, 0x78, 0x16, 0xbf, 0x8f, 0x01, 0xcf, 0xea, 0x41, 0x41, 0x40, 0xde, 0x5d, 0xae,
       0x22, 0x23, 0xb0, 0x03, 0x61, 0xa3, 0x96, 0x17, 0x7a, 0x9c, 0xb4, 0x10, 0xff, 0x61,
       0xf2, 0x00, 0x15, 0xad] := by decide!

namespace Sample

theorem env_exact : env.exact := fun _ => rfl

set_option maxRecDepth 1000000 in
theorem csblob_world : csblob world proc = 0x4000 := by decide!

set_option maxRecDepth 1000000 in
theorem validated_world : NonArm64e.Validated env world (csblob world proc) := by decide!

set_option maxRecDepth 1000000 in
theorem inRegion_world : Arm64e.InRegion env world (csblob world proc) := by decide!

set_option maxRecDepth 1000000 in
theorem validated_arm_world : Arm64e.Validated env world (csblob world proc) := by decide!

set_option maxRecDepth 1000000 in
theorem length_world : NonArm64e.length world (csblob world proc) = 256 := by decide!

set_option maxRecDepth 1000000 in
theorem length_arm_world : Arm64e.length env world (csblob world proc) = 256 := by decide!

set_option maxRecDepth 1000000 in
theorem rendered_frag : (rendered frag).length = 221 := by decide!

set_option maxRecDepth 1000000 in
theorem rendered_frag250 : (rendered frag250).length = 439 := by decide!

set_option maxRecDepth 1000000 in
theorem newlen_frag : newlen frag = 221 := by decide!

end Sample

set_option maxRecDepth 1000000 in
theorem Sample.stale_mismatch :
    kbytes Sample.stale (NonArm64e.hashSlot Sample.env Sample.stale (csblob Sample.stale Sample.proc)) 32 ≠
      Sample.env.sha (kbytes Sample.stale (NonArm64e.blob_off Sample.stale (csblob Sample.stale Sample.proc))
        (NonArm64e.length Sample.stale (csblob Sample.stale Sample.proc))) := by decide!

set_option maxRecDepth 1000000 in
theorem Sample.stale_mismatch_arm :
    kbytes Sample.stale (Arm64e.csb_mem_kaddr Sample.env Sample.stale (csblob Sample.stale Sample.proc) +
        Arm64e.bufOff Sample.env Sample.stale (csblob Sample.stale Sample.proc)) 32 ≠
      Sample.env.sha (kbytes Sample.stale
        (Arm64e.csb_mem_kaddr Sample.env Sample.stale (csblob Sample.stale Sample.proc) +
          Arm64e.entOff Sample.env Sample.stale (csblob Sample.stale Sample.proc))
        (Arm64e.length Sample.env Sample.stale (csblob Sample.stale Sample.proc))) := by decide!

set_option maxRecDepth 1000000 in
theorem Sample.stale_facts :
    SWAP32 (field (kbytes Sample.stale (NonArm64e.cdir_off Sample.stale (csblob Sample.stale Sample.proc))
      sizeof_CS_CodeDirectory) offsetof_magic 4) = CSMAGIC_CODEDIRECTORY ∧
    8 ≤ NonArm64e.length Sample.stale (csblob Sample.stale Sample.proc) ∧
    Arm64e.InRegion Sample.env Sample.stale (csblob Sample.stale Sample.proc) ∧
    SWAP32 (field (kbytes Sample.stale (Arm64e.csb_mem_kaddr Sample.env Sample.stale (csblob Sample.stale Sample.proc))
      (Arm64e.csb_mem_size Sample.env Sample.stale (csblob Sample.stale Sample.proc)))
      (Arm64e.cdOff Sample.env Sample.stale (csblob Sample.stale Sample.proc) + offsetof_magic) 4)
        = CSMAGIC_CODEDIRECTORY ∧
    8 ≤ Arm64e.length Sample.env Sample.stale (csblob Sample.stale Sample.proc) := by decide!

set_option maxRecDepth 1000000 in
theorem Sample.badMagic_facts :
    SWAP32 (field (kbytes Sample.badMagic
      (NonArm64e.cdir_off Sample.badMagic (csblob Sample.badMagic Sample.proc))
      sizeof_CS_CodeDirectory) offsetof_magic 4) ≠ CSMAGIC_CODEDIRECTORY ∧
    Arm64e.cdOff Sample.env Sample.badMagic (csblob Sample.badMagic Sample.proc)
        + sizeof_CS_CodeDirectory
      ≤ Arm64e.csb_mem_size Sample.env Sample.badMagic (csblob Sample.badMagic Sample.proc) ∧
    SWAP32 (field (kbytes Sample.badMagic
      (Arm64e.csb_mem_kaddr Sample.env Sample.badMagic (csblob Sample.badMagic Sample.proc))
      (Arm64e.csb_mem_size Sample.env Sample.badMagic (csblob Sample.badMagic Sample.proc)))
      (Arm64e.cdOff Sample.env Sample.badMagic (csblob Sample.badMagic Sample.proc)
        + offsetof_magic) 4) ≠ CSMAGIC_CODEDIRECTORY := by decide!

set_option maxRecDepth 1000000 in
theorem Sample.badLength_facts :
    SWAP32 (field (kbytes Sample.badLength
      (NonArm64e.cdir_off Sample.badLength (csblob Sample.badLength Sample.proc))
      sizeof_CS_CodeDirectory) offsetof_magic 4) = CSMAGIC_CODEDIRECTORY ∧
    NonArm64e.length Sample.badLength (csblob Sample.badLength Sample.proc) < 8 ∧
    Arm64e.cdOff Sample.env Sample.badLength (csblob Sample.badLength Sample.proc)
        + sizeof_CS_CodeDirectory
      ≤ Arm64e.csb_mem_size Sample.env Sample.badLength (csblob Sample.badLength Sample.proc) ∧
    SWAP32 (field (kbytes Sample.badLength
      (Arm64e.csb_mem_kaddr Sample.env Sample.badLength (csblob Sample.badLength Sample.proc))
      (Arm64e.csb_mem_size Sample.env Sample.badLength (csblob Sample.badLength Sample.proc)))
      (Arm64e.cdOff Sample.env Sample.badLength (csblob Sample.badLength Sample.proc)
        + offsetof_magic) 4) = CSMAGIC_CODEDIRECTORY ∧
    Arm64e.entOff Sample.env Sample.badLength (csblob Sample.badLength Sample.proc)
        + sizeof_CS_GenericBlob
      ≤ Arm64e.csb_mem_size Sample.env Sample.badLength (csblob Sample.badLength Sample.proc) ∧
    Arm64e.length Sample.env Sample.badLength (csblob Sample.badLength Sample.proc) < 8 := by
  decide!

set_option maxRecDepth 1000000 in
theorem Sample.passes_world (short : Nat → Nat) (rv : Int) (hs : ∀ k, short k = 0) :
    NonArm64e.Passes (Sample.envWith short rv) Sample.world (csblob Sample.world Sample.proc)
      Sample.frag := by
  have e : short = fun _ => 0 := funext hs
  subst e
  exact ⟨Sample.validated_world, by rw [Sample.newlen_frag, Sample.length_world]; decide⟩

set_option maxRecDepth 1000000 in
theorem Sample.passes_arm_world :
    Arm64e.Passes Sample.env Sample.world (csblob Sample.world Sample.proc) Sample.frag :=
  ⟨Sample.validated_arm_world, by rw [Sample.newlen_frag, Sample.length_arm_world]; decide⟩

theorem reads_append (a b : List Event) : reads (a ++ b) = reads a ++ reads b := by
  induction a with
  | nil => rfl
  | cons e t ih => cases e <;> simp [reads, ih]

set_option maxRecDepth 1000000 in
theorem Sample.passes_short :
    NonArm64e.Passes (Sample.envWith (fun k => if k = 0 then 1 else 0) 0) Sample.world
      (csblob Sample.world Sample.proc) Sample.frag := by decide!

set_option maxRecDepth 1000000 in
theorem Sample.short_count :
    (kread Sample.world (NonArm64e.cdir_off Sample.world (csblob Sample.world Sample.proc))
      (uninitObj (Sample.envWith (fun k => if k = 0 then 1 else 0) 0) 0 sizeof_CS_CodeDirectory)
      sizeof_CS_CodeDirectory
      ((Sample.envWith (fun k => if k = 0 then 1 else 0) 0).short 0)).2 = 43 := by decide!

theorem getD_append_left_nat (a b : List Nat) (j : Nat) (h : j < a.length) :
    (a ++ b).getD j 0 = a.getD j 0 := by
  simp [List.getD_eq_getElem?_getD, List.getElem?_append_left h]

theorem getD_append_right_nat (a b : List Nat) (j : Nat) (h : a.length ≤ j) :
    (a ++ b).getD j 0 = b.getD (j - a.length) 0 := by
  simp [List.getD_eq_getElem?_getD, List.getElem?_append_right h]

theorem getD_take_nat (a : List Nat) (n j : Nat) (h : j < n) : (a.take n).getD j 0 = a.getD j 0 := by
  simp [List.getD_eq_getElem?_getD, List.getElem?_take, h]

theorem getD_drop_nat (a : List Nat) (n j : Nat) : (a.drop n).getD j 0 = a.getD (n + j) 0 := by
  simp [List.getD_eq_getElem?_getD, List.getElem?_drop]

theorem getD_rewrite_header (blob ent : List Nat) (n j : Nat) (h8 : 8 ≤ blob.length)
    (hj : j < 8) : (rewrite blob n ent).getD j 0 = blob.getD j 0 := by
  unfold rewrite
  rw [getD_append_left_nat _ _ _ (by simp [sizeof_CS_GenericBlob]; omega),
    getD_take_nat _ _ _ (by simpa [sizeof_CS_GenericBlob] using hj)]

theorem getD_rewrite_text (blob ent : List Nat) (j : Nat) (h8 : 8 ≤ blob.length)
    (h : (rendered ent).length < blob.length - 8) (hj : j < (rendered ent).length) :
    (rewrite blob (blob.length - 8) ent).getD (8 + j) 0 = (rendered ent).getD j 0 := by
  have e : (blob.take 8).length = 8 := by simp; omega
  rw [rewrite_fit blob ent h8 h]
  generalize rendered ent = r at *
  rw [getD_append_right_nat _ _ _ (by rw [e]; omega), e,
    List.append_assoc, getD_append_left_nat _ _ _ (by omega)]
  congr 1
  omega

theorem getD_rewrite_nul (blob ent : List Nat) (h8 : 8 ≤ blob.length)
    (h : (rendered ent).length < blob.length - 8) :
    (rewrite blob (blob.length - 8) ent).getD (8 + (rendered ent).length) 0 = 0 := by
  have e : (blob.take 8).length = 8 := by simp; omega
  rw [rewrite_fit blob ent h8 h]
  generalize rendered ent = r at *
  rw [getD_append_right_nat _ _ _ (by rw [e]; omega), e,
    List.append_assoc, getD_append_right_nat _ _ _ (by omega)]
  simp

theorem getD_rewrite_tail (blob ent : List Nat) (j : Nat) (h8 : 8 ≤ blob.length)
    (h : (rendered ent).length < blob.length - 8) (hj : (rendered ent).length < j) :
    (rewrite blob (blob.length - 8) ent).getD (8 + j) 0 = blob.getD (8 + j) 0 := by
  have e : (blob.take 8).length = 8 := by simp; omega
  rw [rewrite_fit blob ent h8 h]
  generalize rendered ent = r at *
  have e2 : (r ++ [0]).length = r.length + 1 := by simp
  rw [getD_append_right_nat _ _ _ (by rw [e]; omega), e,
    getD_append_right_nat _ _ _ (by rw [e2]; omega), getD_drop_nat, e2]
  congr 1
  omega

namespace NonArm64e

/-- Kernel memory after a run that passes every validation, byte by byte. -/
theorem mem_pass (env : Env) (m : KMem) (proc : Nat) (ent : List Nat) (verbose : Bool)
    (h : Passes env m (csblob m proc) ent) (hw : env.complete) (a : Nat) :
    (entitle env m proc ent verbose).mem a =
      if blob_off m (csblob m proc) ≤ a ∧
          a < blob_off m (csblob m proc) + length m (csblob m proc) then
        (blob1 env m (csblob m proc) ent).getD (a - blob_off m (csblob m proc)) 0
      else if hashSlot env m (csblob m proc) ≤ a ∧ a < hashSlot env m (csblob m proc) + 32 then
        (env.sha (blob1 env m (csblob m proc) ent)).getD (a - hashSlot env m (csblob m proc)) 0
      else m a := by
  have hl := blob1_length env m (csblob m proc) ent h.1.2.1
  have hd := env.sha_length (blob1 env m (csblob m proc) ent)
  rw [entitle_pass env m proc ent verbose h.1 h.2]
  simp only [kwrite, hw 0, hw 1, Nat.sub_zero]
  rw [List.take_of_length_le (by omega), List.take_of_length_le (by omega)]
  split_ifs with h1 h2
  · rw [kstore_inside _ _ _ _ (by rw [hl]; exact h1)]
  · rw [kstore_outside _ _ _ _ (by rw [hl]; omega), kstore_inside _ _ _ _ (by rw [hd]; exact h2)]
  · rw [kstore_outside _ _ _ _ (by rw [hl]; omega), kstore_outside _ _ _ _ (by rw [hd]; omega)]

end NonArm64e

/-! ## Local objects: slices, splices and fields -/

theorem slice_splice_same (obj : List Nat) (i : Nat) (src : List Nat)
    (h : i + src.length ≤ obj.length) : Arm64e.slice (splice obj i src) i src.length = src := by
  apply ext_getD (slice_length _ _ _ (by rw [splice_length _ _ _ h]; exact h))
  intro j hj
  rw [slice_length _ _ _ (by rw [splice_length _ _ _ h]; exact h)] at hj
  rw [getD_slice _ _ _ _ hj, getD_splice _ _ _ _ h, if_pos ⟨by omega, by omega⟩]
  congr 1
  omega

theorem slice_splice_separate (obj : List Nat) (i : Nat) (src : List Nat) (j n : Nat)
    (h : i + src.length ≤ obj.length) (hj : j + n ≤ obj.length)
    (hs : Separate j n i src.length) :
    Arm64e.slice (splice obj i src) j n = Arm64e.slice obj j n := by
  apply ext_getD
  · rw [slice_length _ _ _ (by rw [splice_length _ _ _ h]; exact hj), slice_length _ _ _ hj]
  intro k hk
  rw [slice_length _ _ _ (by rw [splice_length _ _ _ h]; exact hj)] at hk
  unfold Separate at hs
  rw [getD_slice _ _ _ _ hk, getD_slice _ _ _ _ hk, getD_splice _ _ _ _ h, if_neg (by omega)]

theorem leBytes_length (w v : Nat) : (leBytes w v).length = w := by
  induction w generalizing v with
  | zero => rfl
  | succ w ih => simp [leBytes, ih]

theorem le_leBytes (w v : Nat) : le (leBytes w v) = v % 256 ^ w := by
  induction w generalizing v with
  | zero => simp [leBytes, le, Nat.mod_one]
  | succ w ih =>
    simp only [leBytes, le, ih, Nat.mod_mod]
    rw [pow_succ, Nat.mul_comm (256 ^ w) 256, Nat.mod_mul]

theorem setField_eq_splice (obj : List Nat) (o w v : Nat) :
    setField obj o w v = splice obj o (leBytes w v) := by
  simp [setField, splice, leBytes_length]

theorem setField_length (obj : List Nat) (o w v : Nat) (h : o + w ≤ obj.length) :
    (setField obj o w v).length = obj.length := by
  rw [setField_eq_splice, splice_length _ _ _ (by rw [leBytes_length]; exact h)]

theorem field_eq_slice (obj : List Nat) (o w : Nat) : field obj o w = le (Arm64e.slice obj o w) :=
  rfl

theorem field_setField_same (obj : List Nat) (o w v : Nat) (h : o + w ≤ obj.length) :
    field (setField obj o w v) o w = v % 256 ^ w := by
  have := slice_splice_same obj o (leBytes w v) (by rw [leBytes_length]; exact h)
  rw [leBytes_length] at this
  rw [field_eq_slice, setField_eq_splice, this, le_leBytes]

theorem field_setField_separate (obj : List Nat) (o w v o2 w2 : Nat) (h : o + w ≤ obj.length)
    (h2 : o2 + w2 ≤ obj.length) (hs : Separate o2 w2 o w) :
    field (setField obj o w v) o2 w2 = field obj o2 w2 := by
  rw [field_eq_slice, field_eq_slice, setField_eq_splice,
    slice_splice_separate _ _ _ _ _ (by rw [leBytes_length]; exact h) h2
      (by rw [leBytes_length]; exact hs)]

theorem sub64_lt (a b : Nat) : sub64 a b < 2 ^ 64 := Nat.mod_lt _ (by norm_num)

theorem u64_lt (a : Nat) : u64 a < 2 ^ 64 := Nat.mod_lt _ (by norm_num)

theorem u64_of_lt (a : Nat) (h : a < 2 ^ 64) : u64 a = a := Nat.mod_eq_of_lt h

/-- Rebasing a pointer moves it to the same offset from the new base. -/
theorem rebase_arith (nb p k s : Nat) (hnb : nb + s ≤ 2 ^ 64) (hp : sub64 p k < s) :
    sub64 (u64 (nb + p)) k = nb + sub64 p k := by
  unfold sub64 u64 at *
  norm_num at *
  omega

theorem slice_splice_inside (obj : List Nat) (i : Nat) (src : List Nat) (a n : Nat)
    (h : i + src.length ≤ obj.length) (ha : a + n ≤ src.length) :
    Arm64e.slice (splice obj i src) (i + a) n = Arm64e.slice src a n := by
  apply ext_getD
  · rw [slice_length _ _ _ (by rw [splice_length _ _ _ h]; omega), slice_length _ _ _ ha]
  intro k hk
  rw [slice_length _ _ _ (by rw [splice_length _ _ _ h]; omega)] at hk
  rw [getD_slice _ _ _ _ hk, getD_slice _ _ _ _ hk, getD_splice _ _ _ _ h,
    if_pos ⟨by omega, by omega⟩]
  congr 1
  omega

theorem slice_rewrite_text (blob ent : List Nat) (h8 : 8 ≤ blob.length)
    (h : (rendered ent).length < blob.length - 8) :
    Arm64e.slice (rewrite blob (blob.length - 8) ent) 8 (rendered ent).length = rendered ent := by
  have hl := rewrite_length blob ent h8
  apply ext_getD (slice_length _ _ _ (by omega))
  intro j hj
  rw [slice_length _ _ _ (by omega)] at hj
  rw [getD_slice _ _ _ _ hj, getD_rewrite_text blob ent j h8 h hj]

theorem slice_full (obj : List Nat) : Arm64e.slice obj 0 obj.length = obj := by
  simp [Arm64e.slice]

namespace Arm64e

theorem blob_length_arm (env : Env) (m : KMem) (off : Nat) (hr : InRegion env m off) :
    (blob env m off).length = length env m off :=
  slice_length _ _ _ (by rw [csb_mem_uaddr_length]; exact hr.2.2.2.1)

theorem rewrite_blob_length (env : Env) (m : KMem) (off : Nat) (ent : List Nat)
    (hr : InRegion env m off) (h8 : 8 ≤ length env m off) :
    (rewrite (blob env m off) (length env m off - sizeof_CS_GenericBlob) ent).length
      = length env m off := by
  have := rewrite_length (blob env m off) ent (by rw [blob_length_arm _ _ _ hr]; exact h8)
  rw [blob_length_arm _ _ _ hr] at this
  exact this

theorem uaddr1_length (env : Env) (m : KMem) (off : Nat) (ent : List Nat)
    (hr : InRegion env m off) (h8 : 8 ≤ length env m off) :
    (uaddr1 env m off ent).length = csb_mem_size env m off := by
  unfold uaddr1
  rw [splice_length _ _ _ (by
    rw [rewrite_blob_length _ _ _ _ hr h8, csb_mem_uaddr_length]; exact hr.2.2.2.1),
    csb_mem_uaddr_length]

theorem blob1_eq (env : Env) (m : KMem) (off : Nat) (ent : List Nat)
    (hr : InRegion env m off) (h8 : 8 ≤ length env m off) :
    blob1 env m off ent
      = rewrite (blob env m off) (length env m off - sizeof_CS_GenericBlob) ent := by
  have hl := rewrite_blob_length env m off ent hr h8
  have := slice_splice_same (csb_mem_uaddr env m off) (entOff env m off)
    (rewrite (blob env m off) (length env m off - sizeof_CS_GenericBlob) ent)
    (by rw [hl, csb_mem_uaddr_length]; exact hr.2.2.2.1)
  rw [hl] at this
  exact this

theorem uaddr2_length (env : Env) (m : KMem) (off : Nat) (ent : List Nat)
    (hr : InRegion env m off) (h8 : 8 ≤ length env m off) :
    (uaddr2 env m off ent).length = csb_mem_size env m off := by
  unfold uaddr2
  rw [splice_length _ _ _ (by
    rw [env.sha_length, uaddr1_length _ _ _ _ hr h8]; exact hr.2.2.2.2),
    uaddr1_length _ _ _ _ hr h8]

/-- The record written back, with each rebased pointer computed from the field
read at the start of the call. -/
theorem csb1_eq (env : Env) (m : KMem) (off : Nat) :
    csb1 env m off =
      setField (setField (setField (setField (csb env m off)
        offsetof_csb_cd 8 (rebase env m off (field (csb env m off) offsetof_csb_cd 8)))
        offsetof_csb_entitlements_blob 8
          (rebase env m off (field (csb env m off) offsetof_csb_entitlements_blob 8)))
        offsetof_csb_teamid 8 (rebase env m off (field (csb env m off) offsetof_csb_teamid 8)))
        offsetof_csb_mem_kaddr 8 (newBase env m off) := by
  have h0 : (csb env m off).length = 160 := csb_length env m off
  have e1 : ∀ v, field (setField (csb env m off) offsetof_csb_cd 8 v)
      offsetof_csb_entitlements_blob 8 = field (csb env m off) offsetof_csb_entitlements_blob 8 :=
    fun v => field_setField_separate _ _ _ _ _ _ (by rw [h0]; decide) (by rw [h0]; decide)
      (by decide)
  have l1 : ∀ v, (setField (csb env m off) offsetof_csb_cd 8 v).length = 160 :=
    fun v => by rw [setField_length _ _ _ _ (by rw [h0]; decide), h0]
  have e2 : ∀ v w, field (setField (setField (csb env m off) offsetof_csb_cd 8 v)
      offsetof_csb_entitlements_blob 8 w) offsetof_csb_teamid 8
        = field (csb env m off) offsetof_csb_teamid 8 := by
    intro v w
    rw [field_setField_separate _ _ _ _ _ _ (by rw [l1]; decide) (by rw [l1]; decide)
      (by decide),
      field_setField_separate _ _ _ _ _ _ (by rw [h0]; decide) (by rw [h0]; decide) (by decide)]
  simp only [csb1, e1, e2]

theorem csb1_length (env : Env) (m : KMem) (off : Nat) :
    (csb1 env m off).length = sizeof_cs_blob := by
  have h0 : (csb env m off).length = 160 := csb_length env m off
  rw [csb1_eq]
  have l1 : ∀ v, (setField (csb env m off) offsetof_csb_cd 8 v).length = 160 :=
    fun v => by rw [setField_length _ _ _ _ (by rw [h0]; decide), h0]
  have l2 : ∀ v w, (setField (setField (csb env m off) offsetof_csb_cd 8 v)
      offsetof_csb_entitlements_blob 8 w).length = 160 :=
    fun v w => by rw [setField_length _ _ _ _ (by rw [l1]; decide), l1]
  have l3 : ∀ v w x, (setField (setField (setField (csb env m off) offsetof_csb_cd 8 v)
      offsetof_csb_entitlements_blob 8 w) offsetof_csb_teamid 8 x).length = 160 :=
    fun v w x => by rw [setField_length _ _ _ _ (by rw [l2]; decide), l2]
  rw [setField_length _ _ _ _ (by rw [l3]; decide), l3]
  rfl

/-- A field of the record written back that lies apart from the four fields the
call assigns holds the value read at the start of the call. -/
theorem field_csb1_other (env : Env) (m : KMem) (off o w : Nat) (hw : o + w ≤ sizeof_cs_blob)
    (h1 : Separate o w offsetof_csb_cd 8) (h2 : Separate o w offsetof_csb_entitlements_blob 8)
    (h3 : Separate o w offsetof_csb_teamid 8) (h4 : Separate o w offsetof_csb_mem_kaddr 8) :
    field (csb1 env m off) o w = field (csb env m off) o w := by
  have h0 : (csb env m off).length = 160 := csb_length env m off
  have hw' : o + w ≤ 160 := hw
  rw [csb1_eq]
  have l1 : ∀ v, (setField (csb env m off) offsetof_csb_cd 8 v).length = 160 :=
    fun v => by rw [setField_length _ _ _ _ (by rw [h0]; decide), h0]
  have l2 : ∀ v w, (setField (setField (csb env m off) offsetof_csb_cd 8 v)
      offsetof_csb_entitlements_blob 8 w).length = 160 :=
    fun v w => by rw [setField_length _ _ _ _ (by rw [l1]; decide), l1]
  have l3 : ∀ v w x, (setField (setField (setField (csb env m off) offsetof_csb_cd 8 v)
      offsetof_csb_entitlements_blob 8 w) offsetof_csb_teamid 8 x).length = 160 :=
    fun v w x => by rw [setField_length _ _ _ _ (by rw [l2]; decide), l2]
  rw [field_setField_separate _ _ _ _ _ _ (by rw [l3]; decide) (by rw [l3]; exact hw') h4,
    field_setField_separate _ _ _ _ _ _ (by rw [l2]; decide) (by rw [l2]; exact hw') h3,
    field_setField_separate _ _ _ _ _ _ (by rw [l1]; decide) (by rw [l1]; exact hw') h2,
    field_setField_separate _ _ _ _ _ _ (by rw [h0]; decide) (by rw [h0]; exact hw') h1]

theorem rebase_lt (env : Env) (m : KMem) (off p : Nat) : rebase env m off p < 2 ^ 64 :=
  sub64_lt _ _

theorem field_csb1_cd (env : Env) (m : KMem) (off : Nat) :
    field (csb1 env m off) offsetof_csb_cd 8
      = rebase env m off (field (csb env m off) offsetof_csb_cd 8) := by
  have h0 : (csb env m off).length = 160 := csb_length env m off
  rw [csb1_eq]
  have l1 : ∀ v, (setField (csb env m off) offsetof_csb_cd 8 v).length = 160 :=
    fun v => by rw [setField_length _ _ _ _ (by rw [h0]; decide), h0]
  have l2 : ∀ v w, (setField (setField (csb env m off) offsetof_csb_cd 8 v)
      offsetof_csb_entitlements_blob 8 w).length = 160 :=
    fun v w => by rw [setField_length _ _ _ _ (by rw [l1]; decide), l1]
  have l3 : ∀ v w x, (setField (setField (setField (csb env m off) offsetof_csb_cd 8 v)
      offsetof_csb_entitlements_blob 8 w) offsetof_csb_teamid 8 x).length = 160 :=
    fun v w x => by rw [setField_length _ _ _ _ (by rw [l2]; decide), l2]
  rw [field_setField_separate _ _ _ _ _ _ (by rw [l3]; decide) (by rw [l3]; decide) (by decide),
    field_setField_separate _ _ _ _ _ _ (by rw [l2]; decide) (by rw [l2]; decide) (by decide),
    field_setField_separate _ _ _ _ _ _ (by rw [l1]; decide) (by rw [l1]; decide) (by decide),
    field_setField_same _ _ _ _ (by rw [h0]; decide)]
  exact Nat.mod_eq_of_lt (rebase_lt _ _ _ _)

theorem field_csb1_ent (env : Env) (m : KMem) (off : Nat) :
    field (csb1 env m off) offsetof_csb_entitlements_blob 8
      = rebase env m off (field (csb env m off) offsetof_csb_entitlements_blob 8) := by
  have h0 : (csb env m off).length = 160 := csb_length env m off
  rw [csb1_eq]
  have l1 : ∀ v, (setField (csb env m off) offsetof_csb_cd 8 v).length = 160 :=
    fun v => by rw [setField_length _ _ _ _ (by rw [h0]; decide), h0]
  have l2 : ∀ v w, (setField (setField (csb env m off) offsetof_csb_cd 8 v)
      offsetof_csb_entitlements_blob 8 w).length = 160 :=
    fun v w => by rw [setField_length _ _ _ _ (by rw [l1]; decide), l1]
  have l3 : ∀ v w x, (setField (setField (setField (csb env m off) offsetof_csb_cd 8 v)
      offsetof_csb_entitlements_blob 8 w) offsetof_csb_teamid 8 x).length = 160 :=
    fun v w x => by rw [setField_length _ _ _ _ (by rw [l2]; decide), l2]
  rw [field_setField_separate _ _ _ _ _ _ (by rw [l3]; decide) (by rw [l3]; decide) (by decide),
    field_setField_separate _ _ _ _ _ _ (by rw [l2]; decide) (by rw [l2]; decide) (by decide),
    field_setField_same _ _ _ _ (by rw [l1]; decide)]
  exact Nat.mod_eq_of_lt (rebase_lt _ _ _ _)

end Arm64e

theorem kbytes_two_stores_outer (m : KMem) (nb : Nat) (U : List Nat) (off : Nat) (C : List Nat)
    (o w : Nat) (h : o + w ≤ C.length) :
    kbytes (kstore (kstore m nb U) off C) (off + o) w = Arm64e.slice C o w :=
  kbytes_kstore_inside _ _ _ _ _ h

theorem kbytes_two_stores_inner (m : KMem) (nb : Nat) (U : List Nat) (off : Nat) (C : List Nat)
    (i n : Nat) (h : i + n ≤ U.length) (hs : Separate off C.length nb U.length) :
    kbytes (kstore (kstore m nb U) off C) (nb + i) n = Arm64e.slice U i n := by
  rw [kbytes_kstore_separate _ _ _ _ _ (by unfold Separate at *; omega),
    kbytes_kstore_inside _ _ _ _ _ h]

namespace Arm64e

/-- Kernel memory after a run that passes every validation: the record slot. -/
theorem post_record (env : Env) (m : KMem) (proc : Nat) (ent : List Nat) (verbose : Bool)
    (hr : InRegion env m (csblob m proc)) (hp : Passes env m (csblob m proc) ent) (hw : env.complete)
    (r : Outcome) (e : entitle env m proc ent verbose = some r)
    (o w : Nat) (h : o + w ≤ sizeof_cs_blob) :
    kbytes r.mem (csblob m proc + o) w = slice (csb1 env m (csblob m proc)) o w := by
  rw [entitle_pass_arm env m proc ent verbose hr hp.1 hp.2] at e
  cases e
  simp only [kwrite, hw 0, hw 1, Nat.sub_zero]
  rw [List.take_of_length_le (l := csb1 env m (csblob m proc)) (by rw [csb1_length])]
  exact kbytes_two_stores_outer _ _ _ _ _ _ _ (by rw [csb1_length]; exact h)

/-- Kernel memory after a run that passes every validation: the new region. -/
theorem post_region (env : Env) (m : KMem) (proc : Nat) (ent : List Nat) (verbose : Bool)
    (hr : InRegion env m (csblob m proc)) (hp : Passes env m (csblob m proc) ent) (hw : env.complete)
    (hf : Fresh env m (csblob m proc))
    (r : Outcome) (e : entitle env m proc ent verbose = some r)
    (i n : Nat) (h : i + n ≤ csb_mem_size env m (csblob m proc)) :
    kbytes r.mem (newBase env m (csblob m proc) + i) n
      = slice (uaddr2 env m (csblob m proc) ent) i n := by
  rw [entitle_pass_arm env m proc ent verbose hr hp.1 hp.2] at e
  cases e
  have hl := uaddr2_length env m (csblob m proc) ent hr hp.1.2.1
  simp only [kwrite, hw 0, hw 1, Nat.sub_zero]
  rw [List.take_of_length_le (l := csb1 env m (csblob m proc)) (by rw [csb1_length]),
    List.take_of_length_le (l := uaddr2 env m (csblob m proc) ent) (by rw [hl])]
  exact kbytes_two_stores_inner _ _ _ _ _ _ _ (by rw [hl]; exact h)
    (by rw [hl, csb1_length]; exact hf.2.2)

/-- The entitlements pointer of the republished record designates the same
offset of the new region. -/
theorem post_ent (env : Env) (m : KMem) (proc : Nat) (ent : List Nat) (verbose : Bool)
    (hr : InRegion env m (csblob m proc)) (hp : Passes env m (csblob m proc) ent) (hw : env.complete)
    (hf : Fresh env m (csblob m proc))
    (r : Outcome) (e : entitle env m proc ent verbose = some r) :
    kread_uint64 r.mem (u64 (csblob m proc + offsetof_csb_entitlements_blob))
      = newBase env m (csblob m proc) + entOff env m (csblob m proc) := by
  have h1 : u64 (csblob m proc + offsetof_csb_entitlements_blob)
      = csblob m proc + offsetof_csb_entitlements_blob := by
    apply u64_of_lt
    have := hf.2.1
    simp only [sizeof_cs_blob, offsetof_csb_entitlements_blob] at *
    omega
  unfold kread_uint64
  rw [h1, post_record env m proc ent verbose hr hp hw r e _ _ (by decide), ← field_eq_slice,
    field_csb1_ent]
  exact rebase_arith _ _ _ _ hf.1 (by
    have := hr.2.2.1
    show entOff env m (csblob m proc) < _
    simp only [sizeof_CS_GenericBlob] at this
    omega)

/-- The code-directory pointer of the republished record designates the same
offset of the new region. -/
theorem post_cd (env : Env) (m : KMem) (proc : Nat) (ent : List Nat) (verbose : Bool)
    (hr : InRegion env m (csblob m proc)) (hp : Passes env m (csblob m proc) ent) (hw : env.complete)
    (hf : Fresh env m (csblob m proc))
    (r : Outcome) (e : entitle env m proc ent verbose = some r) :
    kread_uint64 r.mem (u64 (csblob m proc + offsetof_csb_cd))
      = newBase env m (csblob m proc) + cdOff env m (csblob m proc) := by
  have h1 : u64 (csblob m proc + offsetof_csb_cd) = csblob m proc + offsetof_csb_cd := by
    apply u64_of_lt
    have := hf.2.1
    simp only [sizeof_cs_blob, offsetof_csb_cd] at *
    omega
  unfold kread_uint64
  rw [h1, post_record env m proc ent verbose hr hp hw r e _ _ (by decide), ← field_eq_slice,
    field_csb1_cd]
  exact rebase_arith _ _ _ _ hf.1 (by
    have := hr.2.1
    show cdOff env m (csblob m proc) < _
    simp only [sizeof_CS_CodeDirectory] at this
    omega)

end Arm64e

theorem cstr_of_nul_free (p : List Nat) (h : 0 ∉ p) : cstr p = p := by
  unfold cstr
  rw [List.takeWhile_eq_self_iff]
  intro x hx
  have : x ≠ 0 := fun e => h (e ▸ hx)
  simpa using this

namespace Sample

set_option maxRecDepth 1000000 in
theorem fresh_world : Arm64e.Fresh env world (csblob world proc) := by decide!

set_option maxRecDepth 1000000 in
theorem apart_world : Arm64e.Apart env world (csblob world proc) := by decide!

set_option maxRecDepth 1000000 in
theorem csblob_overlap : csblob overlap proc = 0x4000 := by decide!

set_option maxRecDepth 1000000 in
theorem validated_overlap : NonArm64e.Validated env overlap (csblob overlap proc) := by decide!

set_option maxRecDepth 1000000 in
theorem layout_overlap :
    NonArm64e.length overlap (csblob overlap proc) = 256 ∧
    NonArm64e.blob_off overlap (csblob overlap proc) = 0x5060 ∧
    NonArm64e.hashSlot env overlap (csblob overlap proc) = 0x515e := by decide!

set_option maxRecDepth 1000000 in
theorem inRegion_overlap : Arm64e.InRegion env overlap (csblob overlap proc) := by decide!

set_option maxRecDepth 1000000 in
theorem validated_arm_overlap : Arm64e.Validated env overlap (csblob overlap proc) := by decide!

set_option maxRecDepth 1000000 in
theorem fresh_overlap : Arm64e.Fresh env overlap (csblob overlap proc) := by decide!

set_option maxRecDepth 1000000 in
theorem layout_arm_overlap :
    Arm64e.length env overlap (csblob overlap proc) = 256 ∧
    Arm64e.entOff env overlap (csblob overlap proc) = 0x60 ∧
    Arm64e.bufOff env overlap (csblob overlap proc) = 0x15e ∧
    Arm64e.csb_mem_size env overlap (csblob overlap proc) = 0x180 ∧
    Arm64e.newBase env overlap (csblob overlap proc) = 0x9000 ∧
    Arm64e.csb_mem_kaddr env overlap (csblob overlap proc) = 0x5000 := by decide!

set_option maxRecDepth 1000000 in
theorem rendered_frag58 : (rendered frag58).length = 247 ∧ (rendered frag58).getD 246 0 = 10 := by
  decide!

set_option maxRecDepth 1000000 in
theorem newlen_frag58 : newlen frag58 = 247 := by decide!

set_option maxRecDepth 1000000 in
theorem digest_arm_overlap58 :
    (env.sha (Arm64e.blob1 env overlap (csblob overlap proc) frag58)).getD 0 0 = 120 := by
  decide!

end Sample

namespace NonArm64e

theorem passes_of_fit (env : Env) (m : KMem) (off : Nat) (ent : List Nat)
    (hv : Validated env m off) (hi : (rendered ent).length ≤ INT_MAX)
    (h : (rendered ent).length < length m off - 8) : Passes env m off ent :=
  ⟨hv, by rw [newlen_small ent hi]; exact h⟩

/-- The payload read back after a passing run starts with the rendered text. -/
theorem readback_text (env : Env) (m : KMem) (proc : Nat) (ent : List Nat) (verbose : Bool)
    (hp : Passes env m (csblob m proc) ent) (hw : env.complete) :
    kbytes (entitle env m proc ent verbose).mem (blob_off m (csblob m proc) + 8)
      (rendered ent).length = rendered ent := by
  have h8 := hp.1.2.1
  have hn := (newlen_lt ent _ (by have := length_lt m (csblob m proc); omega) hp.2).1
  have hlt : (rendered ent).length < length m (csblob m proc) - 8 := by rw [← hn]; exact hp.2
  have hl := blob_length env m (csblob m proc)
  apply ext_getD (kbytes_length _ _ _)
  intro j hj
  rw [kbytes_length] at hj
  rw [getD_kbytes _ _ _ _ hj, mem_pass env m proc ent verbose hp hw, if_pos ⟨by omega, by omega⟩]
  have e : blob_off m (csblob m proc) + 8 + j - blob_off m (csblob m proc) = 8 + j := by omega
  have := getD_rewrite_text (blob env m (csblob m proc)) ent j (by omega) (by omega) hj
  rw [hl] at this
  rw [e]
  exact this

end NonArm64e

namespace Arm64e

theorem passes_of_fit_arm (env : Env) (m : KMem) (off : Nat) (ent : List Nat)
    (hv : Validated env m off) (hi : (rendered ent).length ≤ INT_MAX)
    (h : (rendered ent).length < length env m off - 8) : Passes env m off ent :=
  ⟨hv, by rw [newlen_small ent hi]; exact h⟩

/-- The text region of the local buffer after the rewriter and the digest
update, when the hash slot lies apart from the entitlements blob. -/
theorem uaddr2_text (env : Env) (m : KMem) (off : Nat) (ent : List Nat)
    (hr : InRegion env m off) (hp : Passes env m off ent)
    (hs : Separate (bufOff env m off) 32 (entOff env m off) (length env m off)) :
    slice (uaddr2 env m off ent) (entOff env m off + 8) (rendered ent).length = rendered ent := by
  have h8 := hp.1.2.1
  have hn := (newlen_lt ent _ (by have := length_lt_arm env m off; omega) hp.2).1
  have hlt : (rendered ent).length < length env m off - 8 := by rw [← hn]; exact hp.2
  have hb := blob_length_arm env m off hr
  have hw := rewrite_blob_length env m off ent hr h8
  have hu := csb_mem_uaddr_length env m off
  have h1 := uaddr1_length env m off ent hr h8
  have r3 := hr.2.2.2.1
  have r4 := hr.2.2.2.2
  unfold uaddr2
  rw [slice_splice_separate _ _ _ _ _ (by rw [env.sha_length, h1]; exact r4) (by rw [h1]; omega)
    (by rw [env.sha_length]; unfold Separate at *; omega)]
  unfold uaddr1
  rw [slice_splice_inside _ _ _ _ _ (by rw [hw, hu]; exact r3) (by rw [hw]; omega)]
  have := slice_rewrite_text (blob env m off) ent (by omega) (by omega)
  rw [hb] at this
  exact this

end Arm64e

theorem slice_slice (obj : List Nat) (i n o w : Nat) (h : o + w ≤ n) (hb : i + n ≤ obj.length) :
    Arm64e.slice (Arm64e.slice obj i n) o w = Arm64e.slice obj (i + o) w := by
  apply ext_getD
  · rw [slice_length _ _ _ (by rw [slice_length _ _ _ hb]; exact h),
      slice_length _ _ _ (by omega)]
  intro k hk
  rw [slice_length _ _ _ (by rw [slice_length _ _ _ hb]; exact h)] at hk
  rw [getD_slice _ _ _ _ hk, getD_slice _ _ _ _ (by omega), getD_slice _ _ _ _ hk, Nat.add_assoc]

theorem field_slice (obj : List Nat) (i n o w : Nat) (h : o + w ≤ n) (hb : i + n ≤ obj.length) :
    field (Arm64e.slice obj i n) o w = field obj (i + o) w := by
  rw [field_eq_slice, field_eq_slice, slice_slice _ _ _ _ _ h hb]

theorem slice_rewrite_header (blob ent : List Nat) (n o w : Nat) (h8 : 8 ≤ blob.length)
    (hl : (rewrite blob n ent).length = blob.length) (h : o + w ≤ 8) :
    Arm64e.slice (rewrite blob n ent) o w = Arm64e.slice blob o w := by
  apply ext_getD
  · rw [slice_length _ _ _ (by omega), slice_length _ _ _ (by omega)]
  intro k hk
  rw [slice_length _ _ _ (by omega)] at hk
  rw [getD_slice _ _ _ _ hk, getD_slice _ _ _ _ hk, getD_rewrite_header _ _ _ _ h8 (by omega)]

/-- The hash-slot arithmetic commutes with moving the code directory to a new base. -/
theorem slot_arith (nb c x y s : Nat) (hnb : nb + s ≤ 2 ^ 64)
    (hs : sub64 (u64 (c + x)) y + 32 ≤ s) :
    sub64 (u64 (nb + c + x)) y = nb + sub64 (u64 (c + x)) y := by
  unfold sub64 u64 at *
  norm_num at *
  omega

namespace Arm64e

/-- The bytes of the local buffer apart from the hash slot and from the
entitlements blob are those copied from the kernel. -/
theorem uaddr2_apart (env : Env) (m : KMem) (off : Nat) (ent : List Nat)
    (hr : InRegion env m off) (h8 : 8 ≤ length env m off) (i n : Nat)
    (hb : i + n ≤ csb_mem_size env m off)
    (h1 : Separate i n (bufOff env m off) 32)
    (h2 : Separate i n (entOff env m off) (length env m off)) :
    slice (uaddr2 env m off ent) i n = slice (csb_mem_uaddr env m off) i n := by
  have hw := rewrite_blob_length env m off ent hr h8
  have hu := csb_mem_uaddr_length env m off
  have l1 := uaddr1_length env m off ent hr h8
  unfold uaddr2
  rw [slice_splice_separate _ _ _ _ _ (by rw [env.sha_length, l1]; exact hr.2.2.2.2)
    (by rw [l1]; exact hb) (by rw [env.sha_length]; exact h1)]
  unfold uaddr1
  rw [slice_splice_separate _ _ _ _ _ (by rw [hw, hu]; exact hr.2.2.2.1) (by rw [hu]; exact hb)
    (by rw [hw]; exact h2)]

/-- The entitlements blob of the local buffer after the digest update, when the
hash slot lies apart from it. -/
theorem uaddr2_blob (env : Env) (m : KMem) (off : Nat) (ent : List Nat)
    (hr : InRegion env m off) (h8 : 8 ≤ length env m off)
    (hs : Separate (bufOff env m off) 32 (entOff env m off) (length env m off))
    (o w : Nat) (h : o + w ≤ length env m off) :
    slice (uaddr2 env m off ent) (entOff env m off + o) w = slice (blob1 env m off ent) o w := by
  have l1 := uaddr1_length env m off ent hr h8
  have r3 := hr.2.2.2.1
  unfold uaddr2
  rw [slice_splice_separate _ _ _ _ _ (by rw [env.sha_length, l1]; exact hr.2.2.2.2)
    (by rw [l1]; omega) (by rw [env.sha_length]; unfold Separate at *; omega)]
  unfold blob1
  rw [slice_slice _ _ _ _ _ h (by rw [l1]; exact r3)]

/-- The hash slot of the local buffer after the digest update. -/
theorem uaddr2_slot (env : Env) (m : KMem) (off : Nat) (ent : List Nat)
    (hr : InRegion env m off) (h8 : 8 ≤ length env m off) :
    slice (uaddr2 env m off ent) (bufOff env m off) 32 = env.sha (blob1 env m off ent) := by
  have l1 := uaddr1_length env m off ent hr h8
  have := slice_splice_same (uaddr1 env m off ent) (bufOff env m off)
    (env.sha (blob1 env m off ent)) (by rw [env.sha_length, l1]; exact hr.2.2.2.2)
  rw [env.sha_length] at this
  exact this


/-- The length field of the blob the republished record points to. -/
theorem post_length (env : Env) (m : KMem) (proc : Nat) (ent : List Nat) (verbose : Bool)
    (hr : InRegion env m (csblob m proc)) (hp : Passes env m (csblob m proc) ent) (hw : env.complete)
    (hf : Fresh env m (csblob m proc))
    (hs : Separate (bufOff env m (csblob m proc)) 32 (entOff env m (csblob m proc))
      (length env m (csblob m proc)))
    (r : Outcome) (e : entitle env m proc ent verbose = some r) :
    NonArm64e.length r.mem (csblob m proc) = length env m (csblob m proc) := by
  have h8 := hp.1.2.1
  have r2 := hr.2.2.1
  have r3 := hr.2.2.2.1
  have hb := blob_length_arm env m (csblob m proc) hr
  have hu := csb_mem_uaddr_length env m (csblob m proc)
  simp only [sizeof_CS_GenericBlob] at r2
  have h1 : u64 (newBase env m (csblob m proc) + entOff env m (csblob m proc) + offsetof_length)
      = newBase env m (csblob m proc) + (entOff env m (csblob m proc) + 4) := by
    rw [u64_of_lt _ (by have := hf.1; simp only [offsetof_length]; omega)]
    simp only [offsetof_length]
    omega
  have k1 : entOff env m (csblob m proc) + 4 + 4 ≤ csb_mem_size env m (csblob m proc) := by omega
  have k2 : 4 + 4 ≤ length env m (csblob m proc) := by omega
  unfold NonArm64e.length NonArm64e.blob_off kread_uint32
  rw [post_ent env m proc ent verbose hr hp hw hf r e, h1,
    post_region env m proc ent verbose hr hp hw hf r e (entOff env m (csblob m proc) + 4) 4 k1,
    uaddr2_blob env m (csblob m proc) ent hr h8 hs 4 4 k2,
    blob1_eq env m (csblob m proc) ent hr h8,
    slice_rewrite_header _ _ _ _ _ (by rw [hb]; exact h8)
      (by rw [rewrite_blob_length env m (csblob m proc) ent hr h8, hb]) (by omega)]
  unfold blob
  rw [slice_slice _ _ _ _ _ k2 (by rw [hu]; exact r3)]
  rfl

/-- The code-directory header the republished record points to. -/
theorem post_header (env : Env) (m : KMem) (proc : Nat) (ent : List Nat) (verbose : Bool)
    (hx : env.exact)
    (hr : InRegion env m (csblob m proc)) (hp : Passes env m (csblob m proc) ent) (hw : env.complete)
    (hf : Fresh env m (csblob m proc)) (ha : Apart env m (csblob m proc))
    (r : Outcome) (e : entitle env m proc ent verbose = some r) :
    NonArm64e.cdir env r.mem (csblob m proc)
      = slice (csb_mem_uaddr env m (csblob m proc)) (cdOff env m (csblob m proc))
          sizeof_CS_CodeDirectory := by
  rw [NonArm64e.cdir_exact _ _ _ hx]
  unfold NonArm64e.cdir_off
  rw [post_cd env m proc ent verbose hr hp hw hf r e,
    post_region env m proc ent verbose hr hp hw hf r e _ _ hr.2.1,
    uaddr2_apart env m (csblob m proc) ent hr hp.1.2.1 _ _ hr.2.1 ha.2.2 ha.2.1]

/-- The hash slot reached through the republished record. -/
theorem post_slot (env : Env) (m : KMem) (proc : Nat) (ent : List Nat) (verbose : Bool)
    (hx : env.exact)
    (hr : InRegion env m (csblob m proc)) (hp : Passes env m (csblob m proc) ent) (hw : env.complete)
    (hf : Fresh env m (csblob m proc)) (ha : Apart env m (csblob m proc))
    (r : Outcome) (e : entitle env m proc ent verbose = some r) :
    NonArm64e.hashSlot env r.mem (csblob m proc)
      = newBase env m (csblob m proc) + bufOff env m (csblob m proc) := by
  have hu := csb_mem_uaddr_length env m (csblob m proc)
  have r1 := hr.2.1
  unfold NonArm64e.hashSlot
  rw [post_header env m proc ent verbose hx hr hp hw hf ha r e]
  unfold NonArm64e.cdir_off
  rw [post_cd env m proc ent verbose hr hp hw hf r e,
    field_slice _ _ _ _ _ (by decide) (by rw [hu]; exact r1),
    field_slice _ _ _ _ _ (by decide) (by rw [hu]; exact r1)]
  exact slot_arith _ _ _ _ _ hf.1 hr.2.2.2.2

/-- After a passing run the digest in the slot of the new region is the digest
of the entitlements blob of the new region. -/
theorem post_digest_arm (env : Env) (m : KMem) (proc : Nat) (ent : List Nat) (verbose : Bool)
    (hr : InRegion env m (csblob m proc)) (hp : Passes env m (csblob m proc) ent) (hw : env.complete)
    (hf : Fresh env m (csblob m proc))
    (hs : Separate (bufOff env m (csblob m proc)) 32 (entOff env m (csblob m proc))
      (length env m (csblob m proc)))
    (r : Outcome) (e : entitle env m proc ent verbose = some r) :
    kbytes r.mem (newBase env m (csblob m proc) + bufOff env m (csblob m proc)) 32
      = env.sha (kbytes r.mem (newBase env m (csblob m proc) + entOff env m (csblob m proc))
          (length env m (csblob m proc))) := by
  have h8 := hp.1.2.1
  have l1 := uaddr1_length env m (csblob m proc) ent hr h8
  rw [post_region env m proc ent verbose hr hp hw hf r e _ _ hr.2.2.2.2,
    post_region env m proc ent verbose hr hp hw hf r e _ _ hr.2.2.2.1,
    uaddr2_slot env m (csblob m proc) ent hr h8]
  have := uaddr2_blob env m (csblob m proc) ent hr h8 hs 0 (length env m (csblob m proc))
    (by omega)
  rw [Nat.add_zero] at this
  rw [this]
  congr 1
  have hl : (blob1 env m (csblob m proc) ent).length = length env m (csblob m proc) := by
    rw [blob1_eq env m (csblob m proc) ent hr h8, rewrite_blob_length env m _ ent hr h8]
  rw [← hl, slice_full]

end Arm64e

namespace NonArm64e

/-- After a passing run whose hash slot lies apart from the entitlements blob,
the digest in the slot is the digest of the blob now in kernel memory. -/
theorem post_digest (env : Env) (m : KMem) (proc : Nat) (ent : List Nat) (verbose : Bool)
    (hp : Passes env m (csblob m proc) ent) (hw : env.complete)
    (hs : Separate (hashSlot env m (csblob m proc)) 32 (blob_off m (csblob m proc))
      (length m (csblob m proc))) :
    kbytes (entitle env m proc ent verbose).mem (hashSlot env m (csblob m proc)) 32
      = env.sha (kbytes (entitle env m proc ent verbose).mem (blob_off m (csblob m proc))
          (length m (csblob m proc))) := by
  have hl := blob1_length env m (csblob m proc) ent hp.1.2.1
  have hd := env.sha_length (blob1 env m (csblob m proc) ent)
  have e1 : kbytes (entitle env m proc ent verbose).mem (blob_off m (csblob m proc))
      (length m (csblob m proc)) = blob1 env m (csblob m proc) ent := by
    apply ext_getD (by rw [kbytes_length, hl])
    intro j hj
    rw [kbytes_length] at hj
    have hm := mem_pass env m proc ent verbose hp hw (blob_off m (csblob m proc) + j)
    have c1 : blob_off m (csblob m proc) ≤ blob_off m (csblob m proc) + j ∧
        blob_off m (csblob m proc) + j
          < blob_off m (csblob m proc) + length m (csblob m proc) := by omega
    have c3 : blob_off m (csblob m proc) + j - blob_off m (csblob m proc) = j := by omega
    rw [if_pos c1, c3] at hm
    rw [getD_kbytes _ _ _ _ hj, hm]
  rw [e1]
  apply ext_getD (by rw [kbytes_length, hd])
  intro j hj
  rw [kbytes_length] at hj
  unfold Separate at hs
  have hm := mem_pass env m proc ent verbose hp hw (hashSlot env m (csblob m proc) + j)
  have c1 : ¬ (blob_off m (csblob m proc) ≤ hashSlot env m (csblob m proc) + j ∧
      hashSlot env m (csblob m proc) + j
        < blob_off m (csblob m proc) + length m (csblob m proc)) := by omega
  have c2 : hashSlot env m (csblob m proc) ≤ hashSlot env m (csblob m proc) + j ∧
      hashSlot env m (csblob m proc) + j < hashSlot env m (csblob m proc) + 32 := by omega
  have c3 : hashSlot env m (csblob m proc) + j - hashSlot env m (csblob m proc) = j := by omega
  rw [if_neg c1, if_pos c2, c3] at hm
  rw [getD_kbytes _ _ _ _ hj, hm]


/-- The entitlements blob in kernel memory after a passing run is the local blob. -/
theorem post_blob (env : Env) (m : KMem) (proc : Nat) (ent : List Nat) (verbose : Bool)
    (hp : Passes env m (csblob m proc) ent) (hw : env.complete) :
    kbytes (entitle env m proc ent verbose).mem (blob_off m (csblob m proc))
      (length m (csblob m proc)) = blob1 env m (csblob m proc) ent := by
  have hl := blob1_length env m (csblob m proc) ent hp.1.2.1
  apply ext_getD (by rw [kbytes_length, hl])
  intro j hj
  rw [kbytes_length] at hj
  have hm := mem_pass env m proc ent verbose hp hw (blob_off m (csblob m proc) + j)
  have c1 : blob_off m (csblob m proc) ≤ blob_off m (csblob m proc) + j ∧
      blob_off m (csblob m proc) + j
        < blob_off m (csblob m proc) + length m (csblob m proc) := by omega
  have c3 : blob_off m (csblob m proc) + j - blob_off m (csblob m proc) = j := by omega
  rw [if_pos c1, c3] at hm
  rw [getD_kbytes _ _ _ _ hj, hm]

theorem passes_of_success (env : Env) (m : KMem) (proc : Nat) (ent : List Nat) (verbose : Bool)
    (h : (entitle env m proc ent verbose).rv = 0) : Passes env m (csblob m proc) ent := by
  by_contra hn
  rw [(entitle_fail env m proc ent verbose hn).1] at h
  exact absurd h (by decide)

end NonArm64e

namespace Sample

set_option maxRecDepth 1000000 in
theorem tail_overlap :
    (NonArm64e.blob1 env overlap (csblob overlap proc) frag).getD 254 0 = 151 := by decide!

set_option maxRecDepth 1000000 in
theorem digest_overlap :
    (env.sha (NonArm64e.blob1 env overlap (csblob overlap proc) frag)).getD 0 0 = 170 := by
  decide!

theorem passes_overlap : NonArm64e.Passes env overlap (csblob overlap proc) frag :=
  ⟨validated_overlap, by rw [newlen_frag, layout_overlap.1]; decide⟩

end Sample

set_option maxRecDepth 1000000 in
theorem Sample.separate_world :
    Separate (NonArm64e.hashSlot Sample.env Sample.world (csblob Sample.world Sample.proc)) 32
      (NonArm64e.blob_off Sample.world (csblob Sample.world Sample.proc))
      (NonArm64e.length Sample.world (csblob Sample.world Sample.proc)) := by decide!

namespace NonArm64e

/-- A range that is clear of the two written ranges reads the same after a passing run. -/
theorem kbytes_clear (env : Env) (m : KMem) (proc : Nat) (ent : List Nat) (verbose : Bool)
    (hp : Passes env m (csblob m proc) ent) (hw : env.complete) (a n : Nat) (hc : Clear env m proc a n) :
    kbytes (entitle env m proc ent verbose).mem a n = kbytes m a n := by
  apply kbytes_congr
  intro j hj
  obtain ⟨c1, c2⟩ := hc
  unfold Separate at c1 c2
  have hm := mem_pass env m proc ent verbose hp hw (a + j)
  have d1 : ¬ (blob_off m (csblob m proc) ≤ a + j ∧
      a + j < blob_off m (csblob m proc) + length m (csblob m proc)) := by omega
  have d2 : ¬ (hashSlot env m (csblob m proc) ≤ a + j ∧
      a + j < hashSlot env m (csblob m proc) + 32) := by omega
  rw [if_neg d1, if_neg d2] at hm
  exact hm

theorem csblob_stable (env : Env) (m : KMem) (proc : Nat) (ent : List Nat) (verbose : Bool)
    (hp : Passes env m (csblob m proc) ent) (hw : env.complete) (hs : Stable env m proc) :
    csblob (entitle env m proc ent verbose).mem proc = csblob m proc := by
  have e1 : kread_uint64 (entitle env m proc ent verbose).mem (textvpAddr proc)
      = kread_uint64 m (textvpAddr proc) := by
    unfold kread_uint64
    rw [kbytes_clear env m proc ent verbose hp hw _ _ hs.1]
  have e2 : ubcinfoAddr (entitle env m proc ent verbose).mem proc = ubcinfoAddr m proc := by
    unfold ubcinfoAddr
    rw [e1]
  have e3 : kread_uint64 (entitle env m proc ent verbose).mem (ubcinfoAddr m proc)
      = kread_uint64 m (ubcinfoAddr m proc) := by
    unfold kread_uint64
    rw [kbytes_clear env m proc ent verbose hp hw _ _ hs.2.1]
  have e4 : csblobsAddr (entitle env m proc ent verbose).mem proc = csblobsAddr m proc := by
    unfold csblobsAddr
    rw [e2, e3]
  unfold csblob
  rw [e4]
  unfold kread_uint64
  rw [kbytes_clear env m proc ent verbose hp hw _ _ hs.2.2.1]

theorem cdir_off_stable (env : Env) (m : KMem) (proc : Nat) (ent : List Nat) (verbose : Bool)
    (hp : Passes env m (csblob m proc) ent) (hw : env.complete) (hs : Stable env m proc) :
    cdir_off (entitle env m proc ent verbose).mem (csblob m proc) = cdir_off m (csblob m proc) := by
  unfold cdir_off kread_uint64
  rw [kbytes_clear env m proc ent verbose hp hw _ _ hs.2.2.2.1]

theorem blob_off_stable (env : Env) (m : KMem) (proc : Nat) (ent : List Nat) (verbose : Bool)
    (hp : Passes env m (csblob m proc) ent) (hw : env.complete) (hs : Stable env m proc) :
    blob_off (entitle env m proc ent verbose).mem (csblob m proc) = blob_off m (csblob m proc) := by
  unfold blob_off kread_uint64
  rw [kbytes_clear env m proc ent verbose hp hw _ _ hs.2.2.2.2.1]

theorem cdir_stable (env : Env) (m : KMem) (proc : Nat) (ent : List Nat) (verbose : Bool)
    (hx : env.exact) (hp : Passes env m (csblob m proc) ent) (hw : env.complete) (hs : Stable env m proc) :
    cdir env (entitle env m proc ent verbose).mem (csblob m proc) = cdir env m (csblob m proc) := by
  rw [cdir_exact _ _ _ hx, cdir_exact _ _ _ hx, cdir_off_stable env m proc ent verbose hp hw hs,
    kbytes_clear env m proc ent verbose hp hw _ _ hs.2.2.2.2.2.1]

theorem hashSlot_stable (env : Env) (m : KMem) (proc : Nat) (ent : List Nat) (verbose : Bool)
    (hx : env.exact) (hp : Passes env m (csblob m proc) ent) (hw : env.complete) (hs : Stable env m proc) :
    hashSlot env (entitle env m proc ent verbose).mem (csblob m proc)
      = hashSlot env m (csblob m proc) := by
  unfold hashSlot
  rw [cdir_stable env m proc ent verbose hx hp hw hs, cdir_off_stable env m proc ent verbose hp hw hs]

/-- The header of the entitlements blob is the same after a passing run with exact reads. -/
theorem header_kept (env : Env) (m : KMem) (proc : Nat) (ent : List Nat) (verbose : Bool)
    (hx : env.exact) (hp : Passes env m (csblob m proc) ent) (hw : env.complete) (o w : Nat) (h : o + w ≤ 8) :
    kbytes (entitle env m proc ent verbose).mem (blob_off m (csblob m proc) + o) w
      = kbytes m (blob_off m (csblob m proc) + o) w := by
  have h8 := hp.1.2.1
  apply kbytes_congr
  intro j hj
  have hl : 8 ≤ (blob env m (csblob m proc)).length := by rw [blob_length]; exact h8
  have e1 := getD_rewrite_header (blob env m (csblob m proc)) ent
    (length m (csblob m proc) - 8) (o + j) hl (by omega)
  have e2 := getD_kbytes m (blob_off m (csblob m proc)) (length m (csblob m proc)) (o + j)
    (by omega)
  have hm := mem_pass env m proc ent verbose hp hw (blob_off m (csblob m proc) + o + j)
  have c1 : blob_off m (csblob m proc) ≤ blob_off m (csblob m proc) + o + j ∧
      blob_off m (csblob m proc) + o + j
        < blob_off m (csblob m proc) + length m (csblob m proc) := by omega
  have c3 : blob_off m (csblob m proc) + o + j - blob_off m (csblob m proc) = o + j := by omega
  rw [if_pos c1, c3] at hm
  unfold blob1 at hm
  rw [e1, blob_exact _ _ _ hx, e2, ← Nat.add_assoc] at hm
  exact hm

theorem length_stable (env : Env) (m : KMem) (proc : Nat) (ent : List Nat) (verbose : Bool)
    (hx : env.exact) (hp : Passes env m (csblob m proc) ent) (hw : env.complete) (hs : Stable env m proc) :
    length (entitle env m proc ent verbose).mem (csblob m proc) = length m (csblob m proc) := by
  have h1 : u64 (blob_off m (csblob m proc) + offsetof_length)
      = blob_off m (csblob m proc) + 4 := by
    apply u64_of_lt
    have := hs.2.2.2.2.2.2
    simp only [offsetof_length]
    omega
  unfold length kread_uint32
  rw [blob_off_stable env m proc ent verbose hp hw hs, h1,
    header_kept env m proc ent verbose hx hp hw 4 4 (by omega)]


/-- The local variables of a second run, after a first run that passed on a
stable target: the same record, pointers, header, length and slot; the blob it
reads is the blob the first run wrote. -/
theorem second_views (env : Env) (m : KMem) (proc : Nat) (ent : List Nat) (verbose : Bool)
    (hx : env.exact) (hp : Passes env m (csblob m proc) ent) (hw : env.complete) (hs : Stable env m proc) :
    csblob (entitle env m proc ent verbose).mem proc = csblob m proc ∧
    cdir env (entitle env m proc ent verbose).mem (csblob m proc) = cdir env m (csblob m proc) ∧
    length (entitle env m proc ent verbose).mem (csblob m proc) = length m (csblob m proc) ∧
    hashSlot env (entitle env m proc ent verbose).mem (csblob m proc)
      = hashSlot env m (csblob m proc) ∧
    blob_off (entitle env m proc ent verbose).mem (csblob m proc) = blob_off m (csblob m proc) ∧
    blob env (entitle env m proc ent verbose).mem (csblob m proc)
      = blob1 env m (csblob m proc) ent ∧
    buf env (entitle env m proc ent verbose).mem (csblob m proc)
      = kbytes (entitle env m proc ent verbose).mem (hashSlot env m (csblob m proc)) 32 := by
  have e3 := length_stable env m proc ent verbose hx hp hw hs
  have e4 := hashSlot_stable env m proc ent verbose hx hp hw hs
  have e5 := blob_off_stable env m proc ent verbose hp hw hs
  refine ⟨csblob_stable env m proc ent verbose hp hw hs, cdir_stable env m proc ent verbose hx hp hw hs,
    e3, e4, e5, ?_, ?_⟩
  · rw [blob_exact _ _ _ hx, e3, e5, post_blob env m proc ent verbose hp hw]
  · rw [buf_exact _ _ _ hx, e4]

end NonArm64e

namespace Sample

set_option maxRecDepth 1000000 in
theorem stable_overlap : NonArm64e.Stable env overlap proc := by decide!

set_option maxRecDepth 1000000 in
theorem stable_world : NonArm64e.Stable env world proc := by decide!

end Sample

namespace NonArm64e

/-- A payload byte of the entitlements blob after a passing run is the byte of
the rewritten local blob. -/
theorem post_payload (env : Env) (m : KMem) (proc : Nat) (ent : List Nat) (verbose : Bool)
    (hp : Passes env m (csblob m proc) ent) (hw : env.complete) (j : Nat) (hj : j < length m (csblob m proc) - 8) :
    (entitle env m proc ent verbose).mem (blob_off m (csblob m proc) + 8 + j)
      = (blob1 env m (csblob m proc) ent).getD (8 + j) 0 := by
  have hm := mem_pass env m proc ent verbose hp hw (blob_off m (csblob m proc) + 8 + j)
  have c1 : blob_off m (csblob m proc) ≤ blob_off m (csblob m proc) + 8 + j ∧
      blob_off m (csblob m proc) + 8 + j
        < blob_off m (csblob m proc) + length m (csblob m proc) := by omega
  have c3 : blob_off m (csblob m proc) + 8 + j - blob_off m (csblob m proc) = 8 + j := by omega
  rw [if_pos c1, c3] at hm
  exact hm

/-- The payload byte right after the rendered text is the NUL stored by `snprintf`. -/
theorem post_nul (env : Env) (m : KMem) (proc : Nat) (ent : List Nat) (verbose : Bool)
    (hp : Passes env m (csblob m proc) ent) (hw : env.complete) :
    (entitle env m proc ent verbose).mem
      (blob_off m (csblob m proc) + 8 + (rendered ent).length) = 0 := by
  have h8 := hp.1.2.1
  have hbl := blob_length env m (csblob m proc)
  have hn := (newlen_lt ent _ (by have := length_lt m (csblob m proc); omega) hp.2).1
  have hlt : (rendered ent).length < length m (csblob m proc) - 8 := by
    rw [← hn]; exact hp.2
  rw [post_payload env m proc ent verbose hp hw _ hlt]
  have := getD_rewrite_nul (blob env m (csblob m proc)) ent (by omega) (by omega)
  rw [hbl] at this
  exact this

end NonArm64e

namespace Arm64e

theorem passes_of_success_arm (env : Env) (m : KMem) (proc : Nat) (ent : List Nat) (verbose : Bool)
    (hr : InRegion env m (csblob m proc)) (r : Outcome)
    (e : entitle env m proc ent verbose = some r) (h : r.rv = 0) :
    Passes env m (csblob m proc) ent := by
  by_contra hn
  obtain ⟨o, e2, h2, _⟩ := entitle_fail_arm env m proc ent verbose hr hn
  rw [e] at e2
  cases e2
  rw [h2] at h
  exact absurd h (by decide)

/-- A payload byte of the entitlements blob of the new region after a passing
run is the byte of the rewritten local blob, when the hash slot lies apart from
the blob. -/
theorem post_payload_arm (env : Env) (m : KMem) (proc : Nat) (ent : List Nat) (verbose : Bool)
    (hr : InRegion env m (csblob m proc)) (hp : Passes env m (csblob m proc) ent) (hw : env.complete)
    (hf : Fresh env m (csblob m proc))
    (hs : Separate (bufOff env m (csblob m proc)) 32 (entOff env m (csblob m proc))
      (length env m (csblob m proc)))
    (r : Outcome) (e : entitle env m proc ent verbose = some r)
    (j : Nat) (hj : j < length env m (csblob m proc) - 8) :
    r.mem (newBase env m (csblob m proc) + entOff env m (csblob m proc) + 8 + j)
      = (rewrite (blob env m (csblob m proc)) (length env m (csblob m proc) - 8) ent).getD
          (8 + j) 0 := by
  have h8 := hp.1.2.1
  have r3 := hr.2.2.2.1
  have k := post_region env m proc ent verbose hr hp hw hf r e
    (entOff env m (csblob m proc) + (8 + j)) 1 (by omega)
  rw [uaddr2_blob env m (csblob m proc) ent hr h8 hs (8 + j) 1 (by omega),
    blob1_eq env m (csblob m proc) ent hr h8] at k
  have k2 := congrArg (fun l => l.getD 0 0) k
  simp only at k2
  rw [getD_kbytes _ _ _ _ (by decide), getD_slice _ _ _ _ (by decide)] at k2
  have e1 : newBase env m (csblob m proc) + (entOff env m (csblob m proc) + (8 + j)) + 0
      = newBase env m (csblob m proc) + entOff env m (csblob m proc) + 8 + j := by omega
  rw [e1] at k2
  exact k2

/-- A byte of the local entitlements blob is the kernel byte it was copied from. -/
theorem blob_byte (env : Env) (m : KMem) (off : Nat) (hx : env.exact)
    (hr : InRegion env m off) (i : Nat) (hi : i < length env m off) :
    (blob env m off).getD i 0 = m (csb_mem_kaddr env m off + entOff env m off + i) := by
  have r3 := hr.2.2.2.1
  unfold blob
  rw [getD_slice _ _ _ _ hi, csb_mem_uaddr_exact _ _ _ hx, getD_kbytes _ _ _ _ (by omega),
    Nat.add_assoc]

end Arm64e

namespace Sample

set_option maxRecDepth 1000000 in
theorem nul_world :
    NonArm64e.blob_off world (csblob world proc) = 0x5060 ∧ world (0x5060 + 8 + 221) = 65 := by
  decide!

set_option maxRecDepth 1000000 in
theorem tail_byte_overlap : overlap (0x5000 + 0x60 + 8 + 246) = 151 := by decide!

set_option maxRecDepth 1000000 in
theorem digest_arm_overlap :
    (env.sha (Arm64e.blob1 env overlap (csblob overlap proc) frag)).getD 0 0 = 170 := by
  decide!

theorem passes_arm_overlap : Arm64e.Passes env overlap (csblob overlap proc) frag :=
  ⟨validated_arm_overlap, by rw [newlen_frag, layout_arm_overlap.1]; decide⟩

end Sample

/-! ## Lemmas for the relocation, the hash slot and the comparison of the variants -/

theorem trace_split (a : List Event) (x y z c : Event) (t : List Event) :
    a ++ [x, y, z, c] ++ t = (a ++ [x, y, z]) ++ c :: t := by simp

theorem trace_split5 (a : List Event) (w x y z c : Event) (t : List Event) :
    a ++ [w, x, y, z, c] ++ t = (a ++ [w, x, y, z]) ++ c :: t := by simp

theorem rebase_int (nb p k : Nat) :
    ((sub64 (u64 (nb + p)) k : Nat) : Int) = ((nb : Int) + ((p : Int) - (k : Int))) % 2 ^ 64 := by
  unfold sub64 u64
  norm_num at *
  omega

theorem getD_setField (obj : List Nat) (o w v j : Nat) (h : o + w ≤ obj.length)
    (hj : j < o ∨ o + w ≤ j) : (setField obj o w v).getD j 0 = obj.getD j 0 := by
  rw [setField_eq_splice, getD_splice _ _ _ _ (by rw [leBytes_length]; exact h),
    if_neg (by rw [leBytes_length]; omega)]

namespace Arm64e

theorem field_csb1_teamid (env : Env) (m : KMem) (off : Nat) :
    field (csb1 env m off) offsetof_csb_teamid 8
      = rebase env m off (field (csb env m off) offsetof_csb_teamid 8) := by
  have h0 : (csb env m off).length = 160 := csb_length env m off
  rw [csb1_eq]
  have l1 : ∀ v, (setField (csb env m off) offsetof_csb_cd 8 v).length = 160 :=
    fun v => by rw [setField_length _ _ _ _ (by rw [h0]; decide), h0]
  have l2 : ∀ v w, (setField (setField (csb env m off) offsetof_csb_cd 8 v)
      offsetof_csb_entitlements_blob 8 w).length = 160 :=
    fun v w => by rw [setField_length _ _ _ _ (by rw [l1]; decide), l1]
  have l3 : ∀ v w x, (setField (setField (setField (csb env m off) offsetof_csb_cd 8 v)
      offsetof_csb_entitlements_blob 8 w) offsetof_csb_teamid 8 x).length = 160 :=
    fun v w x => by rw [setField_length _ _ _ _ (by rw [l2]; decide), l2]
  rw [field_setField_separate _ _ _ _ _ _ (by rw [l3]; decide) (by rw [l3]; decide) (by decide),
    field_setField_same _ _ _ _ (by rw [l2]; decide)]
  exact Nat.mod_eq_of_lt (rebase_lt _ _ _ _)

theorem field_csb1_kaddr (env : Env) (m : KMem) (off : Nat) :
    field (csb1 env m off) offsetof_csb_mem_kaddr 8 = newBase env m off := by
  have h0 : (csb env m off).length = 160 := csb_length env m off
  rw [csb1_eq]
  have l1 : ∀ v, (setField (csb env m off) offsetof_csb_cd 8 v).length = 160 :=
    fun v => by rw [setField_length _ _ _ _ (by rw [h0]; decide), h0]
  have l2 : ∀ v w, (setField (setField (csb env m off) offsetof_csb_cd 8 v)
      offsetof_csb_entitlements_blob 8 w).length = 160 :=
    fun v w => by rw [setField_length _ _ _ _ (by rw [l1]; decide), l1]
  have l3 : ∀ v w x, (setField (setField (setField (csb env m off) offsetof_csb_cd 8 v)
      offsetof_csb_entitlements_blob 8 w) offsetof_csb_teamid 8 x).length = 160 :=
    fun v w x => by rw [setField_length _ _ _ _ (by rw [l2]; decide), l2]
  rw [field_setField_same _ _ _ _ (by rw [l3]; decide)]
  exact Nat.mod_eq_of_lt (u64_lt _)

/-- A byte of the record written back that lies outside the four fields the call
assigns is the byte read at the start of the call. -/
theorem getD_csb1_other (env : Env) (m : KMem) (off j : Nat) (hj : j < sizeof_cs_blob)
    (h1 : ¬ (offsetof_csb_mem_kaddr ≤ j ∧ j < offsetof_csb_mem_kaddr + 8))
    (h2 : ¬ (offsetof_csb_cd ≤ j ∧ j < offsetof_csb_entitlements_blob + 8)) :
    (csb1 env m off).getD j 0 = (csb env m off).getD j 0 := by
  have h0 : (csb env m off).length = 160 := csb_length env m off
  simp only [sizeof_cs_blob, offsetof_csb_mem_kaddr, offsetof_csb_cd,
    offsetof_csb_entitlements_blob] at hj h1 h2
  rw [csb1_eq]
  have l1 : ∀ v, (setField (csb env m off) offsetof_csb_cd 8 v).length = 160 :=
    fun v => by rw [setField_length _ _ _ _ (by rw [h0]; decide), h0]
  have l2 : ∀ v w, (setField (setField (csb env m off) offsetof_csb_cd 8 v)
      offsetof_csb_entitlements_blob 8 w).length = 160 :=
    fun v w => by rw [setField_length _ _ _ _ (by rw [l1]; decide), l1]
  have l3 : ∀ v w x, (setField (setField (setField (csb env m off) offsetof_csb_cd 8 v)
      offsetof_csb_entitlements_blob 8 w) offsetof_csb_teamid 8 x).length = 160 :=
    fun v w x => by rw [setField_length _ _ _ _ (by rw [l2]; decide), l2]
  rw [getD_setField _ _ _ _ _ (by rw [l3]; decide)
      (by simp only [offsetof_csb_mem_kaddr]; omega),
    getD_setField _ _ _ _ _ (by rw [l2]; decide) (by simp only [offsetof_csb_teamid]; omega),
    getD_setField _ _ _ _ _ (by rw [l1]; decide)
      (by simp only [offsetof_csb_entitlements_blob]; omega),
    getD_setField _ _ _ _ _ (by rw [h0]; decide) (by simp only [offsetof_csb_cd]; omega)]

theorem writes_pass (env : Env) (m : KMem) (proc : Nat) (ent : List Nat) (verbose : Bool)
    (hr : InRegion env m (csblob m proc)) (hp : Passes env m (csblob m proc) ent)
    (r : Outcome) (e : entitle env m proc ent verbose = some r) :
    writes r.trace = [(newBase env m (csblob m proc), uaddr2 env m (csblob m proc) ent),
      (csblob m proc, csb1 env m (csblob m proc))] ∧
    allocs r.trace
      = [(csb_mem_size env m (csblob m proc), newBase env m (csblob m proc))] := by
  rw [entitle_pass_arm env m proc ent verbose hr hp.1 hp.2] at e
  cases e
  have hl := uaddr2_length env m (csblob m proc) ent hr hp.1.2.1
  have t1 : (uaddr2 env m (csblob m proc) ent).take (csb_mem_size env m (csblob m proc))
      = uaddr2 env m (csblob m proc) ent := List.take_of_length_le (by rw [hl])
  have t2 : (csb1 env m (csblob m proc)).take sizeof_cs_blob = csb1 env m (csblob m proc) :=
    List.take_of_length_le (by rw [csb1_length])
  constructor
  · show writes (_ ++ _ ++ _) = _
    rw [writes_append, writes_append, writes_traceDigest_arm, t1, t2]
    split_ifs <;> rfl
  · show allocs (_ ++ _ ++ _) = _
    rw [allocs_append, allocs_append, allocs_traceDigest_arm]
    split_ifs <;> rfl

end Arm64e

namespace Arm64e

/-- The local buffer written to the new region differs from the previous backing
region only inside the entitlements payload and inside the hash slot. -/
theorem uaddr2_frame (env : Env) (m : KMem) (off : Nat) (ent : List Nat) (hx : env.exact)
    (hr : InRegion env m off) (h8 : 8 ≤ length env m off) (j : Nat)
    (hj : j < csb_mem_size env m off)
    (h1 : ¬ (entOff env m off + 8 ≤ j ∧ j < entOff env m off + length env m off))
    (h2 : ¬ (bufOff env m off ≤ j ∧ j < bufOff env m off + 32)) :
    (uaddr2 env m off ent).getD j 0 = m (csb_mem_kaddr env m off + j) := by
  have hl := rewrite_blob_length env m off ent hr h8
  have hu := csb_mem_uaddr_length env m off
  have hb := blob_length_arm env m off hr
  have r3 := hr.2.2.2.1
  have r4 := hr.2.2.2.2
  have e0 : (csb_mem_uaddr env m off).getD j 0 = m (csb_mem_kaddr env m off + j) := by
    rw [csb_mem_uaddr_exact _ _ _ hx, getD_kbytes _ _ _ _ hj]
  unfold uaddr2
  rw [getD_splice _ _ _ _ (by rw [env.sha_length, uaddr1_length _ _ _ _ hr h8]; exact r4),
    if_neg (by rw [env.sha_length]; exact h2)]
  unfold uaddr1
  rw [getD_splice _ _ _ _ (by rw [hl, hu]; exact r3)]
  by_cases hc : entOff env m off ≤ j ∧
      j < entOff env m off + (rewrite (blob env m off)
        (length env m off - sizeof_CS_GenericBlob) ent).length
  · rw [if_pos hc]
    rw [hl] at hc
    rw [getD_rewrite_header _ _ _ _ (by rw [hb]; exact h8) (by omega)]
    unfold blob
    rw [getD_slice _ _ _ _ (by omega), ← e0]
    congr 1
    omega
  · rw [if_neg hc, e0]

/-- Kernel memory after a run that passes every validation, outside the two
ranges the run writes. -/
theorem post_outside (env : Env) (m : KMem) (proc : Nat) (ent : List Nat) (verbose : Bool)
    (hr : InRegion env m (csblob m proc)) (hp : Passes env m (csblob m proc) ent)
    (r : Outcome) (e : entitle env m proc ent verbose = some r) (a : Nat)
    (h1 : a < newBase env m (csblob m proc) ∨
      newBase env m (csblob m proc) + csb_mem_size env m (csblob m proc) ≤ a)
    (h2 : a < csblob m proc ∨ csblob m proc + sizeof_cs_blob ≤ a) :
    r.mem a = m a := by
  rw [entitle_pass_arm env m proc ent verbose hr hp.1 hp.2] at e
  cases e
  have hl := uaddr2_length env m (csblob m proc) ent hr hp.1.2.1
  have l1 : ((csb1 env m (csblob m proc)).take (sizeof_cs_blob - env.wshort 1)).length
      ≤ sizeof_cs_blob := by
    rw [List.length_take]; omega
  have l2 : ((uaddr2 env m (csblob m proc) ent).take
      (csb_mem_size env m (csblob m proc) - env.wshort 0)).length
      ≤ csb_mem_size env m (csblob m proc) := by
    rw [List.length_take]; omega
  simp only [kwrite]
  rw [kstore_outside _ _ _ _ (by omega), kstore_outside _ _ _ _ (by omega)]

/-- Kernel memory after a run that passes every validation: a byte of the new region. -/
theorem post_region_byte (env : Env) (m : KMem) (proc : Nat) (ent : List Nat) (verbose : Bool)
    (hr : InRegion env m (csblob m proc)) (hp : Passes env m (csblob m proc) ent) (hw : env.complete)
    (hf : Fresh env m (csblob m proc))
    (r : Outcome) (e : entitle env m proc ent verbose = some r)
    (j : Nat) (hj : j < csb_mem_size env m (csblob m proc)) :
    r.mem (newBase env m (csblob m proc) + j) = (uaddr2 env m (csblob m proc) ent).getD j 0 := by
  have := post_region env m proc ent verbose hr hp hw hf r e j 1 (by omega)
  have h3 := congrArg (fun l => l.getD 0 0) this
  simp only at h3
  rw [getD_kbytes _ _ _ _ (by decide), getD_slice _ _ _ _ (by decide)] at h3
  simp only [Nat.add_zero] at h3
  exact h3

end Arm64e

namespace Arm64e

/-- Kernel memory after a run that passes every validation: a byte of the record slot. -/
theorem post_record_byte (env : Env) (m : KMem) (proc : Nat) (ent : List Nat) (verbose : Bool)
    (hr : InRegion env m (csblob m proc)) (hp : Passes env m (csblob m proc) ent) (hw : env.complete)
    (r : Outcome) (e : entitle env m proc ent verbose = some r)
    (o : Nat) (ho : o < sizeof_cs_blob) :
    r.mem (csblob m proc + o) = (csb1 env m (csblob m proc)).getD o 0 := by
  have := post_record env m proc ent verbose hr hp hw r e o 1 (by omega)
  have h3 := congrArg (fun l => l.getD 0 0) this
  simp only at h3
  rw [getD_kbytes _ _ _ _ (by decide), getD_slice _ _ _ _ (by decide)] at h3
  simp only [Nat.add_zero] at h3
  exact h3

end Arm64e

namespace Sample

set_option maxRecDepth 1000000 in
theorem csblob_nested : csblob nested proc = 0x5160 := by decide!

set_option maxRecDepth 1000000 in
theorem inRegion_nested : Arm64e.InRegion env nested (csblob nested proc) := by decide!

set_option maxRecDepth 1000000 in
theorem validated_arm_nested : Arm64e.Validated env nested (csblob nested proc) := by decide!

set_option maxRecDepth 1000000 in
theorem fresh_nested : Arm64e.Fresh env nested (csblob nested proc) := by decide!

set_option maxRecDepth 1000000 in
theorem layout_nested :
    Arm64e.length env nested (csblob nested proc) = 256 ∧
    Arm64e.csb_mem_kaddr env nested (csblob nested proc) = 0x5000 ∧
    Arm64e.csb_mem_size env nested (csblob nested proc) = 0x200 ∧
    nested (csblob nested proc + 129) = 0x50 ∧
    (Arm64e.csb1 env nested (csblob nested proc)).getD 129 0 = 0x90 := by decide!

set_option maxRecDepth 1000000 in
theorem detached_world : Arm64e.Detached env world (csblob world proc) := by decide!

theorem passes_arm_nested : Arm64e.Passes env nested (csblob nested proc) frag :=
  ⟨validated_arm_nested, by rw [newlen_frag, layout_nested.1]; decide⟩

end Sample

theorem slot_int (c x y : Nat) :
    ((sub64 (u64 (c + x)) y : Nat) : Int) = ((c : Int) + (x : Int) - (y : Int)) % 2 ^ 64 := by
  unfold sub64 u64
  norm_num at *
  omega

namespace NonArm64e

theorem prints_traceDigest (env : Env) (m : KMem) (proc : Nat) (verbose : Bool) :
    prints (traceDigest env m proc verbose)
      = if verbose then ["blob[%d]: \x7b%.*s\x7d\n"] else [] := by
  cases verbose <;> rfl

theorem reads_traceDigest (env : Env) (m : KMem) (proc : Nat) (verbose : Bool) :
    (reads (traceDigest env m proc verbose)).getLast?
      = some (hashSlot env m (csblob m proc), 32) := by
  cases verbose <;> rfl

/-- A run that reaches the digest comparison issues no kernel read after the
read of the stored digest. -/
theorem reads_reached (env : Env) (m : KMem) (proc : Nat) (ent : List Nat) (verbose : Bool)
    (h1 : SWAP32 (field (cdir env m (csblob m proc)) offsetof_magic 4) = CSMAGIC_CODEDIRECTORY)
    (h2 : 8 ≤ length m (csblob m proc)) (h3 : env.mallocOk = true) :
    reads (entitle env m proc ent verbose).trace = reads (traceDigest env m proc verbose) := by
  by_cases h4 : memcmp (buf env m (csblob m proc)) (env.sha (blob env m (csblob m proc))) 32
      = true
  · rw [entitle_badSHA2 env m proc ent verbose h1 h2 h3 h4, reads_append]
    simp [reads]
  · have hv : Validated env m (csblob m proc) := ⟨h1, h2, h3, by simpa using h4⟩
    by_cases h5 : newlen ent < length m (csblob m proc) - 8
    · rw [entitle_pass env m proc ent verbose hv h5, reads_append, reads_append]
      by_cases hq : env.csopsRv = 0 <;> cases verbose <;> simp [reads, hq]
    · rw [entitle_tooLong env m proc ent verbose hv (by omega), reads_append]
      simp [reads]

/-- A run that reaches the digest comparison reports `bad SHA2` exactly when
`memcmp` over 32 bytes finds a difference. -/
theorem diag_badSHA2 (env : Env) (m : KMem) (proc : Nat) (ent : List Nat) (verbose : Bool)
    (h1 : SWAP32 (field (cdir env m (csblob m proc)) offsetof_magic 4) = CSMAGIC_CODEDIRECTORY)
    (h2 : 8 ≤ length m (csblob m proc)) (h3 : env.mallocOk = true) :
    diag (entitle env m proc ent verbose) = some "bad SHA2\n" ↔
      memcmp (buf env m (csblob m proc)) (env.sha (blob env m (csblob m proc))) 32 = true := by
  by_cases h4 : memcmp (buf env m (csblob m proc)) (env.sha (blob env m (csblob m proc))) 32
      = true
  · rw [entitle_badSHA2 env m proc ent verbose h1 h2 h3 h4]
    simp [diag, prints_append, prints, h4]
  · have hv : Validated env m (csblob m proc) := ⟨h1, h2, h3, by simpa using h4⟩
    by_cases h5 : newlen ent < length m (csblob m proc) - 8
    · rw [entitle_pass env m proc ent verbose hv h5]
      simp only [diag, prints_append, prints_traceDigest, h4]
      by_cases hq : env.csopsRv = 0 <;> cases verbose <;> simp [prints, hq]
    · rw [entitle_tooLong env m proc ent verbose hv (by omega)]
      simp only [diag, prints_append, prints_traceDigest, h4]
      cases verbose <;> simp [prints]

end NonArm64e

namespace Arm64e

theorem prints_traceDigest_arm (env : Env) (m : KMem) (proc : Nat) (verbose : Bool) :
    prints (traceDigest env m proc verbose)
      = if verbose then ["blob[%d]: \x7b%.*s\x7d\n"] else [] := by
  cases verbose <;> rfl

/-- A defined run that reaches the digest comparison reports `bad SHA2` exactly
when `memcmp` over 32 bytes finds a difference. -/
theorem diag_badSHA2_arm (env : Env) (m : KMem) (proc : Nat) (ent : List Nat) (verbose : Bool)
    (hr : InRegion env m (csblob m proc))
    (h1 : SWAP32 (field (csb_mem_uaddr env m (csblob m proc))
      (cdOff env m (csblob m proc) + offsetof_magic) 4) = CSMAGIC_CODEDIRECTORY)
    (h2 : 8 ≤ length env m (csblob m proc)) :
    ∃ r, entitle env m proc ent verbose = some r ∧
      (diag r = some "bad SHA2\n" ↔
        memcmp (slice (csb_mem_uaddr env m (csblob m proc)) (bufOff env m (csblob m proc)) 32)
          (env.sha (blob env m (csblob m proc))) 32 = true) := by
  by_cases h4 : memcmp (slice (csb_mem_uaddr env m (csblob m proc))
      (bufOff env m (csblob m proc)) 32) (env.sha (blob env m (csblob m proc))) 32 = true
  · refine ⟨_, entitle_badSHA2_arm env m proc ent verbose hr h1 h2 h4, ?_⟩
    simp [diag, prints_append, prints, h4]
  · have hv : Validated env m (csblob m proc) := ⟨h1, h2, by simpa using h4⟩
    by_cases h5 : newlen ent < length env m (csblob m proc) - 8
    · refine ⟨_, entitle_pass_arm env m proc ent verbose hr hv h5, ?_⟩
      simp only [diag, prints_append, prints_traceDigest_arm, h4]
      by_cases hq : env.csopsRv = 0 <;> cases verbose <;> simp [prints, hq]
    · refine ⟨_, entitle_tooLong_arm env m proc ent verbose hr hv (by omega), ?_⟩
      simp only [diag, prints_append, prints_traceDigest_arm, h4]
      cases verbose <;> simp [prints]

end Arm64e

namespace Sample

set_option maxRecDepth 1000000 in
theorem narrow_facts :
    SWAP32 (field (NonArm64e.cdir env narrow (csblob narrow proc)) offsetof_magic 4)
      = CSMAGIC_CODEDIRECTORY ∧
    8 ≤ NonArm64e.length narrow (csblob narrow proc) ∧
    field (NonArm64e.cdir env narrow (csblob narrow proc)) offsetof_hashSize 1 = 20 ∧
    NonArm64e.hashSlot env narrow (csblob narrow proc) = 0x5040 ∧
    kbytes narrow (NonArm64e.hashSlot env narrow (csblob narrow proc)) 20
      = (env.sha (kbytes narrow (NonArm64e.blob_off narrow (csblob narrow proc))
          (NonArm64e.length narrow (csblob narrow proc)))).take 20 ∧
    memcmp (NonArm64e.buf env narrow (csblob narrow proc))
      (env.sha (NonArm64e.blob env narrow (csblob narrow proc))) 32 = true := by decide!

set_option maxRecDepth 1000000 in
theorem world_hashSize :
    field (NonArm64e.cdir env world (csblob world proc)) offsetof_hashSize 1 = 32 ∧
    NonArm64e.hashSlot env world (csblob world proc) = 0x5040 ∧
    Arm64e.bufOff env world (csblob world proc) = 0x40 := by decide!

end Sample

theorem sub64_of_le (a b : Nat) (hb : b ≤ a) (ha : a < 2 ^ 64) : sub64 a b = a - b := by
  unfold sub64
  norm_num at *
  omega

/-- The hash-slot offset in the local copy, from the hash-slot address in the kernel. -/
theorem slot_offset (base c x y s : Nat) (hs : base + s ≤ 2 ^ 64) (hc : base ≤ c)
    (h1 : base ≤ sub64 (u64 (c + x)) y) (h2 : sub64 (u64 (c + x)) y + 32 ≤ base + s) :
    sub64 (u64 (c - base + x)) y = sub64 (u64 (c + x)) y - base := by
  unfold sub64 u64 at *
  norm_num at *
  omega

theorem field_kbytes (m : KMem) (a n o w : Nat) (h : o + w ≤ n) :
    field (kbytes m a n) o w = le (kbytes m (a + o) w) := by
  rw [field_eq_slice, slice_kbytes _ _ _ _ _ h]

/-- The views of the two variants coincide on a target whose structures lie
inside the backing region. -/
theorem inside_views (env : Env) (m : KMem) (off : Nat) (hx : env.exact)
    (hi : Inside env m off) :
    Arm64e.csb_mem_kaddr env m off = regionBase m off ∧
    Arm64e.csb_mem_size env m off = regionSize m off ∧
    Arm64e.cdOff env m off = NonArm64e.cdir_off m off - regionBase m off ∧
    Arm64e.entOff env m off = NonArm64e.blob_off m off - regionBase m off ∧
    Arm64e.slice (Arm64e.csb_mem_uaddr env m off) (Arm64e.cdOff env m off)
      sizeof_CS_CodeDirectory = NonArm64e.cdir env m off ∧
    Arm64e.length env m off = NonArm64e.length m off ∧
    Arm64e.bufOff env m off = NonArm64e.hashSlot env m off - regionBase m off ∧
    Arm64e.blob env m off = NonArm64e.blob env m off ∧
    Arm64e.slice (Arm64e.csb_mem_uaddr env m off) (Arm64e.bufOff env m off) 32
      = NonArm64e.buf env m off ∧
    field (Arm64e.csb_mem_uaddr env m off) (Arm64e.cdOff env m off + offsetof_magic) 4
      = field (NonArm64e.cdir env m off) offsetof_magic 4 := by
  obtain ⟨i1, i2, ⟨c1, c2⟩, ⟨e1, e2⟩, ⟨_, e4⟩, ⟨s1, s2⟩⟩ := hi
  simp only [sizeof_cs_blob, sizeof_CS_CodeDirectory, sizeof_CS_GenericBlob] at i1 c2 e2
  have fld : ∀ o, o + 8 ≤ 160 →
      field (Arm64e.csb env m off) o 8 = kread_uint64 m (u64 (off + o)) := by
    intro o ho
    have hb : off + o < 2 ^ 64 := by omega
    rw [Arm64e.csb_exact _ _ _ hx, u64_of_lt _ hb]
    exact field_kbytes _ _ _ _ _ ho
  have k1 : Arm64e.csb_mem_kaddr env m off = regionBase m off := fld _ (by decide)
  have k2 : Arm64e.csb_mem_size env m off = regionSize m off := fld _ (by decide)
  have f3 : field (Arm64e.csb env m off) offsetof_csb_cd 8 = NonArm64e.cdir_off m off :=
    fld _ (by decide)
  have f4 : field (Arm64e.csb env m off) offsetof_csb_entitlements_blob 8
      = NonArm64e.blob_off m off := fld _ (by decide)
  have k3 : Arm64e.cdOff env m off = NonArm64e.cdir_off m off - regionBase m off := by
    unfold Arm64e.cdOff
    rw [k1, f3]
    exact sub64_of_le _ _ c1 (by omega)
  have k4 : Arm64e.entOff env m off = NonArm64e.blob_off m off - regionBase m off := by
    unfold Arm64e.entOff
    rw [k1, f4]
    exact sub64_of_le _ _ e1 (by omega)
  have hu : Arm64e.csb_mem_uaddr env m off = kbytes m (regionBase m off) (regionSize m off) := by
    rw [Arm64e.csb_mem_uaddr_exact _ _ _ hx, k1, k2]
  have k5 : Arm64e.slice (Arm64e.csb_mem_uaddr env m off) (Arm64e.cdOff env m off)
      sizeof_CS_CodeDirectory = NonArm64e.cdir env m off := by
    have hb : NonArm64e.cdir_off m off - regionBase m off + sizeof_CS_CodeDirectory
        ≤ regionSize m off := by
      simp only [sizeof_CS_CodeDirectory]; omega
    have ha : regionBase m off + (NonArm64e.cdir_off m off - regionBase m off)
        = NonArm64e.cdir_off m off := by omega
    rw [hu, k3, slice_kbytes m (regionBase m off) (regionSize m off) _ _ hb, ha,
      NonArm64e.cdir_exact _ _ _ hx]
  have fcd : ∀ o w, o + w ≤ sizeof_CS_CodeDirectory →
      field (Arm64e.csb_mem_uaddr env m off) (Arm64e.cdOff env m off + o) w
        = field (NonArm64e.cdir env m off) o w := by
    intro o w ho
    have hb : Arm64e.cdOff env m off + sizeof_CS_CodeDirectory
        ≤ (Arm64e.csb_mem_uaddr env m off).length := by
      rw [Arm64e.csb_mem_uaddr_length, k2, k3]
      simp only [sizeof_CS_CodeDirectory]; omega
    rw [← k5, field_slice _ _ sizeof_CS_CodeDirectory o w ho hb]
  have k6 : Arm64e.length env m off = NonArm64e.length m off := by
    have hb : NonArm64e.blob_off m off - regionBase m off + offsetof_length + 4
        ≤ regionSize m off := by
      simp only [offsetof_length]; omega
    have hc : NonArm64e.blob_off m off + offsetof_length < 2 ^ 64 := by
      simp only [offsetof_length]; omega
    have ha : regionBase m off + (NonArm64e.blob_off m off - regionBase m off + offsetof_length)
        = NonArm64e.blob_off m off + offsetof_length := by omega
    unfold Arm64e.length NonArm64e.length kread_uint32
    rw [hu, k4, field_kbytes m (regionBase m off) (regionSize m off) _ 4 hb, u64_of_lt _ hc, ha]
  have k7 : Arm64e.bufOff env m off = NonArm64e.hashSlot env m off - regionBase m off := by
    unfold Arm64e.bufOff
    rw [fcd _ _ (by decide), fcd _ _ (by decide), k3]
    exact slot_offset _ _ _ _ _ i2 c1 s1 s2
  have k8 : Arm64e.blob env m off = NonArm64e.blob env m off := by
    have hb : NonArm64e.blob_off m off - regionBase m off + NonArm64e.length m off
        ≤ regionSize m off := by omega
    have ha : regionBase m off + (NonArm64e.blob_off m off - regionBase m off)
        = NonArm64e.blob_off m off := by omega
    unfold Arm64e.blob
    rw [hu, k4, k6, slice_kbytes m (regionBase m off) (regionSize m off) _ _ hb, ha,
      NonArm64e.blob_exact _ _ _ hx]
  have k9 : Arm64e.slice (Arm64e.csb_mem_uaddr env m off) (Arm64e.bufOff env m off) 32
      = NonArm64e.buf env m off := by
    have hb : NonArm64e.hashSlot env m off - regionBase m off + 32 ≤ regionSize m off := by
      omega
    have ha : regionBase m off + (NonArm64e.hashSlot env m off - regionBase m off)
        = NonArm64e.hashSlot env m off := by omega
    rw [hu, k7, slice_kbytes m (regionBase m off) (regionSize m off) _ 32 hb, ha,
      NonArm64e.buf_exact _ _ _ hx]
  exact ⟨k1, k2, k3, k4, k5, k6, k7, k8, k9, fcd _ _ (by decide)⟩

theorem inRegion_of_inside (env : Env) (m : KMem) (off : Nat) (hx : env.exact)
    (hm : env.mallocOk = true) (hi : Inside env m off) : Arm64e.InRegion env m off := by
  obtain ⟨_, k2, k3, k4, _, k6, k7, _, _, _⟩ := inside_views env m off hx hi
  obtain ⟨_, _, ⟨c1, c2⟩, ⟨e1, e2⟩, ⟨_, e4⟩, ⟨s1, s2⟩⟩ := hi
  refine ⟨hm, ?_, ?_, ?_, ?_⟩
  · rw [k3, k2]; omega
  · rw [k4, k2]; omega
  · rw [k4, k6, k2]; omega
  · rw [k7, k2]; omega

theorem validated_iff (env : Env) (m : KMem) (off : Nat) (hx : env.exact)
    (hm : env.mallocOk = true) (hi : Inside env m off) :
    Arm64e.Validated env m off ↔ NonArm64e.Validated env m off := by
  obtain ⟨_, _, _, _, _, k6, _, k8, k9, k10⟩ := inside_views env m off hx hi
  unfold Arm64e.Validated NonArm64e.Validated
  rw [k10, k6, k9, k8]
  constructor
  · exact fun h => ⟨h.1, h.2.1, hm, h.2.2⟩
  · exact fun h => ⟨h.1, h.2.1, h.2.2.2⟩

theorem passes_iff (env : Env) (m : KMem) (off : Nat) (ent : List Nat) (hx : env.exact)
    (hm : env.mallocOk = true) (hi : Inside env m off) :
    Arm64e.Passes env m off ent ↔ NonArm64e.Passes env m off ent := by
  unfold Arm64e.Passes NonArm64e.Passes
  rw [validated_iff env m off hx hm hi, (inside_views env m off hx hi).2.2.2.2.2.1]

theorem prints_traceCopy (env : Env) (m : KMem) (proc : Nat) :
    prints (Arm64e.traceCopy env m proc) = [] := rfl

theorem prints_traceHeader (m : KMem) (proc : Nat) :
    prints (NonArm64e.traceHeader m proc) = [] := rfl

theorem prints_traceLength (m : KMem) (proc : Nat) :
    prints (NonArm64e.traceLength m proc) = [] := rfl

/-- On a target whose structures lie inside the backing region the two variants
return the same status and print the same diagnostics. -/
theorem same_verdict (env : Env) (m : KMem) (proc : Nat) (ent : List Nat) (verbose : Bool)
    (hx : env.exact) (hm : env.mallocOk = true) (hi : Inside env m (csblob m proc)) :
    ∃ r, Arm64e.entitle env m proc ent verbose = some r ∧
      r.rv = (NonArm64e.entitle env m proc ent verbose).rv ∧
      prints r.trace = prints (NonArm64e.entitle env m proc ent verbose).trace := by
  obtain ⟨_, _, _, _, _, k6, _, k8, k9, k10⟩ := inside_views env m (csblob m proc) hx hi
  have hr := inRegion_of_inside env m (csblob m proc) hx hm hi
  have hv := validated_iff env m (csblob m proc) hx hm hi
  by_cases h1 : SWAP32 (field (NonArm64e.cdir env m (csblob m proc)) offsetof_magic 4)
      = CSMAGIC_CODEDIRECTORY
  swap
  · rw [NonArm64e.entitle_badMagic env m proc ent verbose h1]
    refine ⟨_, Arm64e.entitle_badMagic_arm env m proc ent verbose hm hr.2.1
      (by rw [k10]; exact h1), rfl, ?_⟩
    show prints (_ ++ _) = prints (_ ++ _)
    rw [prints_append, prints_append, prints_traceCopy, prints_traceHeader]
  by_cases h2 : 8 ≤ NonArm64e.length m (csblob m proc)
  swap
  · rw [NonArm64e.entitle_badLength env m proc ent verbose h1 (by omega)]
    refine ⟨_, Arm64e.entitle_badLength_arm env m proc ent verbose hm hr.2.1
      (by rw [k10]; exact h1) hr.2.2.1 (by rw [k6]; omega), rfl, ?_⟩
    show prints (_ ++ _) = prints (_ ++ _)
    rw [prints_append, prints_append, prints_traceCopy, prints_traceLength]
  by_cases h4 : memcmp (NonArm64e.buf env m (csblob m proc))
      (env.sha (NonArm64e.blob env m (csblob m proc))) 32 = true
  · rw [NonArm64e.entitle_badSHA2 env m proc ent verbose h1 h2 hm h4]
    refine ⟨_, Arm64e.entitle_badSHA2_arm env m proc ent verbose hr
      (by rw [k10]; exact h1) (by rw [k6]; exact h2) (by rw [k9, k8]; exact h4), rfl, ?_⟩
    show prints (_ ++ _) = prints (_ ++ _)
    rw [prints_append, prints_append, Arm64e.prints_traceDigest_arm,
      NonArm64e.prints_traceDigest]
  have hn : NonArm64e.Validated env m (csblob m proc) := ⟨h1, h2, hm, by simpa using h4⟩
  have ha := hv.2 hn
  by_cases h5 : newlen ent < NonArm64e.length m (csblob m proc) - 8
  · rw [NonArm64e.entitle_pass env m proc ent verbose hn h5]
    refine ⟨_, Arm64e.entitle_pass_arm env m proc ent verbose hr ha (by rw [k6]; exact h5),
      rfl, ?_⟩
    show prints (_ ++ _ ++ _) = prints (_ ++ _ ++ _)
    rw [prints_append, prints_append, prints_append, prints_append,
      Arm64e.prints_traceDigest_arm, NonArm64e.prints_traceDigest]
    rfl
  · rw [NonArm64e.entitle_tooLong env m proc ent verbose hn (by omega)]
    refine ⟨_, Arm64e.entitle_tooLong_arm env m proc ent verbose hr ha (by rw [k6]; omega),
      rfl, ?_⟩
    show prints (_ ++ _) = prints (_ ++ _)
    rw [prints_append, prints_append, Arm64e.prints_traceDigest_arm,
      NonArm64e.prints_traceDigest]

/-- On a target whose structures lie inside the backing region, with a hash
slot that does not overlap the entitlements blob, the two variants leave the
same blob bytes and the same digest: in place for the `!__arm64e__` variant, at
the same offsets of the new region for the `__arm64e__` variant. -/
theorem same_bytes (env : Env) (m : KMem) (proc : Nat) (ent : List Nat) (verbose : Bool)
    (hx : env.exact) (hm : env.mallocOk = true) (hi : Inside env m (csblob m proc))
    (hp : NonArm64e.Passes env m (csblob m proc) ent) (hw : env.complete)
    (hf : Arm64e.Fresh env m (csblob m proc))
    (hs : Separate (NonArm64e.hashSlot env m (csblob m proc)) 32
      (NonArm64e.blob_off m (csblob m proc)) (NonArm64e.length m (csblob m proc)))
    (r : Outcome) (e : Arm64e.entitle env m proc ent verbose = some r) :
    kread_uint64 r.mem (u64 (csblob m proc + offsetof_csb_entitlements_blob))
      = Arm64e.newBase env m (csblob m proc)
        + (NonArm64e.blob_off m (csblob m proc) - regionBase m (csblob m proc)) ∧
    kbytes r.mem (Arm64e.newBase env m (csblob m proc)
        + (NonArm64e.blob_off m (csblob m proc) - regionBase m (csblob m proc)))
        (NonArm64e.length m (csblob m proc))
      = kbytes (NonArm64e.entitle env m proc ent verbose).mem
        (NonArm64e.blob_off m (csblob m proc)) (NonArm64e.length m (csblob m proc)) ∧
    kbytes r.mem (Arm64e.newBase env m (csblob m proc)
        + (NonArm64e.hashSlot env m (csblob m proc) - regionBase m (csblob m proc))) 32
      = kbytes (NonArm64e.entitle env m proc ent verbose).mem
        (NonArm64e.hashSlot env m (csblob m proc)) 32 := by
  obtain ⟨_, _, _, k4, _, k6, k7, k8, _, _⟩ := inside_views env m (csblob m proc) hx hi
  have hr := inRegion_of_inside env m (csblob m proc) hx hm hi
  have hpa := (passes_iff env m (csblob m proc) ent hx hm hi).2 hp
  have h8 := hpa.1.2.1
  have hsa : Separate (Arm64e.bufOff env m (csblob m proc)) 32
      (Arm64e.entOff env m (csblob m proc)) (Arm64e.length env m (csblob m proc)) := by
    obtain ⟨_, _, _, ⟨e1, _⟩, _, ⟨s1, _⟩⟩ := hi
    rw [k7, k4, k6]
    unfold Separate at *
    omega
  have hb1 : Arm64e.blob1 env m (csblob m proc) ent = NonArm64e.blob1 env m (csblob m proc) ent := by
    rw [Arm64e.blob1_eq _ _ _ _ hr h8, k8, k6]
    rfl
  have hl1 : (Arm64e.blob1 env m (csblob m proc) ent).length
      = Arm64e.length env m (csblob m proc) := by
    rw [Arm64e.blob1_eq _ _ _ _ hr h8]
    exact Arm64e.rewrite_blob_length _ _ _ _ hr h8
  refine ⟨?_, ?_, ?_⟩
  · rw [Arm64e.post_ent env m proc ent verbose hr hpa hw hf r e, k4]
  · rw [NonArm64e.post_blob env m proc ent verbose hp hw, ← k4, ← k6,
      Arm64e.post_region env m proc ent verbose hr hpa hw hf r e _ _ hr.2.2.2.1]
    have := Arm64e.uaddr2_blob env m (csblob m proc) ent hr h8 hsa 0
      (Arm64e.length env m (csblob m proc)) (by omega)
    rw [Nat.add_zero] at this
    rw [this, ← hl1, slice_full, hb1]
  · rw [NonArm64e.post_digest env m proc ent verbose hp hw hs,
      NonArm64e.post_blob env m proc ent verbose hp hw, ← k7,
      Arm64e.post_region env m proc ent verbose hr hpa hw hf r e _ _ hr.2.2.2.2,
      Arm64e.uaddr2_slot env m (csblob m proc) ent hr h8, hb1]

namespace Sample

set_option maxRecDepth 1000000 in
theorem inside_world : Inside env world (csblob world proc) := by decide!

set_option maxRecDepth 1000000 in
theorem inside_overlap :
    Inside env overlap (csblob overlap proc) ∧ regionBase overlap (csblob overlap proc) = 0x5000 := by
  decide!

set_option maxRecDepth 1000000 in
theorem uaddr2_overlap :
    (Arm64e.uaddr2 env overlap (csblob overlap proc) frag).getD 0x15e 0 = 170 := by decide!

end Sample

set_option maxRecDepth 1000000 in
theorem plist_lengths : (bytesOf plistHead).length = 171 ∧ (bytesOf plistTail).length = 18 := by
  decide!

/-- The rendered text is 189 bytes longer than the fragment taken as a C string. -/
theorem rendered_length (ent : List Nat) : (rendered ent).length = 189 + (cstr ent).length := by
  unfold rendered
  rw [List.length_append, List.length_append, plist_lengths.1, plist_lengths.2]
  omega

namespace NonArm64e

/-- A validated run reports `too long` exactly when the capacity check fails. -/
theorem diag_tooLong (env : Env) (m : KMem) (proc : Nat) (ent : List Nat) (verbose : Bool)
    (hv : Validated env m (csblob m proc)) :
    diag (entitle env m proc ent verbose) = some "too long\n" ↔
      length m (csblob m proc) - 8 ≤ newlen ent := by
  by_cases h5 : newlen ent < length m (csblob m proc) - 8
  · rw [entitle_pass env m proc ent verbose hv h5]
    have h6 : ¬ length m (csblob m proc) - 8 ≤ newlen ent := by omega
    simp only [diag, prints_append, prints_traceDigest, h6]
    by_cases hq : env.csopsRv = 0 <;> cases verbose <;> simp [prints, hq]
  · have h6 : length m (csblob m proc) - 8 ≤ newlen ent := by omega
    rw [entitle_tooLong env m proc ent verbose hv h6]
    simp only [diag, prints_append, prints_traceDigest, h6]
    cases verbose <;> simp [prints]

end NonArm64e

namespace Arm64e

/-- A defined, validated run reports `too long` exactly when the capacity check fails. -/
theorem diag_tooLong_arm (env : Env) (m : KMem) (proc : Nat) (ent : List Nat) (verbose : Bool)
    (hr : InRegion env m (csblob m proc)) (hv : Validated env m (csblob m proc)) :
    ∃ r, entitle env m proc ent verbose = some r ∧
      (diag r = some "too long\n" ↔ length env m (csblob m proc) - 8 ≤ newlen ent) := by
  by_cases h5 : newlen ent < length env m (csblob m proc) - 8
  · refine ⟨_, entitle_pass_arm env m proc ent verbose hr hv h5, ?_⟩
    have h6 : ¬ length env m (csblob m proc) - 8 ≤ newlen ent := by omega
    simp only [diag, prints_append, prints_traceDigest_arm, h6]
    by_cases hq : env.csopsRv = 0 <;> cases verbose <;> simp [prints, hq]
  · have h6 : length env m (csblob m proc) - 8 ≤ newlen ent := by omega
    refine ⟨_, entitle_tooLong_arm env m proc ent verbose hr hv h6, ?_⟩
    simp only [diag, prints_append, prints_traceDigest_arm, h6]
    cases verbose <;> simp [prints]

end Arm64e

/-- The capacity check on a NUL-free fragment whose rendered length an `int` can hold. -/
theorem capacity_iff (ent : List Nat) (c : Nat) (h0 : 0 ∉ ent) (hi : ent.length + 189 ≤ INT_MAX) :
    newlen ent < c ↔ ent.length + 189 < c := by
  have hl : (rendered ent).length = 189 + ent.length := by
    rw [rendered_length, cstr_of_nul_free ent h0]
  rw [newlen_small ent (by omega), hl]
  omega

/-- The rendered text has at least 189 bytes, so `newlen` is at least 189. -/
theorem newlen_min (ent : List Nat) : 189 ≤ newlen ent :=
  newlen_ge ent 189 (by decide) (by rw [rendered_length]; omega)

namespace Sample

set_option maxRecDepth 1000000 in
theorem layout_huge :
    SWAP32 (field (NonArm64e.cdir env huge (csblob huge proc)) offsetof_magic 4)
      = CSMAGIC_CODEDIRECTORY ∧
    NonArm64e.length huge (csblob huge proc) = 0x80000100 ∧
    NonArm64e.blob_off huge (csblob huge proc) = 0x6000 ∧
    NonArm64e.hashSlot env huge (csblob huge proc) = 0x5040 := by decide!

/-- The hash slot of the target with the large blob holds the SHA-256 of the blob. -/
theorem validated_huge : NonArm64e.Validated env huge (csblob huge proc) := by
  obtain ⟨h1, h2, h3, h4⟩ := layout_huge
  refine ⟨h1, by rw [h2]; decide, rfl, ?_⟩
  rw [memcmp_false_iff _ _ (NonArm64e.buf_length _ _ _) (env.sha_length _),
    NonArm64e.buf_exact _ _ _ env_exact, NonArm64e.blob_exact _ _ _ env_exact, h2, h3, h4]
  have hl : (Sha.sha256 (kbytes hugeBase 0x6000 0x80000100)).length = 32 := rfl
  have e1 : kbytes huge 0x5040 32 = Sha.sha256 (kbytes hugeBase 0x6000 0x80000100) := by
    have := kbytes_kstore_self hugeBase 0x5040 (Sha.sha256 (kbytes hugeBase 0x6000 0x80000100))
    rw [hl] at this
    exact this
  have e2 : kbytes huge 0x6000 0x80000100 = kbytes hugeBase 0x6000 0x80000100 :=
    kbytes_kstore_separate hugeBase 0x5040 _ 0x6000 0x80000100 (by rw [hl]; decide)
  rw [e1, e2]
  rfl

theorem frag2G_facts :
    0 ∉ frag2G ∧ frag2G.length = 2 ^ 31 - 189 ∧ newlen frag2G = 2 ^ 32 - 1 := by
  have h0 : 0 ∉ frag2G := by
    intro h
    have := List.eq_of_mem_replicate h
    exact absurd this (by decide)
  have hl : frag2G.length = 2 ^ 31 - 189 := List.length_replicate _ _
  refine ⟨h0, hl, newlen_big frag2G ?_⟩
  rw [rendered_length, cstr_of_nul_free _ h0, hl]
  decide

end Sample

/-! ## Short transfers

Runs on which a `kread` or a `kwrite` transfers fewer bytes than requested. -/

namespace NonArm64e

/-- The status, the kernel writes and the digest computations of a run that
passes every validation. -/
theorem events_pass (env : Env) (m : KMem) (proc : Nat) (ent : List Nat) (verbose : Bool)
    (hp : Passes env m (csblob m proc) ent) :
    (entitle env m proc ent verbose).rv = env.csopsRv ∧
    writes (entitle env m proc ent verbose).trace
      = [(hashSlot env m (csblob m proc), env.sha (blob1 env m (csblob m proc) ent)),
         (blob_off m (csblob m proc), blob1 env m (csblob m proc) ent)] ∧
    digests (entitle env m proc ent verbose).trace
      = [blob env m (csblob m proc), blob1 env m (csblob m proc) ent] := by
  have t1 : (env.sha (blob1 env m (csblob m proc) ent)).take 32
      = env.sha (blob1 env m (csblob m proc) ent) :=
    List.take_of_length_le (by rw [env.sha_length])
  have t2 : (blob1 env m (csblob m proc) ent).take (length m (csblob m proc))
      = blob1 env m (csblob m proc) ent :=
    List.take_of_length_le (by rw [blob1_length env m (csblob m proc) ent hp.1.2.1])
  rw [entitle_pass env m proc ent verbose hp.1 hp.2]
  refine ⟨rfl, ?_, ?_⟩
  · show writes (_ ++ _ ++ _) = _
    rw [writes_append, writes_append, writes_traceDigest, t1, t2]
    split_ifs <;> rfl
  · show digests (_ ++ _ ++ _) = _
    rw [digests_append, digests_append, digests_traceDigest]
    split_ifs <;> rfl

/-- A byte outside the entitlements payload and outside the hash slot: with
exact reads no run changes it, whatever the kernel writes transfer. -/
theorem mem_frame (env : Env) (m : KMem) (proc : Nat) (ent : List Nat) (verbose : Bool)
    (hx : env.exact) (a : Nat)
    (h1 : ¬ (blob_off m (csblob m proc) + 8 ≤ a ∧
      a < blob_off m (csblob m proc) + length m (csblob m proc)))
    (h2 : ¬ (hashSlot env m (csblob m proc) ≤ a ∧ a < hashSlot env m (csblob m proc) + 32)) :
    (entitle env m proc ent verbose).mem a = m a := by
  by_cases h : Passes env m (csblob m proc) ent
  swap
  · rw [(entitle_fail env m proc ent verbose h).2.1]
  have h8 := h.1.2.1
  have hl := blob1_length env m (csblob m proc) ent h8
  have hd := env.sha_length (blob1 env m (csblob m proc) ent)
  have l1 : ((blob1 env m (csblob m proc) ent).take
      (length m (csblob m proc) - env.wshort 1)).length
      = length m (csblob m proc) - env.wshort 1 := by
    rw [List.length_take, hl]; omega
  have l2 : ((env.sha (blob1 env m (csblob m proc) ent)).take (32 - env.wshort 0)).length
      ≤ 32 := by
    rw [List.length_take]; omega
  rw [entitle_pass env m proc ent verbose h.1 h.2]
  simp only [kwrite]
  by_cases hin : blob_off m (csblob m proc) ≤ a ∧
      a < blob_off m (csblob m proc) + (length m (csblob m proc) - env.wshort 1)
  · have hj : a - blob_off m (csblob m proc) < 8 := by omega
    have hb : 8 ≤ (blob env m (csblob m proc)).length := by
      rw [blob_length]; exact h8
    have e1 := getD_rewrite_header (blob env m (csblob m proc)) ent
      (length m (csblob m proc) - 8) _ hb hj
    have e2 := getD_kbytes m (blob_off m (csblob m proc)) (length m (csblob m proc))
      (a - blob_off m (csblob m proc)) (by omega)
    have e3 : blob_off m (csblob m proc) + (a - blob_off m (csblob m proc)) = a := by omega
    rw [kstore_inside _ _ _ _ (by rw [l1]; exact hin), getD_take_nat _ _ _ (by omega)]
    unfold blob1
    rw [e1, blob_exact _ _ _ hx, e2, e3]
  · rw [kstore_outside _ _ _ _ (by rw [l1]; omega), kstore_outside _ _ _ _ (by omega)]

end NonArm64e

namespace Arm64e

/-- Kernel memory after a run that passes every validation: the record slot,
when the write of the record transfers in full. -/
theorem post_record_last (env : Env) (m : KMem) (proc : Nat) (ent : List Nat) (verbose : Bool)
    (hr : InRegion env m (csblob m proc)) (hp : Passes env m (csblob m proc) ent)
    (h1 : env.wshort 1 = 0) (r : Outcome) (e : entitle env m proc ent verbose = some r) :
    kbytes r.mem (csblob m proc) sizeof_cs_blob = csb1 env m (csblob m proc) := by
  rw [entitle_pass_arm env m proc ent verbose hr hp.1 hp.2] at e
  cases e
  simp only [kwrite, h1, Nat.sub_zero]
  rw [List.take_of_length_le (l := csb1 env m (csblob m proc)) (by rw [csb1_length])]
  have h := kbytes_kstore_self
    ((kstore m (newBase env m (csblob m proc))
      ((uaddr2 env m (csblob m proc) ent).take
        (csb_mem_size env m (csblob m proc) - env.wshort 0))))
    (csblob m proc) (csb1 env m (csblob m proc))
  rw [csb1_length] at h
  exact h

end Arm64e

namespace Sample

theorem env_complete : env.complete := fun _ => rfl

theorem envStale_complete (k size : Nat) (old : List Nat) : (envStale k size old).complete :=
  fun _ => rfl

set_option maxRecDepth 1000000 in
theorem slotStale_facts :
    kbytes stale (NonArm64e.hashSlot (envStale 2 32 digest0) stale (csblob stale proc)) 32 ≠
      (envStale 2 32 digest0).sha (kbytes stale (NonArm64e.blob_off stale (csblob stale proc))
        (NonArm64e.length stale (csblob stale proc))) ∧
    ¬ (envStale 2 32 digest0).short 2 = 0 ∧
    NonArm64e.Passes (envStale 2 32 digest0) stale (csblob stale proc) frag := by decide!

set_option maxRecDepth 1000000 in
theorem hdrStale_facts :
    SWAP32 (field (kbytes badMagic (NonArm64e.cdir_off badMagic (csblob badMagic proc))
      sizeof_CS_CodeDirectory) offsetof_magic 4) ≠ CSMAGIC_CODEDIRECTORY ∧
    ¬ (envStale 0 44 (cdhdr [0, 0, 0, 0xe0])).short 0 = 0 ∧
    NonArm64e.Passes (envStale 0 44 (cdhdr [0, 0, 0, 0xe0])) badMagic (csblob badMagic proc)
      frag := by decide!

set_option maxRecDepth 1000000 in
theorem blobStale_facts :
    NonArm64e.Passes (envStale 1 256 blobX) worldX (csblob worldX proc) frag ∧
    ¬ (envStale 1 256 blobX).short 1 = 0 ∧
    NonArm64e.blob_off worldX (csblob worldX proc) = 0x5060 ∧
    NonArm64e.length worldX (csblob worldX proc) = 256 ∧
    NonArm64e.hashSlot (envStale 1 256 blobX) worldX (csblob worldX proc) = 0x5040 ∧
    worldX (0x5060 + 3) = 0x71 ∧ worldX (0x5060 + 8 + 222) = 65 ∧
    (NonArm64e.blob1 (envStale 1 256 blobX) worldX (csblob worldX proc) frag).getD 3 0 = 0x72 ∧
    (NonArm64e.blob1 (envStale 1 256 blobX) worldX (csblob worldX proc) frag).getD (8 + 222) 0
      = 66 := by decide!

end Sample

/-! ## The claims -/

/-- C1: when the rendered plist text is at least as long as the capacity
(`length - 8`), `entitle` returns -1, leaves kernel memory untouched and issues
no kernel write and no kernel allocation, in both variants; when the earlier
validations pass, the diagnostic is the capacity failure `too long`. -/
theorem C1_capacity_failure (env : Env) (m : KMem) (proc : Nat) (ent : List Nat)
    (verbose : Bool) :
    (NonArm64e.length m (csblob m proc) - 8 ≤ (rendered ent).length →
      (NonArm64e.entitle env m proc ent verbose).rv = -1 ∧
      (NonArm64e.entitle env m proc ent verbose).mem = m ∧
      writes (NonArm64e.entitle env m proc ent verbose).trace = [] ∧
      allocs (NonArm64e.entitle env m proc ent verbose).trace = [] ∧
      (NonArm64e.Validated env m (csblob m proc) →
        diag (NonArm64e.entitle env m proc ent verbose) = some "too long\n")) ∧
    (Arm64e.InRegion env m (csblob m proc) →
      Arm64e.length env m (csblob m proc) - 8 ≤ (rendered ent).length →
      ∃ o, Arm64e.entitle env m proc ent verbose = some o ∧ o.rv = -1 ∧ o.mem = m ∧
        writes o.trace = [] ∧ allocs o.trace = [] ∧
        (Arm64e.Validated env m (csblob m proc) → diag o = some "too long\n")) := by
  constructor
  · intro h
    have hn : NonArm64e.length m (csblob m proc) - 8 ≤ newlen ent :=
      newlen_ge ent _ (by have := NonArm64e.length_lt m (csblob m proc); omega) h
    obtain ⟨a, b, c, d⟩ := NonArm64e.entitle_fail env m proc ent verbose
      (fun hp => by have := hp.2; omega)
    refine ⟨a, b, c, d, fun hv => ?_⟩
    rw [NonArm64e.entitle_tooLong env m proc ent verbose hv hn]
    simp [diag, prints_append, prints]
  · intro hr h
    have hn : Arm64e.length env m (csblob m proc) - 8 ≤ newlen ent :=
      newlen_ge ent _ (by have := Arm64e.length_lt_arm env m (csblob m proc); omega) h
    obtain ⟨o, e, a, b, c, d⟩ := Arm64e.entitle_fail_arm env m proc ent verbose hr
      (fun hp => by have := hp.2; omega)
    refine ⟨o, e, a, b, c, d, fun hv => ?_⟩
    rw [Arm64e.entitle_tooLong_arm env m proc ent verbose hr hv hn] at e
    cases e
    simp [diag, prints_append, prints]

/-- C1, on the sample target: blob length 256 and a fragment of 250 bytes. -/
theorem C1_capacity_failure_witness :
    NonArm64e.length Sample.world (csblob Sample.world Sample.proc) = 256 ∧
    Sample.frag250.length = 250 ∧
    diag (NonArm64e.entitle Sample.env Sample.world Sample.proc Sample.frag250 false)
      = some "too long\n" ∧
    writes (NonArm64e.entitle Sample.env Sample.world Sample.proc Sample.frag250 false).trace
      = [] ∧
    ∃ o, Arm64e.entitle Sample.env Sample.world Sample.proc Sample.frag250 false = some o ∧
      o.rv = -1 ∧ writes o.trace = [] ∧ allocs o.trace = [] ∧ diag o = some "too long\n" := by
  have c := C1_capacity_failure Sample.env Sample.world Sample.proc Sample.frag250 false
  have c1 := c.1 (by rw [Sample.length_world, Sample.rendered_frag250]; decide)
  obtain ⟨o, e, r, _, w, a, d⟩ := c.2 Sample.inRegion_world
    (by rw [Sample.length_arm_world, Sample.rendered_frag250]; decide)
  exact ⟨Sample.length_world, List.length_replicate _ _, c1.2.2.2.2 Sample.validated_world, c1.2.2.1,
    o, e, r, w, a, d Sample.validated_arm_world⟩

/-- C2, as amended: with exact reads (every `kread` of the run transfers its
full length), when the 32 bytes stored at the entitlements hash slot differ from
the SHA-256 of the entitlements blob bytes currently in kernel memory (full
length, header included), `entitle` returns -1, leaves kernel memory untouched
and issues no kernel write, for every fragment and in both variants; when the
magic and the length are valid (and, in the `!__arm64e__` variant, `malloc`
succeeds), the diagnostic is the authenticity failure `bad SHA2`. In the
`__arm64e__` variant the slot and the blob are those of the backing region, and
the statement is for a target on which the run has defined behaviour: `calloc`
succeeds, and the code-directory header, the blob and the slot lie inside the
local copy of the region. -/
theorem C2_digest_mismatch (env : Env) (m : KMem) (proc : Nat) (ent : List Nat)
    (verbose : Bool) (hx : env.exact) :
    (kbytes m (NonArm64e.hashSlot env m (csblob m proc)) 32 ≠
        env.sha (kbytes m (NonArm64e.blob_off m (csblob m proc))
          (NonArm64e.length m (csblob m proc))) →
      (NonArm64e.entitle env m proc ent verbose).rv = -1 ∧
      (NonArm64e.entitle env m proc ent verbose).mem = m ∧
      writes (NonArm64e.entitle env m proc ent verbose).trace = [] ∧
      (SWAP32 (field (kbytes m (NonArm64e.cdir_off m (csblob m proc)) sizeof_CS_CodeDirectory)
          offsetof_magic 4) = CSMAGIC_CODEDIRECTORY →
        8 ≤ NonArm64e.length m (csblob m proc) → env.mallocOk = true →
        diag (NonArm64e.entitle env m proc ent verbose) = some "bad SHA2\n")) ∧
    (Arm64e.InRegion env m (csblob m proc) →
      kbytes m (Arm64e.csb_mem_kaddr env m (csblob m proc) + Arm64e.bufOff env m (csblob m proc))
          32 ≠
        env.sha (kbytes m
          (Arm64e.csb_mem_kaddr env m (csblob m proc) + Arm64e.entOff env m (csblob m proc))
          (Arm64e.length env m (csblob m proc))) →
      ∃ o, Arm64e.entitle env m proc ent verbose = some o ∧ o.rv = -1 ∧ o.mem = m ∧
        writes o.trace = [] ∧ allocs o.trace = [] ∧
        (SWAP32 (field (kbytes m (Arm64e.csb_mem_kaddr env m (csblob m proc))
            (Arm64e.csb_mem_size env m (csblob m proc)))
            (Arm64e.cdOff env m (csblob m proc) + offsetof_magic) 4) = CSMAGIC_CODEDIRECTORY →
          8 ≤ Arm64e.length env m (csblob m proc) → diag o = some "bad SHA2\n")) := by
  constructor
  · intro h
    have hm : memcmp (NonArm64e.buf env m (csblob m proc))
        (env.sha (NonArm64e.blob env m (csblob m proc))) 32 = true := by
      rw [memcmp_true_iff _ _ (NonArm64e.buf_length _ _ _) (env.sha_length _),
        NonArm64e.buf_exact _ _ _ hx, NonArm64e.blob_exact _ _ _ hx]
      exact h
    obtain ⟨a, b, c, _⟩ := NonArm64e.entitle_fail env m proc ent verbose
      (fun hp => by have := hp.1.2.2.2; simp [hm] at this)
    refine ⟨a, b, c, fun h1 h2 h3 => ?_⟩
    rw [← NonArm64e.cdir_exact _ _ _ hx] at h1
    rw [NonArm64e.entitle_badSHA2 env m proc ent verbose h1 h2 h3 hm]
    simp [diag, prints_append, prints]
  · intro hr h
    have hm : memcmp (Arm64e.slice (Arm64e.csb_mem_uaddr env m (csblob m proc))
        (Arm64e.bufOff env m (csblob m proc)) 32)
        (env.sha (Arm64e.blob env m (csblob m proc))) 32 = true := by
      rw [memcmp_true_iff _ _
        (slice_length _ _ _ (by rw [Arm64e.csb_mem_uaddr_length]; exact hr.2.2.2.2))
        (env.sha_length _)]
      unfold Arm64e.blob
      rw [Arm64e.csb_mem_uaddr_exact _ _ _ hx, slice_kbytes _ _ _ _ _ hr.2.2.2.2,
        slice_kbytes _ _ _ _ _ hr.2.2.2.1]
      exact h
    obtain ⟨o, e, a, b, c, d⟩ := Arm64e.entitle_fail_arm env m proc ent verbose hr
      (fun hp => by have := hp.1.2.2; simp [hm] at this)
    refine ⟨o, e, a, b, c, d, fun h1 h2 => ?_⟩
    rw [← Arm64e.csb_mem_uaddr_exact _ _ _ hx] at h1
    rw [Arm64e.entitle_badSHA2_arm env m proc ent verbose hr h1 h2 hm] at e
    cases e
    simp [diag, prints_append, prints]

/-- C2, as stated, fails: on the sample target with a stale digest, in the
`!__arm64e__` variant, the `kread` of the hash slot (the third `kread` of the
run) transfers no byte and the local array `buf` holds the SHA-256 of the blob.
The 32 bytes stored at the hash slot differ from the SHA-256 of the blob in
kernel memory, yet the comparison passes, `entitle` issues two kernel writes and
returns 0. -/
theorem C2_counterexample :
    kbytes Sample.stale
        (NonArm64e.hashSlot (Sample.envStale 2 32 Sample.digest0) Sample.stale
          (csblob Sample.stale Sample.proc)) 32 ≠
      (Sample.envStale 2 32 Sample.digest0).sha (kbytes Sample.stale
        (NonArm64e.blob_off Sample.stale (csblob Sample.stale Sample.proc))
        (NonArm64e.length Sample.stale (csblob Sample.stale Sample.proc))) ∧
    ¬ (Sample.envStale 2 32 Sample.digest0).short 2 = 0 ∧
    (NonArm64e.entitle (Sample.envStale 2 32 Sample.digest0) Sample.stale Sample.proc
      Sample.frag false).rv = 0 ∧
    (writes (NonArm64e.entitle (Sample.envStale 2 32 Sample.digest0) Sample.stale Sample.proc
      Sample.frag false).trace).length = 2 := by
  obtain ⟨f1, f2, hp⟩ := Sample.slotStale_facts
  obtain ⟨e1, e2, _⟩ := NonArm64e.events_pass (Sample.envStale 2 32 Sample.digest0)
    Sample.stale Sample.proc Sample.frag false hp
  refine ⟨f1, f2, e1.trans rfl, ?_⟩
  rw [e2]
  rfl

/-- C2, as amended, on the sample target with a stale digest. -/
theorem C2_digest_mismatch_witness :
    kbytes Sample.stale
        (NonArm64e.hashSlot Sample.env Sample.stale (csblob Sample.stale Sample.proc)) 32 ≠
      Sample.env.sha (kbytes Sample.stale
        (NonArm64e.blob_off Sample.stale (csblob Sample.stale Sample.proc))
        (NonArm64e.length Sample.stale (csblob Sample.stale Sample.proc))) ∧
    (NonArm64e.entitle Sample.env Sample.stale Sample.proc Sample.frag false).rv = -1 ∧
    writes (NonArm64e.entitle Sample.env Sample.stale Sample.proc Sample.frag false).trace = [] ∧
    diag (NonArm64e.entitle Sample.env Sample.stale Sample.proc Sample.frag false)
      = some "bad SHA2\n" ∧
    ∃ o, Arm64e.entitle Sample.env Sample.stale Sample.proc Sample.frag false = some o ∧
      o.rv = -1 ∧ writes o.trace = [] ∧ diag o = some "bad SHA2\n" := by
  have c := C2_digest_mismatch Sample.env Sample.stale Sample.proc Sample.frag false
    Sample.env_exact
  have c1 := c.1 Sample.stale_mismatch
  obtain ⟨o, e, r, _, w, _, d⟩ := c.2 Sample.stale_facts.2.2.1 Sample.stale_mismatch_arm
  exact ⟨Sample.stale_mismatch, c1.1, c1.2.2.1,
    c1.2.2.2 Sample.stale_facts.1 Sample.stale_facts.2.1 rfl,
    o, e, r, w, d Sample.stale_facts.2.2.2.1 Sample.stale_facts.2.2.2.2⟩

/-- C5, as amended: in the `!__arm64e__` variant, with exact reads (every `kread`
transfers its full length) and complete writes (every `kwrite` transfers its
full length), when a call of `entitle` returns 0 on a target whose hash slot and
entitlements blob overlap neither each other nor the kernel locations the call
reads to find them (the three locator cells, the `csb_cd` and
`csb_entitlements_blob` fields of the record, the code-directory header), and
whose blob header lies in the 64-bit address space, a second call with the same
fragment passes every validation, returns 0 again and leaves kernel memory
byte-identical to the state after the first call. -/
theorem C5_idempotence (env : Env) (m : KMem) (proc : Nat) (ent : List Nat) (verbose : Bool)
    (hx : env.exact) (hw : env.complete) (h0 : (NonArm64e.entitle env m proc ent verbose).rv = 0)
    (hs : NonArm64e.Stable env m proc)
    (hd : Separate (NonArm64e.hashSlot env m (csblob m proc)) 32
      (NonArm64e.blob_off m (csblob m proc)) (NonArm64e.length m (csblob m proc))) :
    NonArm64e.Passes env (NonArm64e.entitle env m proc ent verbose).mem
      (csblob (NonArm64e.entitle env m proc ent verbose).mem proc) ent ∧
    (NonArm64e.entitle env (NonArm64e.entitle env m proc ent verbose).mem proc ent verbose).rv
      = 0 ∧
    (NonArm64e.entitle env (NonArm64e.entitle env m proc ent verbose).mem proc ent verbose).mem
      = (NonArm64e.entitle env m proc ent verbose).mem := by
  have hp := NonArm64e.passes_of_success env m proc ent verbose h0
  have hq : env.csopsRv = 0 := by
    rw [NonArm64e.entitle_pass env m proc ent verbose hp.1 hp.2] at h0
    exact h0
  obtain ⟨v1, v2, v3, v4, v5, v6, v7⟩ := NonArm64e.second_views env m proc ent verbose hx hp hw hs
  have hdg := NonArm64e.post_digest env m proc ent verbose hp hw hd
  have hpb := NonArm64e.post_blob env m proc ent verbose hp hw
  have hmp := NonArm64e.mem_pass env m proc ent verbose hp hw
  have h8 := hp.1.2.1
  have hbl := NonArm64e.blob_length env m (csblob m proc)
  have hn := (newlen_lt ent _ (by have := NonArm64e.length_lt m (csblob m proc); omega) hp.2).1
  have hidem : rewrite (NonArm64e.blob1 env m (csblob m proc) ent)
      (NonArm64e.length m (csblob m proc) - 8) ent = NonArm64e.blob1 env m (csblob m proc) ent := by
    have := rewrite_idem (NonArm64e.blob env m (csblob m proc)) ent (by omega)
      (by rw [hbl, ← hn]; exact hp.2)
    rw [hbl] at this
    exact this
  generalize (NonArm64e.entitle env m proc ent verbose).mem = m1 at *
  have hp2 : NonArm64e.Passes env m1 (csblob m1 proc) ent := by
    rw [v1]
    refine ⟨⟨?_, ?_, hp.1.2.2.1, ?_⟩, ?_⟩
    · rw [v2]; exact hp.1.1
    · rw [v3]; exact h8
    · rw [memcmp_false_iff _ _ (NonArm64e.buf_length _ _ _) (env.sha_length _), v7, v6, hdg, hpb]
    · rw [v3]; exact hp.2
  refine ⟨hp2, ?_, ?_⟩
  · rw [NonArm64e.entitle_pass env m1 proc ent verbose hp2.1 hp2.2]
    exact hq
  · funext a
    have h2 := NonArm64e.mem_pass env m1 proc ent verbose hp2 hw a
    have hb1 : NonArm64e.blob1 env m1 (csblob m proc) ent
        = NonArm64e.blob1 env m (csblob m proc) ent := by
      unfold NonArm64e.blob1
      rw [v6, v3]
      exact hidem
    rw [v1, v3, v4, v5, hb1] at h2
    rw [h2, hmp a]
    split_ifs <;> rfl

/-- C5, as stated, fails: on the sample target whose hash slot starts on the
last two bytes of the entitlements blob, the first call of `entitle` returns 0;
the second call with the same fragment finds a stored digest that differs from
the digest of the blob, fails the validation and returns -1. -/
theorem C5_counterexample :
    (NonArm64e.entitle Sample.env Sample.overlap Sample.proc Sample.frag false).rv = 0 ∧
    ¬ NonArm64e.Passes Sample.env
      (NonArm64e.entitle Sample.env Sample.overlap Sample.proc Sample.frag false).mem
      (csblob (NonArm64e.entitle Sample.env Sample.overlap Sample.proc Sample.frag false).mem
        Sample.proc) Sample.frag ∧
    (NonArm64e.entitle Sample.env
      (NonArm64e.entitle Sample.env Sample.overlap Sample.proc Sample.frag false).mem
      Sample.proc Sample.frag false).rv = -1 := by
  have hp := Sample.passes_overlap
  obtain ⟨l1, l2, l3⟩ := Sample.layout_overlap
  have h0 : (NonArm64e.entitle Sample.env Sample.overlap Sample.proc Sample.frag false).rv = 0 := by
    rw [NonArm64e.entitle_pass _ _ _ _ _ hp.1 hp.2]
    rfl
  obtain ⟨v1, _, _, _, _, v6, v7⟩ := NonArm64e.second_views Sample.env Sample.overlap
    Sample.proc Sample.frag false Sample.env_exact hp Sample.env_complete Sample.stable_overlap
  have hm := NonArm64e.mem_pass Sample.env Sample.overlap Sample.proc Sample.frag false hp Sample.env_complete
    (NonArm64e.hashSlot Sample.env Sample.overlap (csblob Sample.overlap Sample.proc) + 0)
  rw [if_pos (by rw [l1, l2, l3]; decide)] at hm
  have h2 : NonArm64e.hashSlot Sample.env Sample.overlap (csblob Sample.overlap Sample.proc)
      + 0 - NonArm64e.blob_off Sample.overlap (csblob Sample.overlap Sample.proc) = 254 := by
    rw [l2, l3]
  rw [h2, Sample.tail_overlap] at hm
  have hn : ¬ NonArm64e.Passes Sample.env
      (NonArm64e.entitle Sample.env Sample.overlap Sample.proc Sample.frag false).mem
      (csblob (NonArm64e.entitle Sample.env Sample.overlap Sample.proc Sample.frag false).mem
        Sample.proc) Sample.frag := by
    intro hp2
    have h4 := hp2.1.2.2.2
    rw [v1, memcmp_false_iff _ _ (NonArm64e.buf_length _ _ _) (Sample.env.sha_length _),
      v7, v6] at h4
    have h5 := congrArg (fun l => l.getD 0 0) h4
    simp only at h5
    rw [getD_kbytes _ _ _ _ (by decide), hm, Sample.digest_overlap] at h5
    exact absurd h5 (by decide)
  exact ⟨h0, hn, (NonArm64e.entitle_fail _ _ _ _ _ hn).1⟩

/-- C5, as amended, on the sample target. -/
theorem C5_idempotence_witness :
    (NonArm64e.entitle Sample.env Sample.world Sample.proc Sample.frag false).rv = 0 ∧
    (NonArm64e.entitle Sample.env
      (NonArm64e.entitle Sample.env Sample.world Sample.proc Sample.frag false).mem
      Sample.proc Sample.frag false).rv = 0 ∧
    (NonArm64e.entitle Sample.env
      (NonArm64e.entitle Sample.env Sample.world Sample.proc Sample.frag false).mem
      Sample.proc Sample.frag false).mem
      = (NonArm64e.entitle Sample.env Sample.world Sample.proc Sample.frag false).mem := by
  have hp : NonArm64e.Passes Sample.env Sample.world (csblob Sample.world Sample.proc)
      Sample.frag := Sample.passes_world (fun _ => 0) 0 (fun _ => rfl)
  have h0 : (NonArm64e.entitle Sample.env Sample.world Sample.proc Sample.frag false).rv = 0 := by
    rw [NonArm64e.entitle_pass _ _ _ _ _ hp.1 hp.2]
    rfl
  have c := C5_idempotence Sample.env Sample.world Sample.proc Sample.frag false
    Sample.env_exact Sample.env_complete h0 Sample.stable_world Sample.separate_world
  exact ⟨h0, c.2.1, c.2.2⟩

/-- C6, as amended: with exact reads (every `kread` of the run transfers its
full length), a code-directory magic that, byte-swapped, is not `0xfade0c02`
makes `entitle` return -1 right after the header has been read: the trace ends
with the diagnostic `bad magic`, holds no digest computation and no kernel
write, and kernel memory is untouched. With a valid magic and a big-endian
entitlements length below 8 the same holds with the diagnostic `bad length`.
Both variants; in the `__arm64e__` variant the statement is for a run on which
`calloc` succeeds and the 44-byte code-directory header (for the length, also
the 8-byte header of the blob) lies inside the local copy of the backing
region. -/
theorem C6_structural_failure (env : Env) (m : KMem) (proc : Nat) (ent : List Nat)
    (verbose : Bool) (hx : env.exact) :
    (SWAP32 (field (kbytes m (NonArm64e.cdir_off m (csblob m proc)) sizeof_CS_CodeDirectory)
        offsetof_magic 4) ≠ CSMAGIC_CODEDIRECTORY →
      NonArm64e.entitle env m proc ent verbose =
        ⟨-1, m, NonArm64e.traceHeader m proc ++ [Event.printf "bad magic\n"]⟩ ∧
      digests (NonArm64e.entitle env m proc ent verbose).trace = [] ∧
      writes (NonArm64e.entitle env m proc ent verbose).trace = []) ∧
    (SWAP32 (field (kbytes m (NonArm64e.cdir_off m (csblob m proc)) sizeof_CS_CodeDirectory)
        offsetof_magic 4) = CSMAGIC_CODEDIRECTORY →
      NonArm64e.length m (csblob m proc) < 8 →
      NonArm64e.entitle env m proc ent verbose =
        ⟨-1, m, NonArm64e.traceLength m proc ++ [Event.printf "bad length\n"]⟩ ∧
      digests (NonArm64e.entitle env m proc ent verbose).trace = [] ∧
      writes (NonArm64e.entitle env m proc ent verbose).trace = []) ∧
    (env.mallocOk = true →
      Arm64e.cdOff env m (csblob m proc) + sizeof_CS_CodeDirectory
        ≤ Arm64e.csb_mem_size env m (csblob m proc) →
      SWAP32 (field (kbytes m (Arm64e.csb_mem_kaddr env m (csblob m proc))
          (Arm64e.csb_mem_size env m (csblob m proc)))
          (Arm64e.cdOff env m (csblob m proc) + offsetof_magic) 4) ≠ CSMAGIC_CODEDIRECTORY →
      Arm64e.entitle env m proc ent verbose =
        some ⟨-1, m, Arm64e.traceCopy env m proc ++ [Event.printf "bad magic\n"]⟩ ∧
      digests (Arm64e.traceCopy env m proc ++ [Event.printf "bad magic\n"]) = [] ∧
      writes (Arm64e.traceCopy env m proc ++ [Event.printf "bad magic\n"]) = []) ∧
    (env.mallocOk = true →
      Arm64e.cdOff env m (csblob m proc) + sizeof_CS_CodeDirectory
        ≤ Arm64e.csb_mem_size env m (csblob m proc) →
      SWAP32 (field (kbytes m (Arm64e.csb_mem_kaddr env m (csblob m proc))
          (Arm64e.csb_mem_size env m (csblob m proc)))
          (Arm64e.cdOff env m (csblob m proc) + offsetof_magic) 4) = CSMAGIC_CODEDIRECTORY →
      Arm64e.entOff env m (csblob m proc) + sizeof_CS_GenericBlob
        ≤ Arm64e.csb_mem_size env m (csblob m proc) →
      Arm64e.length env m (csblob m proc) < 8 →
      Arm64e.entitle env m proc ent verbose =
        some ⟨-1, m, Arm64e.traceCopy env m proc ++ [Event.printf "bad length\n"]⟩ ∧
      digests (Arm64e.traceCopy env m proc ++ [Event.printf "bad length\n"]) = [] ∧
      writes (Arm64e.traceCopy env m proc ++ [Event.printf "bad length\n"]) = []) := by
  refine ⟨fun h => ?_, fun h1 h2 => ?_, fun h0 hb h => ?_, fun h0 hb h1 he h2 => ?_⟩
  · rw [← NonArm64e.cdir_exact _ _ _ hx] at h
    rw [NonArm64e.entitle_badMagic env m proc ent verbose h]
    exact ⟨rfl, rfl, rfl⟩
  · rw [← NonArm64e.cdir_exact _ _ _ hx] at h1
    rw [NonArm64e.entitle_badLength env m proc ent verbose h1 h2]
    exact ⟨rfl, rfl, rfl⟩
  · rw [← Arm64e.csb_mem_uaddr_exact _ _ _ hx] at h
    exact ⟨Arm64e.entitle_badMagic_arm env m proc ent verbose h0 hb h, rfl, rfl⟩
  · rw [← Arm64e.csb_mem_uaddr_exact _ _ _ hx] at h1
    exact ⟨Arm64e.entitle_badLength_arm env m proc ent verbose h0 hb h1 he h2, rfl, rfl⟩

/-- C6, as stated, fails: on the sample target with a wrong magic, in the
`!__arm64e__` variant, the `kread` of the code-directory header (the first
`kread` of the run) transfers no byte and the local object `cdir` holds a valid
header. The magic in kernel memory is wrong, yet `entitle` computes two
digests, issues two kernel writes and returns 0. -/
theorem C6_counterexample :
    SWAP32 (field (kbytes Sample.badMagic
      (NonArm64e.cdir_off Sample.badMagic (csblob Sample.badMagic Sample.proc))
      sizeof_CS_CodeDirectory) offsetof_magic 4) ≠ CSMAGIC_CODEDIRECTORY ∧
    ¬ (Sample.envStale 0 44 (Sample.cdhdr [0, 0, 0, 0xe0])).short 0 = 0 ∧
    (NonArm64e.entitle (Sample.envStale 0 44 (Sample.cdhdr [0, 0, 0, 0xe0])) Sample.badMagic
      Sample.proc Sample.frag false).rv = 0 ∧
    (digests (NonArm64e.entitle (Sample.envStale 0 44 (Sample.cdhdr [0, 0, 0, 0xe0]))
      Sample.badMagic Sample.proc Sample.frag false).trace).length = 2 ∧
    (writes (NonArm64e.entitle (Sample.envStale 0 44 (Sample.cdhdr [0, 0, 0, 0xe0]))
      Sample.badMagic Sample.proc Sample.frag false).trace).length = 2 := by
  obtain ⟨f1, f2, hp⟩ := Sample.hdrStale_facts
  obtain ⟨e1, e2, e3⟩ := NonArm64e.events_pass (Sample.envStale 0 44 (Sample.cdhdr [0, 0, 0, 0xe0]))
    Sample.badMagic Sample.proc Sample.frag false hp
  refine ⟨f1, f2, e1.trans rfl, ?_, ?_⟩
  · rw [e3]
    rfl
  · rw [e2]
    rfl

/-- C6, as amended, on the sample targets with a wrong magic and with an
announced length of 4. -/
theorem C6_structural_failure_witness :
    (NonArm64e.entitle Sample.env Sample.badMagic Sample.proc Sample.frag false).rv = -1 ∧
    diag (NonArm64e.entitle Sample.env Sample.badMagic Sample.proc Sample.frag false)
      = some "bad magic\n" ∧
    digests (NonArm64e.entitle Sample.env Sample.badMagic Sample.proc Sample.frag false).trace
      = [] ∧
    (NonArm64e.entitle Sample.env Sample.badLength Sample.proc Sample.frag false).rv = -1 ∧
    diag (NonArm64e.entitle Sample.env Sample.badLength Sample.proc Sample.frag false)
      = some "bad length\n" ∧
    (∃ o, Arm64e.entitle Sample.env Sample.badMagic Sample.proc Sample.frag false = some o ∧
      o.rv = -1 ∧ diag o = some "bad magic\n") ∧
    (∃ o, Arm64e.entitle Sample.env Sample.badLength Sample.proc Sample.frag false = some o ∧
      o.rv = -1 ∧ diag o = some "bad length\n") := by
  have a := C6_structural_failure Sample.env Sample.badMagic Sample.proc Sample.frag false
    Sample.env_exact
  have b := C6_structural_failure Sample.env Sample.badLength Sample.proc Sample.frag false
    Sample.env_exact
  have a1 := a.1 Sample.badMagic_facts.1
  have a3 := a.2.2.1 rfl Sample.badMagic_facts.2.1 Sample.badMagic_facts.2.2
  have b2 := b.2.1 Sample.badLength_facts.1 Sample.badLength_facts.2.1
  have b4 := b.2.2.2 rfl Sample.badLength_facts.2.2.1 Sample.badLength_facts.2.2.2.1
    Sample.badLength_facts.2.2.2.2.1 Sample.badLength_facts.2.2.2.2.2
  refine ⟨?_, ?_, a1.2.1, ?_, ?_, ⟨_, a3.1, rfl, ?_⟩, ⟨_, b4.1, rfl, ?_⟩⟩
  · rw [a1.1]
  · rw [a1.1]; simp [diag, prints_append, prints]
  · rw [b2.1]
  · rw [b2.1]; simp [diag, prints_append, prints]
  · simp [diag, prints_append, prints]
  · simp [diag, prints_append, prints]

/-- C7, as amended: `entitle` returns -1 whenever a local validation fails (bad
magic, length below 8, allocation failure in the `!__arm64e__` variant, digest
mismatch, rendered text too long); otherwise it returns the status of the
`csops` query, whatever its sign. Hence it returns 0 exactly when every local
validation passes and the query returns 0. -/
theorem C7_status (env : Env) (m : KMem) (proc : Nat) (ent : List Nat) (verbose : Bool) :
    ((¬ NonArm64e.Passes env m (csblob m proc) ent →
        (NonArm64e.entitle env m proc ent verbose).rv = -1) ∧
      (NonArm64e.Passes env m (csblob m proc) ent →
        (NonArm64e.entitle env m proc ent verbose).rv = env.csopsRv) ∧
      ((NonArm64e.entitle env m proc ent verbose).rv = 0 ↔
        NonArm64e.Passes env m (csblob m proc) ent ∧ env.csopsRv = 0)) ∧
    (Arm64e.InRegion env m (csblob m proc) →
      ∃ o, Arm64e.entitle env m proc ent verbose = some o ∧
        (¬ Arm64e.Passes env m (csblob m proc) ent → o.rv = -1) ∧
        (Arm64e.Passes env m (csblob m proc) ent → o.rv = env.csopsRv) ∧
        (o.rv = 0 ↔ Arm64e.Passes env m (csblob m proc) ent ∧ env.csopsRv = 0)) := by
  constructor
  · have hf : ¬ NonArm64e.Passes env m (csblob m proc) ent →
        (NonArm64e.entitle env m proc ent verbose).rv = -1 :=
      fun h => (NonArm64e.entitle_fail env m proc ent verbose h).1
    have hp : NonArm64e.Passes env m (csblob m proc) ent →
        (NonArm64e.entitle env m proc ent verbose).rv = env.csopsRv := by
      intro h
      rw [NonArm64e.entitle_pass env m proc ent verbose h.1 h.2]
    refine ⟨hf, hp, ?_⟩
    by_cases h : NonArm64e.Passes env m (csblob m proc) ent
    · rw [hp h]; simp [h]
    · rw [hf h]; simp [h]
  · intro hr
    by_cases h : Arm64e.Passes env m (csblob m proc) ent
    · refine ⟨_, Arm64e.entitle_pass_arm env m proc ent verbose hr h.1 h.2, ?_, ?_, ?_⟩
      · intro hn; exact absurd h hn
      · intro _; rfl
      · simp [h]
    · obtain ⟨o, e, r, _⟩ := Arm64e.entitle_fail_arm env m proc ent verbose hr h
      refine ⟨o, e, fun _ => r, fun hp => absurd hp h, ?_⟩
      rw [r]; simp [h]

/-- C7, as stated, fails: on the sample target every local validation passes,
the `csops` query returns -1, and `entitle` returns the negative value -1. -/
theorem C7_counterexample :
    NonArm64e.Passes (Sample.envWith (fun _ => 0) (-1)) Sample.world
      (csblob Sample.world Sample.proc) Sample.frag ∧
    (NonArm64e.entitle (Sample.envWith (fun _ => 0) (-1)) Sample.world Sample.proc
      Sample.frag false).rv = -1 := by
  have h := Sample.passes_world (fun _ => 0) (-1) (fun _ => rfl)
  refine ⟨h, ?_⟩
  rw [NonArm64e.entitle_pass _ _ _ _ _ h.1 h.2]
  rfl

/-- C7, as amended, on the sample target. -/
theorem C7_status_witness :
    (NonArm64e.entitle Sample.env Sample.world Sample.proc Sample.frag false).rv = 0 ∧
    (NonArm64e.entitle Sample.env Sample.world Sample.proc Sample.frag250 false).rv = -1 ∧
    ∃ o, Arm64e.entitle Sample.env Sample.world Sample.proc Sample.frag false = some o ∧
      o.rv = 0 := by
  have a := C7_status Sample.env Sample.world Sample.proc Sample.frag false
  have b := C7_status Sample.env Sample.world Sample.proc Sample.frag250 false
  obtain ⟨o, e, _, _, h⟩ := a.2 Sample.inRegion_world
  refine ⟨a.1.2.2.2 ⟨Sample.passes_world _ _ (fun _ => rfl), rfl⟩, b.1.1 ?_,
    o, e, h.2 ⟨Sample.passes_arm_world, rfl⟩⟩
  intro hp
  have h2 := hp.2
  rw [Sample.length_world] at h2
  have := newlen_ge Sample.frag250 248 (by decide)
    (by rw [Sample.rendered_frag250]; decide)
  omega

/-- C8, as amended: `entitle` never looks at the number of bytes a `kread`
transferred. Whatever the reads transfer, it validates the bytes left in its
local buffers: when they fail a validation it returns -1 without any kernel
write, when they pass it writes the digest and the blob and returns the status
of the query. In every run all kernel reads are issued before the first kernel
write. -/
theorem C8_reads_unchecked (env : Env) (m : KMem) (proc : Nat) (ent : List Nat)
    (verbose : Bool) :
    (∃ pre post, (NonArm64e.entitle env m proc ent verbose).trace = pre ++ post ∧
      writes pre = [] ∧ reads post = []) ∧
    (¬ NonArm64e.Passes env m (csblob m proc) ent →
      (NonArm64e.entitle env m proc ent verbose).rv = -1 ∧
      (NonArm64e.entitle env m proc ent verbose).mem = m ∧
      writes (NonArm64e.entitle env m proc ent verbose).trace = []) ∧
    (NonArm64e.Passes env m (csblob m proc) ent →
      (NonArm64e.entitle env m proc ent verbose).rv = env.csopsRv ∧
      writes (NonArm64e.entitle env m proc ent verbose).trace =
        [(NonArm64e.hashSlot env m (csblob m proc),
            (env.sha (NonArm64e.blob1 env m (csblob m proc) ent)).take 32),
         (NonArm64e.blob_off m (csblob m proc),
            (NonArm64e.blob1 env m (csblob m proc) ent).take
              (NonArm64e.length m (csblob m proc)))]) := by
  have hf := NonArm64e.entitle_fail env m proc ent verbose
  refine ⟨?_, fun h => ⟨(hf h).1, (hf h).2.1, (hf h).2.2.1⟩, fun h => ?_⟩
  · by_cases h : NonArm64e.Passes env m (csblob m proc) ent
    · rw [NonArm64e.entitle_pass env m proc ent verbose h.1 h.2]
      refine ⟨NonArm64e.traceDigest env m proc verbose, _, List.append_assoc _ _ _,
        NonArm64e.writes_traceDigest env m proc verbose, ?_⟩
      rw [reads_append]
      by_cases hq : env.csopsRv = 0 <;> cases verbose <;> simp [reads, hq]
    · exact ⟨_, [], (List.append_nil _).symm, (hf h).2.2.1, rfl⟩
  · rw [NonArm64e.entitle_pass env m proc ent verbose h.1 h.2]
    refine ⟨rfl, ?_⟩
    show writes (NonArm64e.traceDigest env m proc verbose ++ _ ++ _) = _
    rw [writes_append, writes_append, NonArm64e.writes_traceDigest]
    by_cases hq : env.csopsRv = 0 <;> cases verbose <;> simp [writes, hq]

/-- C8, as stated, fails: on the sample target the `kread` of the code-directory
header transfers 43 of the 44 bytes requested, and `entitle` still issues its
kernel writes and returns 0. -/
theorem C8_counterexample :
    (kread Sample.world (NonArm64e.cdir_off Sample.world (csblob Sample.world Sample.proc))
      (uninitObj (Sample.envWith (fun k => if k = 0 then 1 else 0) 0) 0 sizeof_CS_CodeDirectory)
      sizeof_CS_CodeDirectory
      ((Sample.envWith (fun k => if k = 0 then 1 else 0) 0).short 0)).2 = 43 ∧
    43 < sizeof_CS_CodeDirectory ∧
    (writes (NonArm64e.entitle (Sample.envWith (fun k => if k = 0 then 1 else 0) 0)
      Sample.world Sample.proc Sample.frag false).trace).length = 2 ∧
    (NonArm64e.entitle (Sample.envWith (fun k => if k = 0 then 1 else 0) 0)
      Sample.world Sample.proc Sample.frag false).rv = 0 := by
  refine ⟨Sample.short_count, by decide, ?_, ?_⟩
  · rw [NonArm64e.entitle_pass _ _ _ _ _ Sample.passes_short.1 Sample.passes_short.2]
    show (writes (NonArm64e.traceDigest _ _ _ _ ++ _ ++ _)).length = 2
    rw [writes_append, writes_append, NonArm64e.writes_traceDigest]
    rfl
  · rw [NonArm64e.entitle_pass _ _ _ _ _ Sample.passes_short.1 Sample.passes_short.2]
    rfl

/-- C8, as amended, on the sample target with the short read of the header. -/
theorem C8_reads_unchecked_witness :
    (NonArm64e.entitle (Sample.envWith (fun k => if k = 0 then 1 else 0) 0)
      Sample.world Sample.proc Sample.frag false).rv = 0 ∧
    (NonArm64e.entitle Sample.env Sample.stale Sample.proc Sample.frag false).rv = -1 ∧
    writes (NonArm64e.entitle Sample.env Sample.stale Sample.proc Sample.frag false).trace
      = [] := by
  have a := C8_reads_unchecked (Sample.envWith (fun k => if k = 0 then 1 else 0) 0)
    Sample.world Sample.proc Sample.frag false
  have b := C8_reads_unchecked Sample.env Sample.stale Sample.proc Sample.frag false
  have hn : ¬ NonArm64e.Passes Sample.env Sample.stale (csblob Sample.stale Sample.proc)
      Sample.frag := by
    intro hp
    have h4 := hp.1.2.2.2
    rw [memcmp_false_iff _ _ (NonArm64e.buf_length _ _ _) (Sample.env.sha_length _),
      NonArm64e.buf_exact _ _ _ Sample.env_exact, NonArm64e.blob_exact _ _ _ Sample.env_exact]
      at h4
    exact Sample.stale_mismatch h4
  exact ⟨(a.2.2 Sample.passes_short).1, (b.2.1 hn).1, (b.2.1 hn).2.2⟩

/-- C9, as amended: in the `!__arm64e__` variant with exact reads (every `kread`
transfers its full length), every byte of kernel memory outside the
entitlements payload `[blob_off + 8, blob_off + length)` and outside the 32-byte
hash slot holds the same value after the call as before, for every run,
successful or not, and whatever the kernel writes transfer. The 8-byte header of
the blob (magic and length field) is left unchanged when the hash slot does not
overlap it, and also, even where the slot overlaps it, when every `kwrite`
transfers its full length. -/
theorem C9_frame (env : Env) (m : KMem) (proc : Nat) (ent : List Nat) (verbose : Bool)
    (hx : env.exact) :
    (∀ a,
      ¬ (NonArm64e.blob_off m (csblob m proc) + 8 ≤ a ∧
        a < NonArm64e.blob_off m (csblob m proc) + NonArm64e.length m (csblob m proc)) →
      ¬ (NonArm64e.hashSlot env m (csblob m proc) ≤ a ∧
        a < NonArm64e.hashSlot env m (csblob m proc) + 32) →
      (NonArm64e.entitle env m proc ent verbose).mem a = m a) ∧
    (env.complete ∨
        Separate (NonArm64e.hashSlot env m (csblob m proc)) 32
          (NonArm64e.blob_off m (csblob m proc)) 8 →
      kbytes (NonArm64e.entitle env m proc ent verbose).mem
          (NonArm64e.blob_off m (csblob m proc)) 8
        = kbytes m (NonArm64e.blob_off m (csblob m proc)) 8) := by
  refine ⟨fun a h1 h2 => NonArm64e.mem_frame env m proc ent verbose hx a h1 h2, fun h => ?_⟩
  rcases h with hw | hs
  · by_cases h : NonArm64e.Passes env m (csblob m proc) ent
    swap
    · rw [(NonArm64e.entitle_fail env m proc ent verbose h).2.1]
    have hk := NonArm64e.header_kept env m proc ent verbose hx h hw 0 8 (le_refl _)
    rw [Nat.add_zero] at hk
    exact hk
  · apply kbytes_congr
    intro j hj
    unfold Separate at hs
    exact NonArm64e.mem_frame env m proc ent verbose hx _ (by omega) (by omega)

/-- C9, as stated, fails: on the sample target whose blob header is
`fa de 71 71 00 00 01 00`, the `kread` of the 256-byte blob (the second `kread`
of the run) transfers no byte and the buffer from `malloc` holds a blob whose
header is `fa de 71 72 00 00 01 00`, with the digest of that blob in the hash
slot at `0x5040`. The call passes every validation and returns 0, and the byte
at `0x5063`, in the 8-byte header of the blob at `0x5060` and outside the hash
slot, is `0x71` before the call and `0x72` after it. -/
theorem C9_counterexample :
    ¬ (Sample.envStale 1 256 Sample.blobX).short 1 = 0 ∧
    NonArm64e.blob_off Sample.worldX (csblob Sample.worldX Sample.proc) = 0x5060 ∧
    NonArm64e.length Sample.worldX (csblob Sample.worldX Sample.proc) = 256 ∧
    NonArm64e.hashSlot (Sample.envStale 1 256 Sample.blobX) Sample.worldX
      (csblob Sample.worldX Sample.proc) = 0x5040 ∧
    (NonArm64e.entitle (Sample.envStale 1 256 Sample.blobX) Sample.worldX Sample.proc
      Sample.frag false).rv = 0 ∧
    Sample.worldX (0x5060 + 3) = 0x71 ∧
    (NonArm64e.entitle (Sample.envStale 1 256 Sample.blobX) Sample.worldX Sample.proc
      Sample.frag false).mem (0x5060 + 3) = 0x72 := by
  obtain ⟨hp, f2, f3, f4, f5, f6, _, f8, _⟩ := Sample.blobStale_facts
  obtain ⟨e1, _, _⟩ := NonArm64e.events_pass (Sample.envStale 1 256 Sample.blobX)
    Sample.worldX Sample.proc Sample.frag false hp
  refine ⟨f2, f3, f4, f5, e1.trans rfl, f6, ?_⟩
  rw [NonArm64e.mem_pass _ _ _ _ _ hp (Sample.envStale_complete 1 256 Sample.blobX),
    if_pos (by rw [f3, f4]; decide), f3]
  exact f8

/-- C9, as amended, on the sample target. -/
theorem C9_frame_witness :
    Sample.env.exact ∧
    kbytes (NonArm64e.entitle Sample.env Sample.world Sample.proc Sample.frag false).mem
        (NonArm64e.blob_off Sample.world (csblob Sample.world Sample.proc)) 8
      = kbytes Sample.world (NonArm64e.blob_off Sample.world (csblob Sample.world Sample.proc)) 8 :=
  ⟨Sample.env_exact,
    (C9_frame Sample.env Sample.world Sample.proc Sample.frag false Sample.env_exact).2
      (Or.inl Sample.env_complete)⟩

/-- C10, as amended: with exact reads (every `kread` transfers its full length)
and complete writes (every `kwrite` transfers its full length), after a call of
`entitle` that returns 0, the payload byte at the offset equal to the rendered
text's length is the NUL that `snprintf` stores after the text, and every
payload byte at an offset strictly beyond the rendered text's length and below
`length - 8` holds the content it had before the call; it is not zeroed. In the
`__arm64e__` variant the bytes after the call are those of the new region, where
the republished record points, compared with the region copied from, and the
statement needs, besides, a run with defined behaviour (`calloc` succeeds, and
the code-directory header, the blob and the hash slot lie inside the local copy
of the backing region), a fresh region from `kalloc` (inside the 64-bit address
space, no byte in common with the record) and a hash slot that does not overlap
the entitlements blob. -/
theorem C10_tail_retained (env : Env) (m : KMem) (proc : Nat) (ent : List Nat)
    (verbose : Bool) (hx : env.exact) (hw : env.complete) :
    ((NonArm64e.entitle env m proc ent verbose).rv = 0 →
      (NonArm64e.entitle env m proc ent verbose).mem
        (NonArm64e.blob_off m (csblob m proc) + 8 + (rendered ent).length) = 0 ∧
      ∀ j, (rendered ent).length < j → j < NonArm64e.length m (csblob m proc) - 8 →
        (NonArm64e.entitle env m proc ent verbose).mem
            (NonArm64e.blob_off m (csblob m proc) + 8 + j)
          = m (NonArm64e.blob_off m (csblob m proc) + 8 + j)) ∧
    (Arm64e.InRegion env m (csblob m proc) → Arm64e.Fresh env m (csblob m proc) →
      Separate (Arm64e.bufOff env m (csblob m proc)) 32 (Arm64e.entOff env m (csblob m proc))
        (Arm64e.length env m (csblob m proc)) →
      ∃ r, Arm64e.entitle env m proc ent verbose = some r ∧
        (r.rv = 0 →
          kread_uint64 r.mem (u64 (csblob m proc + offsetof_csb_entitlements_blob))
            = Arm64e.newBase env m (csblob m proc) + Arm64e.entOff env m (csblob m proc) ∧
          r.mem (Arm64e.newBase env m (csblob m proc) + Arm64e.entOff env m (csblob m proc)
            + 8 + (rendered ent).length) = 0 ∧
          ∀ j, (rendered ent).length < j → j < Arm64e.length env m (csblob m proc) - 8 →
            r.mem (Arm64e.newBase env m (csblob m proc) + Arm64e.entOff env m (csblob m proc)
                + 8 + j)
              = m (Arm64e.csb_mem_kaddr env m (csblob m proc)
                + Arm64e.entOff env m (csblob m proc) + 8 + j))) := by
  constructor
  · intro h0
    have hp := NonArm64e.passes_of_success env m proc ent verbose h0
    have h8 := hp.1.2.1
    have hbl := NonArm64e.blob_length env m (csblob m proc)
    have hn := (newlen_lt ent _ (by have := NonArm64e.length_lt m (csblob m proc); omega)
      hp.2).1
    have hlt : (rendered ent).length < NonArm64e.length m (csblob m proc) - 8 := by
      rw [← hn]; exact hp.2
    constructor
    · exact NonArm64e.post_nul env m proc ent verbose hp hw
    · intro j h1 h2
      rw [NonArm64e.post_payload env m proc ent verbose hp hw _ h2]
      have := getD_rewrite_tail (NonArm64e.blob env m (csblob m proc)) ent j (by omega)
        (by omega) h1
      rw [hbl] at this
      unfold NonArm64e.blob1
      rw [this, NonArm64e.blob_exact _ _ _ hx, getD_kbytes _ _ _ _ (by omega), Nat.add_assoc]
  · intro hr hf hs
    by_cases hp : Arm64e.Passes env m (csblob m proc) ent
    swap
    · obtain ⟨o, e, r, _⟩ := Arm64e.entitle_fail_arm env m proc ent verbose hr hp
      refine ⟨o, e, fun h0 => ?_⟩
      rw [r] at h0
      exact absurd h0 (by decide)
    have e := Arm64e.entitle_pass_arm env m proc ent verbose hr hp.1 hp.2
    refine ⟨_, e, fun _ => ⟨Arm64e.post_ent env m proc ent verbose hr hp hw hf _ e, ?_, ?_⟩⟩
    all_goals
      have h8 := hp.1.2.1
      have hbl := Arm64e.blob_length_arm env m (csblob m proc) hr
      have hn := (newlen_lt ent _ (by have := Arm64e.length_lt_arm env m (csblob m proc); omega)
        hp.2).1
      have hlt : (rendered ent).length < Arm64e.length env m (csblob m proc) - 8 := by
        rw [← hn]; exact hp.2
    · rw [Arm64e.post_payload_arm env m proc ent verbose hr hp hw hf hs _ e _ hlt]
      have := getD_rewrite_nul (Arm64e.blob env m (csblob m proc)) ent (by omega) (by omega)
      rw [hbl] at this
      exact this
    · intro j h1 h2
      rw [Arm64e.post_payload_arm env m proc ent verbose hr hp hw hf hs _ e _ h2]
      have := getD_rewrite_tail (Arm64e.blob env m (csblob m proc)) ent j (by omega)
        (by omega) h1
      rw [hbl] at this
      rw [this, Arm64e.blob_byte env m _ hx hr _ (by omega)]
      congr 1
      omega

/-- C10, as stated, fails three times. On the well-formed sample target the
rendered text has 221 bytes, and the payload byte at offset 221 holds 65 before
the call and 0 after it, in the `!__arm64e__` variant. On the sample target
whose hash slot starts on the last two bytes of the blob, in the `__arm64e__`
variant, the payload byte at offset 246 of the region copied from holds 151, and
the byte at the same offset of the new region holds 170, the first byte of the
new digest. On the sample target whose blob is at `0x5060`, in the
`!__arm64e__` variant, when the `kread` of the blob (the second `kread` of the
run) transfers no byte and the buffer from `malloc` holds a blob that
validates, `entitle` returns 0 and the payload byte at offset 222, beyond the
221 bytes of the text and its NUL, holds 65 before the call and 66 after it. -/
theorem C10_counterexample :
    ((NonArm64e.entitle Sample.env Sample.world Sample.proc Sample.frag false).rv = 0 ∧
      (rendered Sample.frag).length = 221 ∧
      221 < NonArm64e.length Sample.world (csblob Sample.world Sample.proc) - 8 ∧
      Sample.world (NonArm64e.blob_off Sample.world (csblob Sample.world Sample.proc) + 8 + 221)
        = 65 ∧
      (NonArm64e.entitle Sample.env Sample.world Sample.proc Sample.frag false).mem
        (NonArm64e.blob_off Sample.world (csblob Sample.world Sample.proc) + 8 + 221) = 0) ∧
    (246 < Arm64e.length Sample.env Sample.overlap (csblob Sample.overlap Sample.proc) - 8 ∧
      Sample.overlap (Arm64e.csb_mem_kaddr Sample.env Sample.overlap
        (csblob Sample.overlap Sample.proc)
        + Arm64e.entOff Sample.env Sample.overlap (csblob Sample.overlap Sample.proc) + 8 + 246)
        = 151 ∧
      ∃ r, Arm64e.entitle Sample.env Sample.overlap Sample.proc Sample.frag false = some r ∧
        r.rv = 0 ∧
        r.mem (kread_uint64 r.mem (u64 (csblob Sample.overlap Sample.proc
          + offsetof_csb_entitlements_blob)) + 8 + 246) = 170) ∧
    (¬ (Sample.envStale 1 256 Sample.blobX).short 1 = 0 ∧
      (NonArm64e.entitle (Sample.envStale 1 256 Sample.blobX) Sample.worldX Sample.proc
        Sample.frag false).rv = 0 ∧
      NonArm64e.blob_off Sample.worldX (csblob Sample.worldX Sample.proc) = 0x5060 ∧
      NonArm64e.length Sample.worldX (csblob Sample.worldX Sample.proc) = 256 ∧
      Sample.worldX (0x5060 + 8 + 222) = 65 ∧
      (NonArm64e.entitle (Sample.envStale 1 256 Sample.blobX) Sample.worldX Sample.proc
        Sample.frag false).mem (0x5060 + 8 + 222) = 66) := by
  refine ⟨?_, ?_, ?_⟩
  rotate_left 2
  · obtain ⟨hp, f2, f3, f4, _, _, f7, _, f9⟩ := Sample.blobStale_facts
    obtain ⟨e1, _, _⟩ := NonArm64e.events_pass (Sample.envStale 1 256 Sample.blobX)
      Sample.worldX Sample.proc Sample.frag false hp
    refine ⟨f2, e1.trans rfl, f3, f4, f7, ?_⟩
    rw [NonArm64e.mem_pass _ _ _ _ _ hp (Sample.envStale_complete 1 256 Sample.blobX),
      if_pos (by rw [f3, f4]; decide), f3]
    exact f9
  · have hp : NonArm64e.Passes Sample.env Sample.world (csblob Sample.world Sample.proc)
        Sample.frag := Sample.passes_world (fun _ => 0) 0 (fun _ => rfl)
    have h0 : (NonArm64e.entitle Sample.env Sample.world Sample.proc Sample.frag false).rv
        = 0 := by
      rw [NonArm64e.entitle_pass _ _ _ _ _ hp.1 hp.2]
      rfl
    refine ⟨h0, Sample.rendered_frag, by rw [Sample.length_world]; decide, ?_, ?_⟩
    · rw [Sample.nul_world.1]; exact Sample.nul_world.2
    · have := NonArm64e.post_nul Sample.env Sample.world Sample.proc Sample.frag false hp Sample.env_complete
      rw [Sample.rendered_frag] at this
      exact this
  · have hr := Sample.inRegion_overlap
    have hf := Sample.fresh_overlap
    have hp := Sample.passes_arm_overlap
    obtain ⟨l1, l2, l3, l4, l5, l6⟩ := Sample.layout_arm_overlap
    have e := Arm64e.entitle_pass_arm Sample.env Sample.overlap Sample.proc Sample.frag false
      hr hp.1 hp.2
    refine ⟨by rw [l1]; decide, by rw [l6, l2]; exact Sample.tail_byte_overlap, _, e, rfl, ?_⟩
    rw [Arm64e.post_ent _ _ _ _ _ hr hp Sample.env_complete hf _ e]
    have k := Arm64e.post_region _ _ _ _ _ hr hp Sample.env_complete hf _ e
      (Arm64e.entOff Sample.env Sample.overlap (csblob Sample.overlap Sample.proc) + 8 + 246) 1
      (by rw [l2, l4]; decide)
    have h2 : Arm64e.entOff Sample.env Sample.overlap (csblob Sample.overlap Sample.proc)
        + 8 + 246 + 0
        - Arm64e.bufOff Sample.env Sample.overlap (csblob Sample.overlap Sample.proc) = 0 := by
      rw [l2, l3]
    have hu : (Arm64e.uaddr2 Sample.env Sample.overlap (csblob Sample.overlap Sample.proc)
        Sample.frag).getD
        (Arm64e.entOff Sample.env Sample.overlap (csblob Sample.overlap Sample.proc)
          + 8 + 246 + 0) 0 = 170 := by
      unfold Arm64e.uaddr2
      rw [getD_splice _ _ _ _ (by
          rw [Sample.env.sha_length, Arm64e.uaddr1_length _ _ _ _ hr hp.1.2.1, l3, l4]; decide),
        if_pos (by rw [Sample.env.sha_length, l2, l3]; decide), h2, Sample.digest_arm_overlap]
    have k2 := congrArg (fun l => l.getD 0 0) k
    simp only at k2
    rw [getD_kbytes _ _ _ _ (by decide), getD_slice _ _ _ _ (by decide), hu] at k2
    have ea : Arm64e.newBase Sample.env Sample.overlap (csblob Sample.overlap Sample.proc)
        + (Arm64e.entOff Sample.env Sample.overlap (csblob Sample.overlap Sample.proc) + 8 + 246)
        + 0
        = Arm64e.newBase Sample.env Sample.overlap (csblob Sample.overlap Sample.proc)
        + Arm64e.entOff Sample.env Sample.overlap (csblob Sample.overlap Sample.proc) + 8
        + 246 := by omega
    rw [ea] at k2
    simp only
    exact k2

/-- C10, as amended, on the sample target. -/
theorem C10_tail_retained_witness :
    Sample.env.exact ∧
    (NonArm64e.entitle Sample.env Sample.world Sample.proc Sample.frag false).rv = 0 ∧
    (NonArm64e.entitle Sample.env Sample.world Sample.proc Sample.frag false).mem
      (NonArm64e.blob_off Sample.world (csblob Sample.world Sample.proc) + 8 + 222)
      = Sample.world (NonArm64e.blob_off Sample.world (csblob Sample.world Sample.proc) + 8 + 222) ∧
    ∃ r, Arm64e.entitle Sample.env Sample.world Sample.proc Sample.frag false = some r ∧
      r.rv = 0 ∧
      r.mem (Arm64e.newBase Sample.env Sample.world (csblob Sample.world Sample.proc)
        + Arm64e.entOff Sample.env Sample.world (csblob Sample.world Sample.proc) + 8 + 222)
        = Sample.world (Arm64e.csb_mem_kaddr Sample.env Sample.world
          (csblob Sample.world Sample.proc)
          + Arm64e.entOff Sample.env Sample.world (csblob Sample.world Sample.proc) + 8 + 222) := by
  have c := C10_tail_retained Sample.env Sample.world Sample.proc Sample.frag false
    Sample.env_exact Sample.env_complete
  have hp : NonArm64e.Passes Sample.env Sample.world (csblob Sample.world Sample.proc)
      Sample.frag := Sample.passes_world (fun _ => 0) 0 (fun _ => rfl)
  have h0 : (NonArm64e.entitle Sample.env Sample.world Sample.proc Sample.frag false).rv = 0 := by
    rw [NonArm64e.entitle_pass _ _ _ _ _ hp.1 hp.2]
    rfl
  obtain ⟨r, e, h⟩ := c.2 Sample.inRegion_world Sample.fresh_world Sample.apart_world.1
  have hr0 : r.rv = 0 := by
    rw [Arm64e.entitle_pass_arm _ _ _ _ _ Sample.inRegion_world Sample.passes_arm_world.1
      Sample.passes_arm_world.2] at e
    cases e
    rfl
  refine ⟨Sample.env_exact, h0, (c.1 h0).2 222 (by rw [Sample.rendered_frag]; decide)
    (by rw [Sample.length_world]; decide), r, e, hr0, ?_⟩
  exact (h hr0).2.2 222 (by rw [Sample.rendered_frag]; decide)
    (by rw [Sample.length_arm_world]; decide)

/-- C11: once every local validation has passed, what `entitle` leaves in kernel
memory does not depend on the status of the `csops` query. For two runs from the
same state whose collaborators differ only in that status, the kernel memory
afterwards and the sequences of kernel writes are identical, the two kernel
writes precede the query and no write follows it, and the status of the query,
zero or not, is what `entitle` returns. Both variants; the `__arm64e__` half is
for runs with defined behaviour. -/
theorem C11_status_independent (env : Env) (m : KMem) (proc : Nat) (ent : List Nat)
    (verbose : Bool) (rv : Int) :
    (NonArm64e.Passes env m (csblob m proc) ent →
      (NonArm64e.entitle (env.withStatus rv) m proc ent verbose).mem
        = (NonArm64e.entitle env m proc ent verbose).mem ∧
      writes (NonArm64e.entitle (env.withStatus rv) m proc ent verbose).trace
        = writes (NonArm64e.entitle env m proc ent verbose).trace ∧
      (NonArm64e.entitle (env.withStatus rv) m proc ent verbose).rv = rv ∧
      ∃ pre post, (NonArm64e.entitle (env.withStatus rv) m proc ent verbose).trace
          = pre ++ Event.csops CS_OPS_ENTITLEMENTS_BLOB (NonArm64e.length m (csblob m proc))
              :: post ∧
        writes post = [] ∧
        writes pre = writes (NonArm64e.entitle (env.withStatus rv) m proc ent verbose).trace ∧
        (writes pre).length = 2) ∧
    (Arm64e.InRegion env m (csblob m proc) → Arm64e.Passes env m (csblob m proc) ent →
      ∃ r q, Arm64e.entitle env m proc ent verbose = some r ∧
        Arm64e.entitle (env.withStatus rv) m proc ent verbose = some q ∧
        q.mem = r.mem ∧ writes q.trace = writes r.trace ∧ q.rv = rv ∧
        ∃ pre post, q.trace
            = pre ++ Event.csops CS_OPS_ENTITLEMENTS_BLOB (Arm64e.length env m (csblob m proc))
                :: post ∧
          writes post = [] ∧ writes pre = writes q.trace ∧ (writes pre).length = 2) := by
  have ht : ∀ (c : Int) (l : List Event), writes (l ++ (if c ≠ 0 then [Event.printf "bad blob\n"]
      else if verbose then [Event.printf "blob: \x7b%.*s\x7d\n"] else [])) = writes l := by
    intro c l
    rw [writes_append]
    split_ifs <;> simp [writes]
  constructor
  · intro hp
    have hq : NonArm64e.Passes (env.withStatus rv) m (csblob m proc) ent := hp
    rw [NonArm64e.entitle_pass _ _ _ _ _ hq.1 hq.2, NonArm64e.entitle_pass _ _ _ _ _ hp.1 hp.2]
    refine ⟨rfl, ?_, rfl, _, _, trace_split _ _ _ _ _ _, ?_, ?_, ?_⟩
    · rw [ht, ht]
      rfl
    · split_ifs <;> rfl
    · rw [ht, writes_append, writes_append, NonArm64e.writes_traceDigest]
      rfl
    · rw [writes_append, NonArm64e.writes_traceDigest]
      rfl
  · intro hr hp
    have hr2 : Arm64e.InRegion (env.withStatus rv) m (csblob m proc) := hr
    have hq : Arm64e.Passes (env.withStatus rv) m (csblob m proc) ent := hp
    refine ⟨_, _, Arm64e.entitle_pass_arm _ _ _ _ _ hr hp.1 hp.2,
      Arm64e.entitle_pass_arm _ _ _ _ _ hr2 hq.1 hq.2, rfl, ?_, rfl, _, _,
      trace_split5 _ _ _ _ _ _ _, ?_, ?_, ?_⟩
    · rw [ht, ht]
      rfl
    · split_ifs <;> rfl
    · rw [ht, writes_append, writes_append, Arm64e.writes_traceDigest_arm]
      rfl
    · rw [writes_append, Arm64e.writes_traceDigest_arm]
      rfl

/-- C11, on the sample target: a query that returns -1 against one that returns 0. -/
theorem C11_status_independent_witness :
    (NonArm64e.entitle (Sample.env.withStatus (-1)) Sample.world Sample.proc Sample.frag false).rv
      = -1 ∧
    (NonArm64e.entitle Sample.env Sample.world Sample.proc Sample.frag false).rv = 0 ∧
    (NonArm64e.entitle (Sample.env.withStatus (-1)) Sample.world Sample.proc Sample.frag false).mem
      = (NonArm64e.entitle Sample.env Sample.world Sample.proc Sample.frag false).mem ∧
    writes (NonArm64e.entitle (Sample.env.withStatus (-1)) Sample.world Sample.proc Sample.frag
        false).trace
      = writes (NonArm64e.entitle Sample.env Sample.world Sample.proc Sample.frag false).trace ∧
    ∃ r q, Arm64e.entitle Sample.env Sample.world Sample.proc Sample.frag false = some r ∧
      Arm64e.entitle (Sample.env.withStatus (-1)) Sample.world Sample.proc Sample.frag false
        = some q ∧
      r.rv = 0 ∧ q.rv = -1 ∧ q.mem = r.mem ∧ writes q.trace = writes r.trace := by
  have c := C11_status_independent Sample.env Sample.world Sample.proc Sample.frag false (-1)
  have hp : NonArm64e.Passes Sample.env Sample.world (csblob Sample.world Sample.proc)
      Sample.frag := Sample.passes_world (fun _ => 0) 0 (fun _ => rfl)
  obtain ⟨a1, a2, a3, _⟩ := c.1 hp
  obtain ⟨r, q, e1, e2, b1, b2, b3, _⟩ := c.2 Sample.inRegion_world Sample.passes_arm_world
  have h0 : (NonArm64e.entitle Sample.env Sample.world Sample.proc Sample.frag false).rv
      = 0 := by
    rw [NonArm64e.entitle_pass _ _ _ _ _ hp.1 hp.2]
    rfl
  have e0 := Arm64e.entitle_pass_arm Sample.env Sample.world Sample.proc Sample.frag false
    Sample.inRegion_world Sample.passes_arm_world.1 Sample.passes_arm_world.2
  refine ⟨a3, h0, a1, a2, r, q, e1, e2, ?_, b3, b1, b2⟩
  rw [e0] at e1
  cases e1
  rfl

/-- C12: in the `__arm64e__` variant, on a run that passes every validation, the
record written back to its original slot (the last kernel write, and, when that
write transfers in full, the 160 bytes of kernel memory at that slot
afterwards) has `csb_cd`,
`csb_entitlements_blob` and `csb_teamid` equal to `newBase + (oldPtr - oldBase)`
modulo `2 ^ 64`, `csb_mem_kaddr` equal to `newBase`, the address `kalloc`
returned, `csb_mem_size` unchanged, and every byte outside these four pointer
fields equal to the byte read at the start of the call (with exact reads, the
byte of kernel memory at that time). -/
theorem C12_record_rebased (env : Env) (m : KMem) (proc : Nat) (ent : List Nat)
    (verbose : Bool) (hr : Arm64e.InRegion env m (csblob m proc))
    (hp : Arm64e.Passes env m (csblob m proc) ent) :
    ∃ r rec, Arm64e.entitle env m proc ent verbose = some r ∧
      (writes r.trace).getLast? = some (csblob m proc, rec) ∧
      rec.length = sizeof_cs_blob ∧
      (env.wshort 1 = 0 → kbytes r.mem (csblob m proc) sizeof_cs_blob = rec) ∧
      allocs r.trace = [(Arm64e.csb_mem_size env m (csblob m proc),
        Arm64e.newBase env m (csblob m proc))] ∧
      (field rec offsetof_csb_cd 8 : Int)
        = ((Arm64e.newBase env m (csblob m proc) : Int)
            + ((field (Arm64e.csb env m (csblob m proc)) offsetof_csb_cd 8 : Int)
              - (Arm64e.csb_mem_kaddr env m (csblob m proc) : Int))) % 2 ^ 64 ∧
      (field rec offsetof_csb_entitlements_blob 8 : Int)
        = ((Arm64e.newBase env m (csblob m proc) : Int)
            + ((field (Arm64e.csb env m (csblob m proc)) offsetof_csb_entitlements_blob 8 : Int)
              - (Arm64e.csb_mem_kaddr env m (csblob m proc) : Int))) % 2 ^ 64 ∧
      (field rec offsetof_csb_teamid 8 : Int)
        = ((Arm64e.newBase env m (csblob m proc) : Int)
            + ((field (Arm64e.csb env m (csblob m proc)) offsetof_csb_teamid 8 : Int)
              - (Arm64e.csb_mem_kaddr env m (csblob m proc) : Int))) % 2 ^ 64 ∧
      field rec offsetof_csb_mem_kaddr 8 = Arm64e.newBase env m (csblob m proc) ∧
      Arm64e.newBase env m (csblob m proc)
        = u64 (env.kallocAddr (Arm64e.csb_mem_size env m (csblob m proc))) ∧
      field rec offsetof_csb_mem_size 8 = Arm64e.csb_mem_size env m (csblob m proc) ∧
      (∀ j, j < sizeof_cs_blob →
        ¬ (offsetof_csb_mem_kaddr ≤ j ∧ j < offsetof_csb_mem_kaddr + 8) →
        ¬ (offsetof_csb_cd ≤ j ∧ j < offsetof_csb_entitlements_blob + 8) →
        rec.getD j 0 = (Arm64e.csb env m (csblob m proc)).getD j 0) ∧
      (env.exact → Arm64e.csb env m (csblob m proc) = kbytes m (csblob m proc) sizeof_cs_blob) := by
  have e := Arm64e.entitle_pass_arm env m proc ent verbose hr hp.1 hp.2
  have hws := Arm64e.writes_pass env m proc ent verbose hr hp _ e
  refine ⟨_, Arm64e.csb1 env m (csblob m proc), e, ?_, Arm64e.csb1_length _ _ _,
    fun h1 => Arm64e.post_record_last env m proc ent verbose hr hp h1 _ e, hws.2,
    ?_, ?_, ?_, Arm64e.field_csb1_kaddr _ _ _, rfl, ?_, ?_, fun hx => Arm64e.csb_exact _ _ _ hx⟩
  · rw [hws.1]; rfl
  · rw [Arm64e.field_csb1_cd]
    exact rebase_int _ _ _
  · rw [Arm64e.field_csb1_ent]
    exact rebase_int _ _ _
  · rw [Arm64e.field_csb1_teamid]
    exact rebase_int _ _ _
  · exact Arm64e.field_csb1_other _ _ _ _ _ (by decide) (by decide) (by decide) (by decide)
      (by decide)
  · intro j hj h1 h2
    exact Arm64e.getD_csb1_other _ _ _ _ hj h1 h2

/-- C12, on the sample target. -/
theorem C12_record_rebased_witness :
    ∃ r rec, Arm64e.entitle Sample.env Sample.world Sample.proc Sample.frag false = some r ∧
      (writes r.trace).getLast? = some (csblob Sample.world Sample.proc, rec) ∧
      kbytes r.mem (csblob Sample.world Sample.proc) sizeof_cs_blob = rec ∧
      field rec offsetof_csb_mem_kaddr 8
        = Arm64e.newBase Sample.env Sample.world (csblob Sample.world Sample.proc) ∧
      field rec offsetof_csb_mem_size 8
        = Arm64e.csb_mem_size Sample.env Sample.world (csblob Sample.world Sample.proc) ∧
      (field rec offsetof_csb_cd 8 : Int)
        = ((Arm64e.newBase Sample.env Sample.world (csblob Sample.world Sample.proc) : Int)
            + ((field (Arm64e.csb Sample.env Sample.world (csblob Sample.world Sample.proc))
                offsetof_csb_cd 8 : Int)
              - (Arm64e.csb_mem_kaddr Sample.env Sample.world
                  (csblob Sample.world Sample.proc) : Int))) % 2 ^ 64 := by
  obtain ⟨r, rec, e, h1, _, h3, _, h5, _, _, h8, _, h10, _⟩ :=
    C12_record_rebased Sample.env Sample.world Sample.proc Sample.frag false
      Sample.inRegion_world Sample.passes_arm_world
  exact ⟨r, rec, e, h1, h3 rfl, h8, h10, h5⟩

/-- C13, as amended: in the `__arm64e__` variant, a run with defined behaviour
(`calloc` succeeds, and the code-directory header, the blob and the hash slot
lie inside the local copy of the backing region) that passes every validation
allocates once and issues exactly two kernel writes, in this order: the
`csb_mem_size` bytes of the local buffer to the region `kalloc` returned, then
the 160 bytes of the record to its original slot. No byte of the previous
backing region changes, provided that region holds neither the record slot nor
a byte of the region `kalloc` returned. With exact reads (every `kread`
transfers its full length) the buffer written differs from the previous region
only inside the entitlements payload and inside the 32-byte hash slot; so does
the new region afterwards when, besides, every `kwrite` transfers its full
length and the region from `kalloc` is fresh (inside the 64-bit address space,
no byte in common with the record). -/
theorem C13_relocation_writes (env : Env) (m : KMem) (proc : Nat) (ent : List Nat)
    (verbose : Bool) (hr : Arm64e.InRegion env m (csblob m proc))
    (hp : Arm64e.Passes env m (csblob m proc) ent) :
    ∃ r buffer rec, Arm64e.entitle env m proc ent verbose = some r ∧
      allocs r.trace = [(Arm64e.csb_mem_size env m (csblob m proc),
        Arm64e.newBase env m (csblob m proc))] ∧
      writes r.trace = [(Arm64e.newBase env m (csblob m proc), buffer), (csblob m proc, rec)] ∧
      buffer.length = Arm64e.csb_mem_size env m (csblob m proc) ∧
      rec.length = sizeof_cs_blob ∧
      (Arm64e.Detached env m (csblob m proc) →
        ∀ a, Arm64e.csb_mem_kaddr env m (csblob m proc) ≤ a →
          a < Arm64e.csb_mem_kaddr env m (csblob m proc)
            + Arm64e.csb_mem_size env m (csblob m proc) →
          r.mem a = m a) ∧
      (env.exact →
        ∀ j, j < Arm64e.csb_mem_size env m (csblob m proc) →
          ¬ (Arm64e.entOff env m (csblob m proc) + 8 ≤ j ∧
            j < Arm64e.entOff env m (csblob m proc) + Arm64e.length env m (csblob m proc)) →
          ¬ (Arm64e.bufOff env m (csblob m proc) ≤ j ∧
            j < Arm64e.bufOff env m (csblob m proc) + 32) →
          buffer.getD j 0 = m (Arm64e.csb_mem_kaddr env m (csblob m proc) + j)) ∧
      (env.exact → env.complete → Arm64e.Fresh env m (csblob m proc) →
        ∀ j, j < Arm64e.csb_mem_size env m (csblob m proc) →
          ¬ (Arm64e.entOff env m (csblob m proc) + 8 ≤ j ∧
            j < Arm64e.entOff env m (csblob m proc) + Arm64e.length env m (csblob m proc)) →
          ¬ (Arm64e.bufOff env m (csblob m proc) ≤ j ∧
            j < Arm64e.bufOff env m (csblob m proc) + 32) →
          r.mem (Arm64e.newBase env m (csblob m proc) + j)
            = m (Arm64e.csb_mem_kaddr env m (csblob m proc) + j)) := by
  have e := Arm64e.entitle_pass_arm env m proc ent verbose hr hp.1 hp.2
  have hws := Arm64e.writes_pass env m proc ent verbose hr hp _ e
  refine ⟨_, _, _, e, hws.2, hws.1, Arm64e.uaddr2_length _ _ _ _ hr hp.1.2.1,
    Arm64e.csb1_length _ _ _, ?_, ?_, ?_⟩
  · intro hd a ha1 ha2
    obtain ⟨d1, d2⟩ := hd
    unfold Separate at d1 d2
    exact Arm64e.post_outside env m proc ent verbose hr hp _ e a (by omega) (by omega)
  · intro hx j hj h1 h2
    exact Arm64e.uaddr2_frame env m (csblob m proc) ent hx hr hp.1.2.1 j hj h1 h2
  · intro hx hw hf j hj h1 h2
    have hu := Arm64e.uaddr2_frame env m (csblob m proc) ent hx hr hp.1.2.1 j hj h1 h2
    exact (Arm64e.post_region_byte env m proc ent verbose hr hp hw hf _ e j hj).trans hu

/-- C13, as stated, fails: on the sample target whose record is stored inside the
backing region it describes, `entitle` returns 0 and the write of the record
changes a byte of the previous backing region, the second byte of `csb_cd`, from
`0x50` to `0x90`. -/
theorem C13_counterexample :
    Arm64e.InRegion Sample.env Sample.nested (csblob Sample.nested Sample.proc) ∧
    Arm64e.Passes Sample.env Sample.nested (csblob Sample.nested Sample.proc) Sample.frag ∧
    Arm64e.Fresh Sample.env Sample.nested (csblob Sample.nested Sample.proc) ∧
    Arm64e.csb_mem_kaddr Sample.env Sample.nested (csblob Sample.nested Sample.proc)
      ≤ csblob Sample.nested Sample.proc + 129 ∧
    csblob Sample.nested Sample.proc + 129
      < Arm64e.csb_mem_kaddr Sample.env Sample.nested (csblob Sample.nested Sample.proc)
        + Arm64e.csb_mem_size Sample.env Sample.nested (csblob Sample.nested Sample.proc) ∧
    ∃ r, Arm64e.entitle Sample.env Sample.nested Sample.proc Sample.frag false = some r ∧
      r.rv = 0 ∧ Sample.nested (csblob Sample.nested Sample.proc + 129) = 0x50 ∧
      r.mem (csblob Sample.nested Sample.proc + 129) = 0x90 := by
  have hr := Sample.inRegion_nested
  have hp := Sample.passes_arm_nested
  obtain ⟨_, l2, l3, l4, l5⟩ := Sample.layout_nested
  have e := Arm64e.entitle_pass_arm Sample.env Sample.nested Sample.proc Sample.frag false
    hr hp.1 hp.2
  refine ⟨hr, hp, Sample.fresh_nested, ?_, ?_, _, e, rfl, l4, ?_⟩
  · rw [l2, Sample.csblob_nested]; decide
  · rw [l2, l3, Sample.csblob_nested]; decide
  · exact (Arm64e.post_record_byte _ _ _ _ _ hr hp Sample.env_complete _ e 129 (by decide)).trans l5

/-- C13, as amended, on the sample target. -/
theorem C13_relocation_writes_witness :
    ∃ r buffer rec,
      Arm64e.entitle Sample.env Sample.world Sample.proc Sample.frag false = some r ∧
      writes r.trace = [(Arm64e.newBase Sample.env Sample.world (csblob Sample.world Sample.proc),
        buffer), (csblob Sample.world Sample.proc, rec)] ∧
      buffer.length = Arm64e.csb_mem_size Sample.env Sample.world (csblob Sample.world Sample.proc) ∧
      rec.length = sizeof_cs_blob ∧
      (∀ a, Arm64e.csb_mem_kaddr Sample.env Sample.world (csblob Sample.world Sample.proc) ≤ a →
        a < Arm64e.csb_mem_kaddr Sample.env Sample.world (csblob Sample.world Sample.proc)
          + Arm64e.csb_mem_size Sample.env Sample.world (csblob Sample.world Sample.proc) →
        r.mem a = Sample.world a) ∧
      r.mem (Arm64e.newBase Sample.env Sample.world (csblob Sample.world Sample.proc) + 0)
        = Sample.world
          (Arm64e.csb_mem_kaddr Sample.env Sample.world (csblob Sample.world Sample.proc) + 0) := by
  obtain ⟨r, b, rec, e, _, hws, h1, h2, hd, _, hn⟩ :=
    C13_relocation_writes Sample.env Sample.world Sample.proc Sample.frag false
      Sample.inRegion_world Sample.passes_arm_world
  refine ⟨r, b, rec, e, hws, h1, h2, hd Sample.detached_world, ?_⟩
  exact hn Sample.env_exact Sample.env_complete Sample.fresh_world 0 (by decide!) (by decide!)
    (by decide!)

/-- C14: the address of the entitlements hash slot is
`codeDirectoryBase + SWAP32(hashOffset) - 5 * hashSize` modulo `2 ^ 64`, and the
stored digest is read for the comparison and the recomputed digest is stored at
that same address. In the `!__arm64e__` variant it is a kernel address: the last
kernel read of a run that reaches the comparison and the first kernel write of a
run that passes are both at it. In the `__arm64e__` variant it is a byte offset
from the base of the local copy: the comparison is against the 32 bytes of the
copy at that offset, and the buffer written to the new region holds the
recomputed digest at that offset. -/
theorem C14_slot_address (env : Env) (m : KMem) (proc : Nat) (ent : List Nat)
    (verbose : Bool) :
    ((NonArm64e.hashSlot env m (csblob m proc) : Int)
        = ((NonArm64e.cdir_off m (csblob m proc) : Int)
            + (SWAP32 (field (NonArm64e.cdir env m (csblob m proc)) offsetof_hashOffset 4) : Int)
            - ((5 * field (NonArm64e.cdir env m (csblob m proc)) offsetof_hashSize 1 : Nat) : Int))
          % 2 ^ 64 ∧
      (SWAP32 (field (NonArm64e.cdir env m (csblob m proc)) offsetof_magic 4)
          = CSMAGIC_CODEDIRECTORY →
        8 ≤ NonArm64e.length m (csblob m proc) → env.mallocOk = true →
        (reads (NonArm64e.entitle env m proc ent verbose).trace).getLast?
          = some (NonArm64e.hashSlot env m (csblob m proc), 32)) ∧
      (NonArm64e.Passes env m (csblob m proc) ent →
        (writes (NonArm64e.entitle env m proc ent verbose).trace).head?
          = some (NonArm64e.hashSlot env m (csblob m proc),
              env.sha (NonArm64e.blob1 env m (csblob m proc) ent)))) ∧
    ((Arm64e.bufOff env m (csblob m proc) : Int)
        = ((Arm64e.cdOff env m (csblob m proc) : Int)
            + (SWAP32 (field (Arm64e.csb_mem_uaddr env m (csblob m proc))
                (Arm64e.cdOff env m (csblob m proc) + offsetof_hashOffset) 4) : Int)
            - ((5 * field (Arm64e.csb_mem_uaddr env m (csblob m proc))
                (Arm64e.cdOff env m (csblob m proc) + offsetof_hashSize) 1 : Nat) : Int))
          % 2 ^ 64 ∧
      (Arm64e.InRegion env m (csblob m proc) →
        SWAP32 (field (Arm64e.csb_mem_uaddr env m (csblob m proc))
          (Arm64e.cdOff env m (csblob m proc) + offsetof_magic) 4) = CSMAGIC_CODEDIRECTORY →
        8 ≤ Arm64e.length env m (csblob m proc) →
        ∃ r, Arm64e.entitle env m proc ent verbose = some r ∧
          (diag r = some "bad SHA2\n" ↔
            Arm64e.slice (Arm64e.csb_mem_uaddr env m (csblob m proc))
              (Arm64e.bufOff env m (csblob m proc)) 32
              ≠ env.sha (Arm64e.blob env m (csblob m proc)))) ∧
      (Arm64e.InRegion env m (csblob m proc) → Arm64e.Passes env m (csblob m proc) ent →
        ∃ r buffer, Arm64e.entitle env m proc ent verbose = some r ∧
          (writes r.trace).head? = some (Arm64e.newBase env m (csblob m proc), buffer) ∧
          Arm64e.slice buffer (Arm64e.bufOff env m (csblob m proc)) 32
            = env.sha (Arm64e.blob1 env m (csblob m proc) ent))) := by
  refine ⟨⟨slot_int _ _ _, fun h1 h2 h3 => ?_, fun hp => ?_⟩,
    ⟨slot_int _ _ _, fun hr h1 h2 => ?_, fun hr hp => ?_⟩⟩
  · rw [NonArm64e.reads_reached env m proc ent verbose h1 h2 h3]
    exact NonArm64e.reads_traceDigest env m proc verbose
  · rw [NonArm64e.entitle_pass env m proc ent verbose hp.1 hp.2]
    show (writes (NonArm64e.traceDigest env m proc verbose ++ _ ++ _)).head? = _
    rw [writes_append, writes_append, NonArm64e.writes_traceDigest,
      List.take_of_length_le (l := env.sha _) (by rw [env.sha_length])]
    rfl
  · obtain ⟨r, e, hd⟩ := Arm64e.diag_badSHA2_arm env m proc ent verbose hr h1 h2
    refine ⟨r, e, hd.trans ?_⟩
    exact memcmp_true_iff _ _
      (slice_length _ _ _ (by rw [Arm64e.csb_mem_uaddr_length]; exact hr.2.2.2.2))
      (env.sha_length _)
  · have e := Arm64e.entitle_pass_arm env m proc ent verbose hr hp.1 hp.2
    have hw := Arm64e.writes_pass env m proc ent verbose hr hp _ e
    refine ⟨_, _, e, ?_, Arm64e.uaddr2_slot env m (csblob m proc) ent hr hp.1.2.1⟩
    rw [hw.1]
    rfl

/-- C14, on the sample target: the slot is at `0x5040`, offset `0x40` of the region. -/
theorem C14_slot_address_witness :
    NonArm64e.hashSlot Sample.env Sample.world (csblob Sample.world Sample.proc) = 0x5040 ∧
    (reads (NonArm64e.entitle Sample.env Sample.world Sample.proc Sample.frag false).trace).getLast?
      = some (NonArm64e.hashSlot Sample.env Sample.world (csblob Sample.world Sample.proc), 32) ∧
    (writes (NonArm64e.entitle Sample.env Sample.world Sample.proc Sample.frag false).trace).head?
      = some (NonArm64e.hashSlot Sample.env Sample.world (csblob Sample.world Sample.proc),
          Sample.env.sha (NonArm64e.blob1 Sample.env Sample.world (csblob Sample.world Sample.proc)
            Sample.frag)) ∧
    Arm64e.bufOff Sample.env Sample.world (csblob Sample.world Sample.proc) = 0x40 ∧
    ∃ r buffer, Arm64e.entitle Sample.env Sample.world Sample.proc Sample.frag false = some r ∧
      (writes r.trace).head?
        = some (Arm64e.newBase Sample.env Sample.world (csblob Sample.world Sample.proc), buffer) ∧
      Arm64e.slice buffer (Arm64e.bufOff Sample.env Sample.world (csblob Sample.world Sample.proc))
          32
        = Sample.env.sha (Arm64e.blob1 Sample.env Sample.world (csblob Sample.world Sample.proc)
            Sample.frag) := by
  have c := C14_slot_address Sample.env Sample.world Sample.proc Sample.frag false
  obtain ⟨v1, v2, v3, _⟩ := Sample.validated_world
  exact ⟨Sample.world_hashSize.2.1, c.1.2.1 v1 v2 v3,
    c.1.2.2 (Sample.passes_world (fun _ => 0) 0 (fun _ => rfl)), Sample.world_hashSize.2.2,
    c.2.2.2 Sample.inRegion_world Sample.passes_arm_world⟩

/-- C15, as amended: the stored digest that `entitle` reads from the hash slot and
compares against the computed digest is 32 bytes wide for every header,
whatever the value of the `hashSize` field. In the `!__arm64e__` variant the
read is `kread(off, buf, 32)` into a 32-byte buffer; in both variants the
diagnostic `bad SHA2` is printed exactly when the first 32 bytes differ. The
field `hashSize` enters the slot address only. -/
theorem C15_digest_width (env : Env) (m : KMem) (proc : Nat) (ent : List Nat)
    (verbose : Bool) :
    (SWAP32 (field (NonArm64e.cdir env m (csblob m proc)) offsetof_magic 4)
        = CSMAGIC_CODEDIRECTORY →
      8 ≤ NonArm64e.length m (csblob m proc) → env.mallocOk = true →
      (reads (NonArm64e.entitle env m proc ent verbose).trace).getLast?
        = some (NonArm64e.hashSlot env m (csblob m proc), 32) ∧
      (NonArm64e.buf env m (csblob m proc)).length = 32 ∧
      (diag (NonArm64e.entitle env m proc ent verbose) = some "bad SHA2\n" ↔
        (NonArm64e.buf env m (csblob m proc)).take 32
          ≠ (env.sha (NonArm64e.blob env m (csblob m proc))).take 32)) ∧
    (Arm64e.InRegion env m (csblob m proc) →
      SWAP32 (field (Arm64e.csb_mem_uaddr env m (csblob m proc))
        (Arm64e.cdOff env m (csblob m proc) + offsetof_magic) 4) = CSMAGIC_CODEDIRECTORY →
      8 ≤ Arm64e.length env m (csblob m proc) →
      ∃ r, Arm64e.entitle env m proc ent verbose = some r ∧
        (diag r = some "bad SHA2\n" ↔
          (Arm64e.slice (Arm64e.csb_mem_uaddr env m (csblob m proc))
              (Arm64e.bufOff env m (csblob m proc)) 32).take 32
            ≠ (env.sha (Arm64e.blob env m (csblob m proc))).take 32)) := by
  refine ⟨fun h1 h2 h3 => ⟨?_, NonArm64e.buf_length _ _ _, ?_⟩, fun hr h1 h2 => ?_⟩
  · rw [NonArm64e.reads_reached env m proc ent verbose h1 h2 h3]
    exact NonArm64e.reads_traceDigest env m proc verbose
  · rw [NonArm64e.diag_badSHA2 env m proc ent verbose h1 h2 h3]
    simp [memcmp]
  · obtain ⟨r, e, hd⟩ := Arm64e.diag_badSHA2_arm env m proc ent verbose hr h1 h2
    refine ⟨r, e, hd.trans ?_⟩
    simp [memcmp]

/-- C15, as stated, fails: on the sample target whose header has `hashSize = 20`,
the 20 bytes at the hash slot are the first 20 bytes of the SHA-256 of the blob,
yet `entitle` reads 32 bytes at the slot, compares 32 bytes and reports
`bad SHA2`. -/
theorem C15_counterexample :
    field (NonArm64e.cdir Sample.env Sample.narrow (csblob Sample.narrow Sample.proc))
      offsetof_hashSize 1 = 20 ∧
    kbytes Sample.narrow
        (NonArm64e.hashSlot Sample.env Sample.narrow (csblob Sample.narrow Sample.proc)) 20
      = (Sample.env.sha (kbytes Sample.narrow
          (NonArm64e.blob_off Sample.narrow (csblob Sample.narrow Sample.proc))
          (NonArm64e.length Sample.narrow (csblob Sample.narrow Sample.proc)))).take 20 ∧
    (reads (NonArm64e.entitle Sample.env Sample.narrow Sample.proc Sample.frag false).trace).getLast?
      = some (NonArm64e.hashSlot Sample.env Sample.narrow (csblob Sample.narrow Sample.proc), 32) ∧
    (NonArm64e.entitle Sample.env Sample.narrow Sample.proc Sample.frag false).rv = -1 ∧
    diag (NonArm64e.entitle Sample.env Sample.narrow Sample.proc Sample.frag false)
      = some "bad SHA2\n" := by
  obtain ⟨h1, h2, h3, _, h5, h6⟩ := Sample.narrow_facts
  refine ⟨h3, h5, ?_, ?_, ?_⟩
  · rw [NonArm64e.reads_reached _ _ _ _ _ h1 h2 rfl]
    exact NonArm64e.reads_traceDigest _ _ _ _
  · rw [NonArm64e.entitle_badSHA2 _ _ _ _ _ h1 h2 rfl h6]
  · exact (NonArm64e.diag_badSHA2 _ _ _ _ _ h1 h2 rfl).2 h6

/-- C15, as amended, on the sample target, whose header has `hashSize = 32`. -/
theorem C15_digest_width_witness :
    field (NonArm64e.cdir Sample.env Sample.world (csblob Sample.world Sample.proc))
      offsetof_hashSize 1 = 32 ∧
    (reads (NonArm64e.entitle Sample.env Sample.world Sample.proc Sample.frag false).trace).getLast?
      = some (NonArm64e.hashSlot Sample.env Sample.world (csblob Sample.world Sample.proc), 32) ∧
    diag (NonArm64e.entitle Sample.env Sample.world Sample.proc Sample.frag false)
      ≠ some "bad SHA2\n" ∧
    ∃ r, Arm64e.entitle Sample.env Sample.world Sample.proc Sample.frag false = some r ∧
      diag r ≠ some "bad SHA2\n" := by
  have c := C15_digest_width Sample.env Sample.world Sample.proc Sample.frag false
  obtain ⟨v1, v2, v3, v4⟩ := Sample.validated_world
  obtain ⟨a1, a2, a3⟩ := Sample.validated_arm_world
  have c1 := c.1 v1 v2 v3
  obtain ⟨r, e, hd⟩ := c.2 Sample.inRegion_world a1 a2
  refine ⟨Sample.world_hashSize.1, c1.1, fun h => ?_, r, e, fun h => ?_⟩
  · have := c1.2.2.1 h
    simp only [memcmp] at v4
    simp at v4
    exact this v4
  · have := hd.1 h
    simp only [memcmp] at a3
    simp at a3
    exact this a3

/-- C16: for every process handle `proc`, the record address `entitle` uses is
`read64(read64(read64(proc + 0x230) + 0x78) + 0x50)`, with the additions modulo
`2 ^ 64`. In both variants the first three events of every run are these three
8-byte kernel reads, in this order, and the fourth event is a kernel read at the
record address found: the field `csb_cd` at offset 128 in the `!__arm64e__`
variant, the whole 160-byte record in the `__arm64e__` variant, which returns a
result whenever its behaviour is defined. -/
theorem C16_locator (env : Env) (m : KMem) (proc : Nat) (ent : List Nat) (verbose : Bool) :
    csblob m proc
      = kread_uint64 m (u64 (kread_uint64 m (u64 (kread_uint64 m (u64 (proc + 0x230)) + 0x78))
          + 0x50)) ∧
    (∃ rest, (NonArm64e.entitle env m proc ent verbose).trace
      = Event.kread (u64 (proc + 0x230)) 8
        :: Event.kread (u64 (kread_uint64 m (u64 (proc + 0x230)) + 0x78)) 8
        :: Event.kread (u64 (kread_uint64 m (u64 (kread_uint64 m (u64 (proc + 0x230)) + 0x78))
            + 0x50)) 8
        :: Event.kread (u64 (csblob m proc + offsetof_csb_cd)) 8 :: rest) ∧
    (∀ r, Arm64e.entitle env m proc ent verbose = some r →
      ∃ rest, r.trace
        = Event.kread (u64 (proc + 0x230)) 8
          :: Event.kread (u64 (kread_uint64 m (u64 (proc + 0x230)) + 0x78)) 8
          :: Event.kread (u64 (kread_uint64 m (u64 (kread_uint64 m (u64 (proc + 0x230)) + 0x78))
              + 0x50)) 8
          :: Event.kread (csblob m proc) sizeof_cs_blob :: rest) ∧
    (Arm64e.InRegion env m (csblob m proc) →
      ∃ r, Arm64e.entitle env m proc ent verbose = some r) := by
  refine ⟨rfl, ?_, ?_, fun hr => ?_⟩
  · unfold NonArm64e.entitle
    simp only
    split_ifs <;> exact ⟨_, rfl⟩
  · intro r
    intro e
    unfold Arm64e.entitle at e
    dsimp only at e
    by_cases c0 : env.mallocOk = false
    · rw [if_pos c0] at e; cases e
    rw [if_neg c0] at e
    by_cases c1 : Arm64e.csb_mem_size env m (csblob m proc)
        < Arm64e.cdOff env m (csblob m proc) + sizeof_CS_CodeDirectory
    · rw [if_pos c1] at e; cases e
    rw [if_neg c1] at e
    by_cases c2 : SWAP32 (field (Arm64e.csb_mem_uaddr env m (csblob m proc))
        (Arm64e.cdOff env m (csblob m proc) + offsetof_magic) 4) ≠ CSMAGIC_CODEDIRECTORY
    · rw [if_pos c2] at e; cases e; exact ⟨_, rfl⟩
    rw [if_neg c2] at e
    by_cases c3 : Arm64e.csb_mem_size env m (csblob m proc)
        < Arm64e.entOff env m (csblob m proc) + sizeof_CS_GenericBlob
    · rw [if_pos c3] at e; cases e
    rw [if_neg c3] at e
    by_cases c4 : Arm64e.length env m (csblob m proc) < 8
    · rw [if_pos c4] at e; cases e; exact ⟨_, rfl⟩
    rw [if_neg c4] at e
    by_cases c5 : Arm64e.csb_mem_size env m (csblob m proc)
        < Arm64e.entOff env m (csblob m proc) + Arm64e.length env m (csblob m proc)
    · rw [if_pos c5] at e; cases e
    rw [if_neg c5] at e
    by_cases c6 : Arm64e.csb_mem_size env m (csblob m proc)
        < Arm64e.bufOff env m (csblob m proc) + 32
    · rw [if_pos c6] at e; cases e
    rw [if_neg c6] at e
    by_cases c7 : memcmp (Arm64e.slice (Arm64e.csb_mem_uaddr env m (csblob m proc))
        (Arm64e.bufOff env m (csblob m proc)) 32)
        (env.sha (Arm64e.blob env m (csblob m proc))) 32 = true
    · rw [if_pos c7] at e; cases e; exact ⟨_, rfl⟩
    rw [if_neg c7] at e
    by_cases c8 : newlen ent ≥ Arm64e.length env m (csblob m proc) - sizeof_CS_GenericBlob
    · rw [if_pos c8] at e; cases e; exact ⟨_, rfl⟩
    rw [if_neg c8] at e
    cases e
    exact ⟨_, rfl⟩
  · by_cases hp : Arm64e.Passes env m (csblob m proc) ent
    · exact ⟨_, Arm64e.entitle_pass_arm env m proc ent verbose hr hp.1 hp.2⟩
    · obtain ⟨o, e, _⟩ := Arm64e.entitle_fail_arm env m proc ent verbose hr hp
      exact ⟨o, e⟩

/-- C16, on the sample target: the record is at `0x4000`. -/
theorem C16_locator_witness :
    csblob Sample.world Sample.proc = 0x4000 ∧
    ∃ r rest, Arm64e.entitle Sample.env Sample.world Sample.proc Sample.frag false = some r ∧
      r.trace
        = Event.kread (u64 (Sample.proc + 0x230)) 8
          :: Event.kread (u64 (kread_uint64 Sample.world (u64 (Sample.proc + 0x230)) + 0x78)) 8
          :: Event.kread (u64 (kread_uint64 Sample.world
              (u64 (kread_uint64 Sample.world (u64 (Sample.proc + 0x230)) + 0x78)) + 0x50)) 8
          :: Event.kread (csblob Sample.world Sample.proc) sizeof_cs_blob :: rest := by
  have c := C16_locator Sample.env Sample.world Sample.proc Sample.frag false
  obtain ⟨r, e⟩ := c.2.2.2 Sample.inRegion_world
  obtain ⟨rest, h⟩ := c.2.2.1 r e
  exact ⟨Sample.csblob_world, r, rest, e, h⟩

end Ents
